import Mathlib

/-!
# rucksack: the manifest interpreter of `src/main.c`

A shallow embedding of the `bundle` command of rucksack: the five tokenizer
callbacks (`on_string`, `on_number`, `on_primitive`, `on_begin`, `on_end`),
`parse_error`, `resolve_path`, `glob_insert_files`, and the part of
`command_bundle` that runs the tokenizer and closes the bundle.

Conventions of the embedding.

* The file-scope variables of `main.c` (`state`, `parse_err_occurred`, `strbuf`,
  `page`, `page_key`, `file_key`, `file_path`, `image`, `image_key`,
  `path_prefix`, `glob_glob`, `glob_prefix`) are the fields of `Session`; every
  C function becomes a function from a session to a return code and a session.
* A C string is a `String` holding one character per byte and no NUL, so that
  `strlen` is `String.length` and `strcmp(a, b) == 0` is `a = b`. A `char *`
  that may be `NULL` is an `Option String`.
* `free` leaves the pointer variable as it is; only the assignments of `NULL`
  written in the source clear a variable.
* `malloc` and `strdup` are taken to succeed.
* The standard error stream is the list `Session.stderr` of lines written, and
  the calls made on the bundle are the list `Session.calls`.
* What the code receives from outside (the bundle library, `glob`, `stat`) is
  the record `Env`.
* A step with no defined C behaviour (dereferencing a `NULL` page, passing
  `NULL` to `glob` or to a `%s` conversion, a failed `assert`) sets
  `Session.crashed` and returns `-1`.
* `debug_mode` is never assigned in `main.c`, so the debug `fprintf`s of the
  callbacks never run and are left out.
* A `double` is the rational number it denotes.
-/

set_option linter.unusedVariables false

namespace Rucksack

/-! ## Data model -/

/-- The grammar positions: `enum State`. -/
inductive State where
  | StateStart
  | StateTopLevelProp
  | StateDone
  | StateTextures
  | StateTextureName
  | StateExpectImagesObject
  | StateImageName
  | StateImageObjectBegin
  | StateImagePropName
  | StateImagePropAnchor
  | StateImagePropAnchorObject
  | StateImagePropAnchorX
  | StateImagePropAnchorY
  | StateImagePropPath
  | StateExpectTextureObject
  | StateTextureProp
  | StateTextureMaxWidth
  | StateTextureMaxHeight
  | StateTexturePow2
  | StateExpectFilesObject
  | StateFileName
  | StateFileObjectBegin
  | StateFilePropName
  | StateFilePropPath
  | StateExpectGlobArray
  | StateGlobObject
  | StateGlobObjectProp
  | StateGlobValueGlob
  | StateGlobValuePrefix
  deriving DecidableEq, Repr

/-- The token kinds of laxjson, in the order of `JSON_TYPE_STR`. -/
inductive LaxJsonType where
  | String
  | Property
  | Number
  | Object
  | Array
  | True
  | False
  | Null
  deriving DecidableEq, Repr

/-- The anchor tags `RuckSackAnchor...` that `main.c` assigns. -/
inductive RuckSackAnchor where
  | Center
  | Explicit
  | Left
  | Right
  | Top
  | Bottom
  | TopLeft
  | TopRight
  | BottomLeft
  | BottomRight
  deriving DecidableEq, Repr

/-- The fields of `struct RuckSackImage` that `main.c` touches. -/
structure RuckSackImage where
  path : Option String
  anchor : RuckSackAnchor
  anchor_x : ℚ
  anchor_y : ℚ
  deriving DecidableEq

/-- Modelled from the spec: `struct RuckSackPage` (declared in `rucksack.h`,
which is not part of the sources). The spec's texture page draft has an optional
max width, an optional max height, an optional power-of-two flag and an ordered
mapping from image name to image draft. -/
structure RuckSackPage where
  max_width : Option Int
  max_height : Option Int
  pow2 : Option Int
  images : List (Option String × RuckSackImage)
  deriving DecidableEq

/-- Modelled from the spec: `rucksack_page_create` (defined in the bundle
library, which is not part of the sources). A fresh page draft has no field
given and holds no image. -/
def rucksack_page_create : RuckSackPage :=
  { max_width := none, max_height := none, pow2 := none, images := [] }

/-- A call made on the bundle library, with the arguments passed. -/
inductive Action where
  | addPage (key : Option String) (page : Option RuckSackPage)
  | addImage (key : Option String) (image : RuckSackImage)
  | addFile (key : Option String) (path : Option String)
  deriving DecidableEq

/-- What `glob` hands back: one of its three error codes, or the matches. -/
inductive GlobResult where
  | GLOB_NOSPACE
  | GLOB_ABORTED
  | GLOB_NOMATCH
  | matches (gl_pathv : List String)
  deriving DecidableEq

/-- What `stat` reports on a path, as far as the code looks at it. -/
inductive StatResult where
  | failed
  | directory
  | other
  deriving DecidableEq

/-- The collaborators of the interpreter. The three bundle functions return an
error code (`0` is success) that may depend on the calls made before. -/
structure Env where
  rucksack_bundle_add_page : List Action → Option String → Option RuckSackPage → Nat
  rucksack_page_add_image : List Action → Option String → RuckSackImage → Nat
  rucksack_bundle_add_file : List Action → Option String → Option String → Nat
  glob : String → GlobResult
  stat : String → StatResult

/-- The position the tokenizer is at: `json->line` and `json->column`. -/
structure LaxJsonContext where
  line : Nat
  column : Nat
  deriving DecidableEq

/-- The file-scope variables of `main.c`, the two output channels and the
crash flag. -/
structure Session where
  state : State
  parse_err_occurred : Bool
  strbuf : String
  page : Option RuckSackPage
  page_key : Option String
  file_key : Option String
  file_path : Option String
  image : RuckSackImage
  image_key : Option String
  path_prefix : String
  glob_glob : Option String
  glob_prefix : Option String
  stderr : List String
  calls : List Action
  crashed : Bool
  deriving DecidableEq

/-- The variables as the initialisers of `main.c` leave them, for a given root
prefix (`"."` unless `--prefix` is given). -/
def Session.init ( path_prefix : String) : Session :=
  { state := State.StateStart
    parse_err_occurred := false
    strbuf := ""
    page := none
    page_key := none
    file_key := none
    file_path := none
    image := { path := none, anchor := RuckSackAnchor.Center, anchor_x := 0, anchor_y := 0 }
    image_key := none
    path_prefix := path_prefix
    glob_glob := none
    glob_prefix := none
    stderr := []
    calls := []
    crashed := false }

/-- The table `RS_ERROR_STR`. -/
def RS_ERROR_STR : List String :=
  [ ""
  , "out of memory"
  , "problem accessing file"
  , "invalid bundle format"
  , "invalid anchor enum value"
  , "cannot fit all images into page"
  , "image has no pixels"
  , "unrecognized image format"
  , "key not found" ]

/-- The table `ERR_STR` of tokenizer errors. -/
def ERR_STR : List String :=
  [ ""
  , "unexpected char"
  , "expected EOF"
  , "exceeded max stack"
  , "no mem"
  , "exceeded max value size"
  , "invalid hex digit"
  , "invalid unicode point"
  , "expected colon"
  , "unexpected EOF"
  , "aborted" ]

/-! ## Helpers of the C library -/

/-- What `snprintf(buf, size, ...)` leaves in `buf` when the formatted text is
`text`: its first `size - 1` bytes. -/
def snprintf (size : Nat) (text : String) : String :=
  String.mk (text.data.take (size - 1))

/-- The bound `sizeof(strbuf)`, also the size of the buffer `resolve_path`
allocates. -/
def STRBUF_SIZE : Nat := 1024

/-- The whole number obtained from a rational by dropping its fractional part
(rounding toward zero). -/
def truncate (x : ℚ) : Int := x.num.tdiv x.den

def INT_MIN : Int := -2147483648

def INT_MAX : Int := 2147483647

/-- The conversion `(int)x` of a `double`: truncation toward zero. Outside the
range of `int` the C standard leaves the conversion undefined; the value taken
here is the one x86-64 produces. Whichever `int` it is, converting it back to
`double` cannot give `x`, so the test `x != (double)(int)x` of `on_number` has
the same verdict. -/
def double_to_int (x : ℚ) : Int :=
  if INT_MIN ≤ truncate x ∧ truncate x ≤ INT_MAX then truncate x else INT_MIN

/-! ## The functions of `main.c` -/

/-- The line `fprintf(stderr, "line %d, col %d: %s\n", ...)` writes in
`parse_error`. -/
def diagnostic (json : LaxJsonContext) (msg : String) : String :=
  "line " ++ toString json.line ++ ", col " ++ toString json.column ++ ": " ++ msg ++ "\n"

/-- The function `parse_error`: the first report writes one line to the
standard error stream and sets the latch; every report returns `-1`. -/
def parse_error (json : LaxJsonContext) (msg : String) (s : Session) : Int × Session :=
  if s.parse_err_occurred then (-1, s)
  else
    (-1, { s with
      stderr := s.stderr ++ [diagnostic json msg]
      parse_err_occurred := true })

/-- The function `resolve_path`, with the global `path_prefix` as first
argument. -/
def resolve_path ( path_prefix path : String) : String :=
  if path.data.head? = some '/' then path
  else snprintf STRBUF_SIZE ( path_prefix ++ "/" ++ path)

/-- The text `relative_path` points at in `glob_insert_files` once the root
prefix has been skipped. -/
def relative_path ( path_prefix path : String) : String :=
  if path.length > path_prefix.length ∧
      path.data.take path_prefix.length = path_prefix.data then
    String.mk ((path.data.drop path_prefix.length).dropWhile (fun c => c == '/'))
  else path

/-- The bundle key `glob_insert_files` formats into `strbuf` for a match. -/
def glob_key ( glob_prefix path_prefix path : String) : String :=
  snprintf STRBUF_SIZE ( glob_prefix ++ relative_path path_prefix path)

/-- The body of the `for` loop of `glob_insert_files`, over the matches that are
left. -/
def glob_insert_loop (env : Env) (json : LaxJsonContext) :
    List String → Session → Int × Session
  | [], s => (0, s)
  | path :: rest, s =>
    match env.stat path with
    | StatResult.failed =>
      let s1 := { s with strbuf := snprintf STRBUF_SIZE ("unable to stat " ++ path) }
      parse_error json s1.strbuf s1
    | StatResult.directory => glob_insert_loop env json rest s
    | StatResult.other =>
      match Session.glob_prefix s with
      | none => (-1, { s with crashed := true })
      | some glob_prefix =>
        let s1 := { s with
          strbuf := glob_key glob_prefix ( Session.path_prefix s) path }
        let err := env.rucksack_bundle_add_file s1.calls (some s1.strbuf) (some path)
        let s2 := { s1 with calls := s1.calls ++ [Action.addFile (some s1.strbuf) (some path)] }
        if err ≠ 0 then
          let s3 := { s2 with
            strbuf := snprintf STRBUF_SIZE
              ("unable to add " ++ path ++ ": " ++ RS_ERROR_STR.getD err "") }
          parse_error json s3.strbuf s3
        else glob_insert_loop env json rest s2

/-- The function `glob_insert_files`. -/
def glob_insert_files (env : Env) (json : LaxJsonContext) (s : Session) : Int × Session :=
  match s.glob_glob with
  | none => (-1, { s with crashed := true })
  | some pattern =>
    match env.glob pattern with
    | GlobResult.GLOB_NOSPACE => parse_error json "out of memory" s
    | GlobResult.GLOB_ABORTED => parse_error json "read error while globbing" s
    | GlobResult.GLOB_NOMATCH => parse_error json "no patterns matched" s
    | GlobResult.matches gl_pathv => glob_insert_loop env json gl_pathv s

/-- Modelled from the spec: `rucksack_page_add_image` (defined in the bundle
library, which is not part of the sources). The library answers with an error
code; on success the image draft is committed into the page under its key, after
the images already there. -/
def rucksack_page_add_image (env : Env) (calls : List Action) (page : RuckSackPage)
    (key : Option String) (image : RuckSackImage) : Nat × RuckSackPage :=
  let err := env.rucksack_page_add_image calls key image
  if err = 0 then (err, { page with images := page.images ++ [(key, image)] })
  else (err, page)

/-- The callback `on_string`, called for property names and for string values
alike. -/
def on_string (json : LaxJsonContext) (type : LaxJsonType) (value : String) (s : Session) :
    Int × Session :=
  match s.state with
  | State.StateStart => parse_error json "top-level value must be an object, not string" s
  | State.StateDone => parse_error json "unexpected content after EOF" s
  | State.StateTopLevelProp =>
    if value = "textures" then (0, { s with state := State.StateTextures })
    else if value = "files" then (0, { s with state := State.StateExpectFilesObject })
    else if value = "globFiles" then (0, { s with state := State.StateExpectGlobArray })
    else
      let s1 := { s with strbuf := snprintf STRBUF_SIZE ("unknown top level property: " ++ value) }
      parse_error json s1.strbuf s1
  | State.StateTextures => parse_error json "expected textures to be an object, not string" s
  | State.StateTextureName =>
    (0, { s with
      page := some rucksack_page_create
      page_key := some value
      state := State.StateExpectTextureObject })
  | State.StateExpectImagesObject => parse_error json "expected images object, not string" s
  | State.StateImageName =>
    (0, { s with
      image := { s.image with anchor := RuckSackAnchor.Center, path := none }
      image_key := some value
      state := State.StateImageObjectBegin })
  | State.StateFileName =>
    (0, { s with file_key := some value, state := State.StateFileObjectBegin })
  | State.StateImageObjectBegin =>
    parse_error json "expected image properties object, not string" s
  | State.StateFilePropName =>
    if value = "path" then (0, { s with state := State.StateFilePropPath })
    else
      let s1 := { s with strbuf := snprintf STRBUF_SIZE ("unknown file property: " ++ value) }
      parse_error json s1.strbuf s1
  | State.StateImagePropName =>
    if value = "anchor" then (0, { s with state := State.StateImagePropAnchor })
    else if value = "path" then (0, { s with state := State.StateImagePropPath })
    else
      let s1 := { s with strbuf := snprintf STRBUF_SIZE ("unknown image property: " ++ value) }
      parse_error json s1.strbuf s1
  | State.StateImagePropAnchor =>
    let set := fun (a : RuckSackAnchor) =>
      ((0 : Int), { s with image := { s.image with anchor := a }, state := State.StateImagePropName })
    if value = "top" then set RuckSackAnchor.Top
    else if value = "right" then set RuckSackAnchor.Right
    else if value = "bottom" then set RuckSackAnchor.Bottom
    else if value = "left" then set RuckSackAnchor.Left
    else if value = "topleft" then set RuckSackAnchor.TopLeft
    else if value = "topright" then set RuckSackAnchor.TopRight
    else if value = "bottomleft" then set RuckSackAnchor.BottomLeft
    else if value = "bottomright" then set RuckSackAnchor.BottomRight
    else if value = "center" then set RuckSackAnchor.Center
    else
      let s1 := { s with strbuf := snprintf STRBUF_SIZE ("unknown anchor value: " ++ value) }
      parse_error json s1.strbuf s1
  | State.StateImagePropAnchorObject =>
    if value = "x" then (0, { s with state := State.StateImagePropAnchorX })
    else if value = "y" then (0, { s with state := State.StateImagePropAnchorY })
    else
      let s1 := { s with
        strbuf := snprintf STRBUF_SIZE ("unknown anchor point property: " ++ value) }
      parse_error json s1.strbuf s1
  | State.StateImagePropAnchorX => parse_error json "expected number" s
  | State.StateImagePropAnchorY => parse_error json "expected number" s
  | State.StateFilePropPath =>
    (0, { s with
      file_path := some (resolve_path ( Session.path_prefix s) value)
      state := State.StateFilePropName })
  | State.StateImagePropPath =>
    (0, { s with
      image := { s.image with path := some (resolve_path ( Session.path_prefix s) value) }
      state := State.StateImagePropName })
  | State.StateTextureProp =>
    if value = "images" then (0, { s with state := State.StateExpectImagesObject })
    else if value = "maxWidth" then (0, { s with state := State.StateTextureMaxWidth })
    else if value = "maxHeight" then (0, { s with state := State.StateTextureMaxHeight })
    else if value = "pow2" then (0, { s with state := State.StateTexturePow2 })
    else
      let s1 := { s with strbuf := snprintf STRBUF_SIZE ("unknown texture property: " ++ value) }
      parse_error json s1.strbuf s1
  | State.StateGlobObjectProp =>
    if value = "glob" then (0, { s with state := State.StateGlobValueGlob })
    else if value = "prefix" then (0, { s with state := State.StateGlobValuePrefix })
    else
      let s1 := { s with strbuf := snprintf STRBUF_SIZE ("unknown glob property: " ++ value) }
      parse_error json s1.strbuf s1
  | State.StateGlobValueGlob =>
    (0, { s with
      glob_glob := some (resolve_path ( Session.path_prefix s) value)
      state := State.StateGlobObjectProp })
  | State.StateGlobValuePrefix =>
    (0, { s with glob_prefix := some value, state := State.StateGlobObjectProp })
  | _ => parse_error json "unexpected string" s

/-- The callback `on_number`. -/
def on_number (json : LaxJsonContext) (x : ℚ) (s : Session) : Int × Session :=
  match s.state with
  | State.StateStart => parse_error json "top-level value must be an object, not number" s
  | State.StateDone => parse_error json "unexpected content after EOF" s
  | State.StateTextures => parse_error json "expected textures to be an object, not number" s
  | State.StateExpectImagesObject => parse_error json "expected image object, not number" s
  | State.StateImageObjectBegin =>
    parse_error json "expected image properties object, not number" s
  | State.StateImagePropAnchor => parse_error json "expected object or string, not number" s
  | State.StateImagePropAnchorX =>
    (0, { s with
      image := { s.image with anchor_x := x }
      state := State.StateImagePropAnchorObject })
  | State.StateImagePropAnchorY =>
    (0, { s with
      image := { s.image with anchor_x := x }
      state := State.StateImagePropAnchorObject })
  | State.StateImagePropPath => parse_error json "expected string, not number" s
  | State.StateTextureMaxWidth =>
    if x ≠ ((double_to_int x : Int) : ℚ) then parse_error json "expected integer" s
    else
      match s.page with
      | none => (-1, { s with crashed := true })
      | some page =>
        (0, { s with
          page := some { page with max_width := some (double_to_int x) }
          state := State.StateTextureProp })
  | State.StateTextureMaxHeight =>
    if x ≠ ((double_to_int x : Int) : ℚ) then parse_error json "expected integer" s
    else
      match s.page with
      | none => (-1, { s with crashed := true })
      | some page =>
        (0, { s with
          page := some { page with max_height := some (double_to_int x) }
          state := State.StateTextureProp })
  | _ => parse_error json "unexpected number" s

/-- The callback `on_primitive`, called for `true`, `false` and `null`. -/
def on_primitive (json : LaxJsonContext) (type : LaxJsonType) (s : Session) : Int × Session :=
  match s.state with
  | State.StateTexturePow2 =>
    match type with
    | LaxJsonType.True =>
      match s.page with
      | none => (-1, { s with crashed := true })
      | some page =>
        (0, { s with page := some { page with pow2 := some 1 }, state := State.StateTextureProp })
    | LaxJsonType.False =>
      match s.page with
      | none => (-1, { s with crashed := true })
      | some page =>
        (0, { s with page := some { page with pow2 := some 0 }, state := State.StateTextureProp })
    | _ => parse_error json "expected true or false" s
  | _ => parse_error json "unexpected primitive" s

/-- The callback `on_begin`, called at the start of an object or of an array. -/
def on_begin (json : LaxJsonContext) (type : LaxJsonType) (s : Session) : Int × Session :=
  if type = LaxJsonType.Array then
    match s.state with
    | State.StateExpectGlobArray => (0, { s with state := State.StateGlobObject })
    | _ => parse_error json "unexpected array" s
  else if type ≠ LaxJsonType.Object then (-1, { s with crashed := true })
  else
    match s.state with
    | State.StateStart => (0, { s with state := State.StateTopLevelProp })
    | State.StateTextures => (0, { s with state := State.StateTextureName })
    | State.StateExpectImagesObject => (0, { s with state := State.StateImageName })
    | State.StateExpectTextureObject => (0, { s with state := State.StateTextureProp })
    | State.StateImageObjectBegin => (0, { s with state := State.StateImagePropName })
    | State.StateFileObjectBegin => (0, { s with state := State.StateFilePropName })
    | State.StateImagePropAnchor =>
      (0, { s with
        state := State.StateImagePropAnchorObject
        image := { s.image with anchor := RuckSackAnchor.Explicit } })
    | State.StateExpectFilesObject => (0, { s with state := State.StateFileName })
    | State.StateGlobObject =>
      (0, { s with state := State.StateGlobObjectProp, glob_glob := none, glob_prefix := none })
    | _ => parse_error json "unexpected object" s

/-- The callback `on_end`, called at the end of an object or of an array. -/
def on_end (env : Env) (json : LaxJsonContext) (type : LaxJsonType) (s : Session) :
    Int × Session :=
  match s.state with
  | State.StateStart => parse_error json "expected an object, got nothing" s
  | State.StateTopLevelProp => (0, { s with state := State.StateDone })
  | State.StateDone => parse_error json "unexpected content after EOF" s
  | State.StateImagePropName =>
    match s.page with
    | none => (-1, { s with crashed := true })
    | some page =>
      let r := rucksack_page_add_image env s.calls page s.image_key s.image
      (0, { s with
        calls := s.calls ++ [Action.addImage s.image_key s.image]
        page := some r.2
        image := { s.image with path := none }
        image_key := none
        state := State.StateImageName })
  | State.StateFilePropName =>
    let err := env.rucksack_bundle_add_file s.calls s.file_key s.file_path
    let s1 := { s with calls := s.calls ++ [Action.addFile s.file_key s.file_path] }
    if err ≠ 0 then
      let s2 := { s1 with
        strbuf := snprintf STRBUF_SIZE ("unable to add file: " ++ RS_ERROR_STR.getD err "") }
      parse_error json s2.strbuf s2
    else (0, { s1 with file_path := none, file_key := none, state := State.StateFileName })
  | State.StateImagePropAnchorObject => (0, { s with state := State.StateImagePropName })
  | State.StateImageName => (0, { s with state := State.StateTextureProp })
  | State.StateTextureProp =>
    let err := env.rucksack_bundle_add_page s.calls s.page_key s.page
    let s1 := { s with calls := s.calls ++ [Action.addPage s.page_key s.page] }
    if err ≠ 0 then
      let s2 := { s1 with
        strbuf := snprintf STRBUF_SIZE ("unable to add page: " ++ RS_ERROR_STR.getD err "") }
      parse_error json s2.strbuf s2
    else (0, { s1 with page := none, page_key := none, state := State.StateTextureName })
  | State.StateGlobObjectProp =>
    let r := glob_insert_files env json s
    if r.1 ≠ 0 then r
    else (0, { r.2 with state := State.StateGlobObject })
  | State.StateTextureName => (0, { s with state := State.StateTopLevelProp })
  | State.StateGlobObject => (0, { s with state := State.StateTopLevelProp })
  | State.StateFileName => (0, { s with state := State.StateTopLevelProp })
  | _ => parse_error json "unexpected end of object or array" s

/-! ## The event stream -/

/-- One call the tokenizer makes on a callback. -/
inductive Event where
  | string (type : LaxJsonType) (value : String)
  | number (x : ℚ)
  | primitive (type : LaxJsonType)
  | begin_ (type : LaxJsonType)
  | end_ (type : LaxJsonType)
  deriving DecidableEq

/-- An event together with the position the tokenizer has reached when it makes
the call. -/
structure Token where
  json : LaxJsonContext
  event : Event
  deriving DecidableEq

/-- The callback the tokenizer calls for an event. -/
def dispatch (env : Env) (t : Token) (s : Session) : Int × Session :=
  match t.event with
  | Event.string type value => on_string t.json type value s
  | Event.number x => on_number t.json x s
  | Event.primitive type => on_primitive t.json type s
  | Event.begin_ type => on_begin t.json type s
  | Event.end_ type => on_end env t.json type s

/-- Modelled from the spec: the event loop of the tokenizer (laxjson, which is
not part of the sources). Events are delivered in order; once a callback has
returned failure the rest of the stream has no further effect. The result is the
return code of the last callback that ran (`0` for the empty stream). -/
def feed (env : Env) : List Token → Session → Int × Session
  | [], s => (0, s)
  | t :: rest, s =>
    let r := dispatch env t s
    if r.1 ≠ 0 then r else feed env rest r.2

/-! ## The claims' own wording, for comparison with the code -/

/-- The glob key as the specification words it: the key prefix followed by the
match, from which a leading root prefix and then all leading separators are
removed when the match starts with the root prefix. -/
def spec_glob_key (keyPrefix rootPrefix matched : String) : String :=
  if rootPrefix.data.isPrefixOf matched.data then
    keyPrefix ++ String.mk ((matched.data.drop rootPrefix.length).dropWhile (fun c => c == '/'))
  else keyPrefix ++ matched

/-! ## Expected outputs -/

/-- The `addFile` calls a glob block makes for a list of matches: one for each
match that is not a directory, in the order of the matches. -/
def glob_calls (env : Env) (keyPrefix rootPrefix : String) (matches_ : List String) :
    List Action :=
  (matches_.filter (fun p => decide (env.stat p ≠ StatResult.directory))).map
    (fun p => Action.addFile (some (glob_key keyPrefix rootPrefix p)) (some p))

/-! ## Concrete inputs used in the examples below -/

/-- A path of 2000 bytes. -/
def hugePath : String := String.mk (List.replicate 2000 'p')

/-- A file system in which the pattern `assets/*` matches two files with a
directory between them, `broken/*` matches a file, a path that cannot be
examined and another file, `huge/*` matches one path of 2000 bytes that cannot
be examined, and nothing else matches; a bundle that accepts everything. -/
def demoEnv : Env :=
  { rucksack_bundle_add_page := fun _ _ _ => 0
    rucksack_page_add_image := fun _ _ _ => 0
    rucksack_bundle_add_file := fun _ _ _ => 0
    glob := fun pattern =>
      if pattern = "assets/*" then
        GlobResult.matches ["assets/a.png", "assets/sub", "assets/b.png"]
      else if pattern = "broken/*" then
        GlobResult.matches ["broken/a.png", "broken/gone", "broken/b.png"]
      else if pattern = "huge/*" then GlobResult.matches [hugePath]
      else GlobResult.GLOB_NOMATCH
    stat := fun path =>
      if path.length = 2000 then StatResult.failed
      else if path = "assets/sub" then StatResult.directory
      else if path = "broken/gone" then StatResult.failed
      else StatResult.other }

/-- A session inside a glob entry whose two fields have been read: the pattern
as resolved and the key prefix `icons/`. -/
def globSession (root pattern : String) : Session :=
  { Session.init root with
    state := State.StateGlobObjectProp
    glob_glob := some pattern
    glob_prefix := some "icons/" }

/-! ## Manifests, as the grammar of the specification describes them

Fields are kept in the order of the document, so every order is covered, and a
field may be given more than once. -/

/-- A field of an anchor point: `x` or `y`, with its number. -/
inductive AnchorPointProp where
  | x (value : ℚ)
  | y (value : ℚ)
  deriving DecidableEq

/-- The value of the field `anchor`: a name, or an anchor point. -/
inductive AnchorValue where
  | name (value : String)
  | point (props : List AnchorPointProp)
  deriving DecidableEq

/-- A field of an image entry. -/
inductive ImageProp where
  | anchor (value : AnchorValue)
  | path (value : String)
  deriving DecidableEq

/-- A field of a texture entry. -/
inductive TextureProp where
  | maxWidth (value : Int)
  | maxHeight (value : Int)
  | pow2 (value : Bool)
  | images (entries : List (String × List ImageProp))
  deriving DecidableEq

/-- A field of a glob entry. -/
inductive GlobProp where
  | glob (pattern : String)
  | keyPrefix (value : String)
  deriving DecidableEq

/-- A top-level field of the manifest. A file entry is its name and the values
of its `path` fields. -/
inductive ManifestSection where
  | textures (entries : List (String × List TextureProp))
  | files (entries : List (String × List String))
  | globFiles (entries : List (List GlobProp))
  deriving DecidableEq

/-- The nine anchor names of the grammar. -/
def anchorNames : List String :=
  ["top", "right", "bottom", "left", "topleft", "topright", "bottomleft", "bottomright", "center"]

/-- The pattern a glob entry ends up with: that of its last `glob` field. -/
def globPattern : List GlobProp → Option String
  | [] => none
  | GlobProp.glob pattern :: rest => (globPattern rest).orElse (fun _ => some pattern)
  | GlobProp.keyPrefix _ :: rest => globPattern rest

/-- The key prefix a glob entry ends up with: that of its last `prefix` field. -/
def globKeyPrefix : List GlobProp → Option String
  | [] => none
  | GlobProp.glob _ :: rest => globKeyPrefix rest
  | GlobProp.keyPrefix value :: rest => (globKeyPrefix rest).orElse (fun _ => some value)

def AnchorValue.WellFormed : AnchorValue → Prop
  | AnchorValue.name value => value ∈ anchorNames
  | AnchorValue.point props =>
    (∃ v, AnchorPointProp.x v ∈ props) ∧ (∃ v, AnchorPointProp.y v ∈ props)

def ImageProp.WellFormed : ImageProp → Prop
  | ImageProp.anchor value => value.WellFormed
  | ImageProp.path _ => True

/-- An image entry is well formed when its fields are and `path` is given. -/
def imageEntryWellFormed (entry : String × List ImageProp) : Prop :=
  (∀ p ∈ entry.2, p.WellFormed) ∧ ∃ v, ImageProp.path v ∈ entry.2

/-- A texture field is well formed when a size is in the range of `int` and the
image entries are well formed. -/
def TextureProp.WellFormed : TextureProp → Prop
  | TextureProp.maxWidth value => INT_MIN ≤ value ∧ value ≤ INT_MAX
  | TextureProp.maxHeight value => INT_MIN ≤ value ∧ value ≤ INT_MAX
  | TextureProp.pow2 _ => True
  | TextureProp.images entries => ∀ e ∈ entries, imageEntryWellFormed e

/-- A glob entry is well formed when `glob` and `prefix` are both given. -/
def globEntryWellFormed (props : List GlobProp) : Prop :=
  (globPattern props).isSome ∧ (globKeyPrefix props).isSome

def ManifestSection.WellFormed : ManifestSection → Prop
  | ManifestSection.textures entries => ∀ e ∈ entries, ∀ p ∈ e.2, p.WellFormed
  | ManifestSection.files entries => ∀ e ∈ entries, e.2 ≠ []
  | ManifestSection.globFiles entries => ∀ e ∈ entries, globEntryWellFormed e

/-- A manifest is the list of its top-level fields. -/
def manifestWellFormed (m : List ManifestSection) : Prop :=
  ∀ sec ∈ m, sec.WellFormed

/-! ### The event sequence of a manifest -/

def propertyName (name : String) : Event := Event.string LaxJsonType.Property name

def stringValue (value : String) : Event := Event.string LaxJsonType.String value

def beginObject : Event := Event.begin_ LaxJsonType.Object

def endObject : Event := Event.end_ LaxJsonType.Object

def anchorPointPropEvents : AnchorPointProp → List Event
  | AnchorPointProp.x value => [propertyName "x", Event.number value]
  | AnchorPointProp.y value => [propertyName "y", Event.number value]

def anchorValueEvents : AnchorValue → List Event
  | AnchorValue.name value => [stringValue value]
  | AnchorValue.point props =>
    [beginObject] ++ props.flatMap anchorPointPropEvents ++ [endObject]

def imagePropEvents : ImageProp → List Event
  | ImageProp.anchor value => propertyName "anchor" :: anchorValueEvents value
  | ImageProp.path value => [propertyName "path", stringValue value]

def imageEntryEvents (entry : String × List ImageProp) : List Event :=
  [propertyName entry.1, beginObject] ++ entry.2.flatMap imagePropEvents ++ [endObject]

def texturePropEvents : TextureProp → List Event
  | TextureProp.maxWidth value => [propertyName "maxWidth", Event.number value]
  | TextureProp.maxHeight value => [propertyName "maxHeight", Event.number value]
  | TextureProp.pow2 value =>
    [propertyName "pow2", Event.primitive (if value then LaxJsonType.True else LaxJsonType.False)]
  | TextureProp.images entries =>
    [propertyName "images", beginObject] ++ entries.flatMap imageEntryEvents ++ [endObject]

def textureEntryEvents (entry : String × List TextureProp) : List Event :=
  [propertyName entry.1, beginObject] ++ entry.2.flatMap texturePropEvents ++ [endObject]

def fileEntryEvents (entry : String × List String) : List Event :=
  [propertyName entry.1, beginObject] ++
    entry.2.flatMap (fun p => [propertyName "path", stringValue p]) ++ [endObject]

def globPropEvents : GlobProp → List Event
  | GlobProp.glob pattern => [propertyName "glob", stringValue pattern]
  | GlobProp.keyPrefix value => [propertyName "prefix", stringValue value]

def globEntryEvents (props : List GlobProp) : List Event :=
  [beginObject] ++ props.flatMap globPropEvents ++ [endObject]

def sectionEvents : ManifestSection → List Event
  | ManifestSection.textures entries =>
    [propertyName "textures", beginObject] ++ entries.flatMap textureEntryEvents ++ [endObject]
  | ManifestSection.files entries =>
    [propertyName "files", beginObject] ++ entries.flatMap fileEntryEvents ++ [endObject]
  | ManifestSection.globFiles entries =>
    [propertyName "globFiles", Event.begin_ LaxJsonType.Array] ++
      entries.flatMap globEntryEvents ++ [Event.end_ LaxJsonType.Array]

def manifestEvents (m : List ManifestSection) : List Event :=
  [beginObject] ++ m.flatMap sectionEvents ++ [endObject]

/-- The events in the order given, each stamped with the same position. -/
def tokensAt (json : LaxJsonContext) (events : List Event) : List Token :=
  events.map (fun e => Token.mk json e)

/-! ### Counting entries and calls -/

def textureEntryCount : List ManifestSection → Nat
  | [] => 0
  | ManifestSection.textures entries :: rest => entries.length + textureEntryCount rest
  | _ :: rest => textureEntryCount rest

def fileEntryCount : List ManifestSection → Nat
  | [] => 0
  | ManifestSection.files entries :: rest => entries.length + fileEntryCount rest
  | _ :: rest => fileEntryCount rest

/-- The glob entries of a manifest, in order. -/
def globEntries : List ManifestSection → List (List GlobProp)
  | [] => []
  | ManifestSection.globFiles entries :: rest => entries ++ globEntries rest
  | _ :: rest => globEntries rest

def Action.isAddPage : Action → Bool
  | Action.addPage _ _ => true
  | _ => false

def Action.isAddFile : Action → Bool
  | Action.addFile _ _ => true
  | _ => false

def addPageCount (calls : List Action) : Nat := calls.countP Action.isAddPage

def addFileCount (calls : List Action) : Nat := calls.countP Action.isAddFile

/-! ### Tables and inputs of the examples -/

/-- The nine anchor names with the anchor tag each one stands for. -/
def namedAnchors : List (String × RuckSackAnchor) :=
  [ ("top", RuckSackAnchor.Top)
  , ("right", RuckSackAnchor.Right)
  , ("bottom", RuckSackAnchor.Bottom)
  , ("left", RuckSackAnchor.Left)
  , ("topleft", RuckSackAnchor.TopLeft)
  , ("topright", RuckSackAnchor.TopRight)
  , ("bottomleft", RuckSackAnchor.BottomLeft)
  , ("bottomright", RuckSackAnchor.BottomRight)
  , ("center", RuckSackAnchor.Center) ]

/-- The manifest `{textures: {t: {images: {i: {path: "x.png", anchor: {x: 3, y: 5}}}}}}`. -/
def anchorPointManifest : List ManifestSection :=
  [ManifestSection.textures
    [("t", [TextureProp.images
      [("i", [ImageProp.path "x.png",
              ImageProp.anchor (AnchorValue.point [AnchorPointProp.x 3, AnchorPointProp.y 5])])]])]]

/-- A session inside a texture entry named `t`, at the position `state`, with a
page draft that already has a width, a height and the power-of-two flag. -/
def textureSession (state : State) : Session :=
  { Session.init "." with
    state := state
    page := some { max_width := some 64, max_height := some 32, pow2 := some 1, images := [] }
    page_key := some "t" }

/-- A session at the image-name position of the texture entry `t`, after an
image that was anchored at the top left. -/
def imageSession : Session :=
  { textureSession State.StateImageName with
    image := { path := none, anchor := RuckSackAnchor.TopLeft, anchor_x := 0, anchor_y := 0 } }

/-! ### What a glob entry needs from the file system -/

/-- A glob entry expands without failure: it has a pattern and a key prefix, the
enumeration of the resolved pattern returns matches, and `stat` fails on none
of them. -/
def globExpands (env : Env) (root : String) (props : List GlobProp) : Prop :=
  ∃ pattern keyPrefix matches_,
    globPattern props = some pattern ∧
    globKeyPrefix props = some keyPrefix ∧
    env.glob (resolve_path root pattern) = GlobResult.matches matches_ ∧
    ∀ p ∈ matches_, env.stat p ≠ StatResult.failed

/-- The number of matches of a glob entry that are not directories. -/
def globFileCount (env : Env) (root : String) (props : List GlobProp) : Nat :=
  match globPattern props with
  | none => 0
  | some pattern =>
    match env.glob (resolve_path root pattern) with
    | GlobResult.matches matches_ =>
      (matches_.filter (fun p => decide (env.stat p ≠ StatResult.directory))).length
    | _ => 0

/-- The session `s'` is `s` some accepted events later: the position, the error
latch, the diagnostics written, the crash flag and the root prefix are the same,
and the bundle has received `pages` more `addPage` calls and `files` more
`addFile` calls. -/
structure Advances (s s' : Session) (pages files : Nat) : Prop where
  state : s'.state = s.state
  latch : s'.parse_err_occurred = s.parse_err_occurred
  root : Session.path_prefix s' = Session.path_prefix s
  stderr : s'.stderr = s.stderr
  crashed : s'.crashed = s.crashed
  addPages : addPageCount s'.calls = addPageCount s.calls + pages
  addFiles : addFileCount s'.calls = addFileCount s.calls + files

/-- The manifest `{globFiles: [{glob: "nothing/*", prefix: "icons/"}]}`. -/
def unmatchedGlobManifest : List ManifestSection :=
  [ManifestSection.globFiles [[GlobProp.glob "nothing/*", GlobProp.keyPrefix "icons/"]]]

/-- A manifest with two texture entries, two file entries and one glob entry:
`{textures: {t: {maxWidth: 256, pow2: false, images: {i: {anchor: "top", path: "x.png"}}},
u: {}}, files: {f: {path: "a.bin"}, g: {path: "/abs/b.bin"}},
globFiles: [{glob: "*", prefix: "icons/"}]}`. -/
def demoManifest : List ManifestSection :=
  [ ManifestSection.textures
      [ ("t", [ TextureProp.maxWidth 256, TextureProp.pow2 false,
                TextureProp.images
                  [("i", [ImageProp.anchor (AnchorValue.name "top"), ImageProp.path "x.png"])] ])
      , ("u", []) ]
  , ManifestSection.files [("f", ["a.bin"]), ("g", ["/abs/b.bin"])]
  , ManifestSection.globFiles [[GlobProp.glob "*", GlobProp.keyPrefix "icons/"]] ]

/-! ### The property-name positions -/

/-- The six positions in which `on_string` expects a property name out of a
fixed set, each with the names it accepts and the text its diagnostic for any
other name starts with. -/
def propertyPositions : List (State × List String × String) :=
  [ (State.StateTopLevelProp, ["textures", "files", "globFiles"],
      "unknown top level property: ")
  , (State.StateTextureProp, ["images", "maxWidth", "maxHeight", "pow2"],
      "unknown texture property: ")
  , (State.StateImagePropName, ["anchor", "path"], "unknown image property: ")
  , (State.StateImagePropAnchorObject, ["x", "y"], "unknown anchor point property: ")
  , (State.StateFilePropName, ["path"], "unknown file property: ")
  , (State.StateGlobObjectProp, ["glob", "prefix"], "unknown glob property: ") ]

/-- A session right after the opening brace of the manifest. -/
def topLevelSession : Session :=
  { Session.init "." with state := State.StateTopLevelProp }

/-- The manifest `{files: {f: {}}}`, whose file entry has no `path`. -/
def missingPathManifest : List ManifestSection :=
  [ManifestSection.files [("f", [])]]

/-- The manifest `{textures: {t: {images: {i: {anchor: {}, path: "x.png"}}}}}`,
whose anchor object gives neither `x` nor `y`. -/
def emptyAnchorManifest : List ManifestSection :=
  [ManifestSection.textures
    [("t", [TextureProp.images
      [("i", [ImageProp.anchor (AnchorValue.point []), ImageProp.path "x.png"])]])]]

/-- The manifest `{textures: {t: {images: {i: {path: "x.png"}}}}}`. -/
def singleImageManifest : List ManifestSection :=
  [ManifestSection.textures
    [("t", [TextureProp.images [("i", [ImageProp.path "x.png"])]])]]

/-- A bundle library that accepts pages and files and answers every
`rucksack_page_add_image` with the error code 7 (`unrecognized image format`),
over the file system of `demoEnv`. -/
def rejectImagesEnv : Env :=
  { demoEnv with rucksack_page_add_image := fun _ _ _ => 7 }

/-- A session inside the file entry `f`, before any `path` field. -/
def fileSession : Session :=
  { Session.init "." with state := State.StateFilePropName, file_key := some "f" }

/-- A session inside the image entry `i` of the texture `t`, before any `path`
field. -/
def imagePropSession : Session :=
  { textureSession State.StateImagePropName with image_key := some "i" }

/-! ### Successive error reports -/

/-- A sequence of calls of `parse_error`, each with the position and the message
of its report; the return codes are collected in order. -/
def report_all : List (LaxJsonContext × String) → Session → List Int × Session
  | [], s => ([], s)
  | report :: rest, s =>
    let first := parse_error report.1 report.2 s
    let others := report_all rest first.2
    (first.1 :: others.1, others.2)

/-- The session `r` has the position, the root prefix and every draft variable
of `s`. -/
structure SameDrafts (s r : Session) : Prop where
  state : r.state = s.state
  page : r.page = s.page
  page_key : r.page_key = s.page_key
  image : r.image = s.image
  image_key : r.image_key = s.image_key
  file_key : r.file_key = s.file_key
  file_path : r.file_path = s.file_path
  glob_glob : r.glob_glob = s.glob_glob
  globPrefix : Session.glob_prefix r = Session.glob_prefix s
  root : Session.path_prefix r = Session.path_prefix s

/-- The events of a manifest up to an error inside the texture entry `t`: two
image entries `a` and `b` are complete, and the third, `c`, has the unknown
field `bogus`. -/
def twoImagesThenError : List Event :=
  [ beginObject, propertyName "textures", beginObject, propertyName "t", beginObject
  , propertyName "images", beginObject ] ++
  imageEntryEvents ("a", [ImageProp.path "a.png"]) ++
  imageEntryEvents ("b", [ImageProp.path "b.png"]) ++
  [propertyName "c", beginObject, propertyName "bogus"]

/-- A bundle library that accepts a file only as long as no call has been made
on it, and answers every later `addFile` with the error code 2
(`problem accessing file`), over the file system of `demoEnv`. -/
def oneFileEnv : Env :=
  { demoEnv with
    rucksack_bundle_add_file := fun calls _ _ => if calls.isEmpty then 0 else 2 }

/-! ### The bundle run -/

/-- What the tokenizer makes of the input file, chunk after chunk: the callbacks
it makes, in order, for as long as none of them fails; the error code it reports
by itself after them, from `lax_json_feed` or at the end of the input from
`lax_json_eof` (an index of `ERR_STR`, `0` for none); and the position it is at
when it reports. -/
structure TokenizerRun where
  tokens : List Token
  error : Nat
  json : LaxJsonContext

/-- The error code the tokenizer returns when a callback has returned failure:
the index of `aborted` in `ERR_STR`. -/
def LaxJsonErrorAborted : Nat := 10

/-- The position the tokenizer is at when it returns to `command_bundle`: that
of the first event whose callback fails, or else the position `json` at which it
stops by itself. -/
def stop_position (env : Env) : List Token → Session → LaxJsonContext → LaxJsonContext
  | [], _, json => json
  | t :: rest, s, json =>
    let r := dispatch env t s
    if r.1 ≠ 0 then t.json else stop_position env rest r.2 json

/-- The part of `command_bundle` that runs the tokenizer over the input and
closes the bundle, from `lax_json_create` on; `rucksack_bundle_close` answers
with an error code for the calls made on the bundle. The result is the exit
status and the session at exit. -/
def command_bundle (env : Env) (rucksack_bundle_close : List Action → Nat)
    (run : TokenizerRun) (s : Session) : Int × Session :=
  let r := feed env run.tokens s
  let json := stop_position env run.tokens s run.json
  let err := if r.1 ≠ 0 then LaxJsonErrorAborted else run.error
  if err ≠ 0 then (1, (parse_error json (ERR_STR.getD err "") r.2).2)
  else
    let s1 :=
      if r.2.state ≠ State.StateDone then (parse_error json "unexpected EOF" r.2).2 else r.2
    if s1.parse_err_occurred then (1, s1)
    else
      let rs_err := rucksack_bundle_close s1.calls
      if rs_err ≠ 0 then
        (1, { s1 with
          stderr := s1.stderr ++
            ["unable to close bundle: " ++ RS_ERROR_STR.getD rs_err "" ++ "\n"] })
      else (0, s1)

/-! ### The nesting of the grammar positions -/

/-- The positions of `enum State`, in the order of the declaration. -/
def all_states : List State :=
  [ State.StateStart, State.StateTopLevelProp, State.StateDone, State.StateTextures
  , State.StateTextureName, State.StateExpectImagesObject, State.StateImageName
  , State.StateImageObjectBegin, State.StateImagePropName, State.StateImagePropAnchor
  , State.StateImagePropAnchorObject, State.StateImagePropAnchorX, State.StateImagePropAnchorY
  , State.StateImagePropPath, State.StateExpectTextureObject, State.StateTextureProp
  , State.StateTextureMaxWidth, State.StateTextureMaxHeight, State.StateTexturePow2
  , State.StateExpectFilesObject, State.StateFileName, State.StateFileObjectBegin
  , State.StateFilePropName, State.StateFilePropPath, State.StateExpectGlobArray
  , State.StateGlobObject, State.StateGlobObjectProp, State.StateGlobValueGlob
  , State.StateGlobValuePrefix ]

/-- The nesting depth of a grammar position: the number of objects and arrays
of the manifest that are open when the interpreter is at that position. -/
def nesting_depth : State → Nat
  | State.StateStart => 0
  | State.StateTopLevelProp => 1
  | State.StateDone => 0
  | State.StateTextures => 1
  | State.StateTextureName => 2
  | State.StateExpectImagesObject => 3
  | State.StateImageName => 4
  | State.StateImageObjectBegin => 4
  | State.StateImagePropName => 5
  | State.StateImagePropAnchor => 5
  | State.StateImagePropAnchorObject => 6
  | State.StateImagePropAnchorX => 6
  | State.StateImagePropAnchorY => 6
  | State.StateImagePropPath => 5
  | State.StateExpectTextureObject => 2
  | State.StateTextureProp => 3
  | State.StateTextureMaxWidth => 3
  | State.StateTextureMaxHeight => 3
  | State.StateTexturePow2 => 3
  | State.StateExpectFilesObject => 1
  | State.StateFileName => 2
  | State.StateFileObjectBegin => 2
  | State.StateFilePropName => 3
  | State.StateFilePropPath => 3
  | State.StateExpectGlobArray => 1
  | State.StateGlobObject => 2
  | State.StateGlobObjectProp => 3
  | State.StateGlobValueGlob => 3
  | State.StateGlobValuePrefix => 3

def Event.isBegin : Event → Bool
  | Event.begin_ _ => true
  | _ => false

def Event.isEnd : Event → Bool
  | Event.end_ _ => true
  | _ => false

/-- The number of begin events of a stream. -/
def beginCount (ts : List Token) : Nat := ts.countP (fun t => t.event.isBegin)

/-- The number of end events of a stream. -/
def endCount (ts : List Token) : Nat := ts.countP (fun t => t.event.isEnd)

/-- A bundle library that rejects every file with the error code 2
(`problem accessing file`), over the file system of `demoEnv`. -/
def rejectFilesEnv : Env :=
  { demoEnv with rucksack_bundle_add_file := fun _ _ _ => 2 }

/-- The position `on_end` assigns to `state` in each `case` from which it
returns `0`; for the other positions, which it rejects, the position itself. -/
def end_position : State → State
  | State.StateTopLevelProp => State.StateDone
  | State.StateImagePropName => State.StateImageName
  | State.StateFilePropName => State.StateFileName
  | State.StateImagePropAnchorObject => State.StateImagePropName
  | State.StateImageName => State.StateTextureProp
  | State.StateTextureProp => State.StateTextureName
  | State.StateGlobObjectProp => State.StateGlobObject
  | State.StateTextureName => State.StateTopLevelProp
  | State.StateGlobObject => State.StateTopLevelProp
  | State.StateFileName => State.StateTopLevelProp
  | st => st

/-! ### Where the drafts are open -/

/-- The positions inside a texture entry: from its name, on which the page
draft is created, to the close of its object. -/
def in_texture_entry : State → Bool
  | State.StateExpectTextureObject => true
  | State.StateTextureProp => true
  | State.StateTextureMaxWidth => true
  | State.StateTextureMaxHeight => true
  | State.StateTexturePow2 => true
  | State.StateExpectImagesObject => true
  | State.StateImageName => true
  | State.StateImageObjectBegin => true
  | State.StateImagePropName => true
  | State.StateImagePropAnchor => true
  | State.StateImagePropAnchorObject => true
  | State.StateImagePropAnchorX => true
  | State.StateImagePropAnchorY => true
  | State.StateImagePropPath => true
  | _ => false

/-- The positions inside an image entry: from its name to the close of its
object. -/
def in_image_entry : State → Bool
  | State.StateImageObjectBegin => true
  | State.StateImagePropName => true
  | State.StateImagePropAnchor => true
  | State.StateImagePropAnchorObject => true
  | State.StateImagePropAnchorX => true
  | State.StateImagePropAnchorY => true
  | State.StateImagePropPath => true
  | _ => false

/-- The positions inside a file entry: from its name to the close of its
object. -/
def in_file_entry : State → Bool
  | State.StateFileObjectBegin => true
  | State.StateFilePropName => true
  | State.StateFilePropPath => true
  | _ => false

/-- The positions inside a glob entry: between the braces of an element of the
`globFiles` array. -/
def in_glob_entry : State → Bool
  | State.StateGlobObjectProp => true
  | State.StateGlobValueGlob => true
  | State.StateGlobValuePrefix => true
  | _ => false

/-- The draft variables of a session agree with its position: the page and its
key are set exactly inside a texture entry, the image key exactly inside an
image entry, the file key exactly inside a file entry, and an image path or a
file path is set only inside an image entry or a file entry. -/
structure DraftsFollowPosition (s : Session) : Prop where
  page : s.page.isSome = in_texture_entry s.state
  page_key : s.page_key.isSome = in_texture_entry s.state
  image_key : s.image_key.isSome = in_image_entry s.state
  image_path : s.image.path.isSome = true → in_image_entry s.state = true
  file_key : s.file_key.isSome = in_file_entry s.state
  file_path : s.file_path.isSome = true → in_file_entry s.state = true

/-- The manifest `{globFiles: [{glob: "*", prefix: "icons/"}]}`. -/
def globOnlyManifest : List ManifestSection :=
  [ManifestSection.globFiles [[GlobProp.glob "*", GlobProp.keyPrefix "icons/"]]]
/-- The events of `globOnlyManifest` up to the close of its glob entry:
`{globFiles: [{glob: "*", prefix: "icons/"}`. -/
def oneGlobEntryEvents : List Event :=
  [beginObject, propertyName "globFiles", Event.begin_ LaxJsonType.Array] ++
    globEntryEvents [GlobProp.glob "*", GlobProp.keyPrefix "icons/"]

/-- The events `{globFiles: [{glob: "*", prefix: "icons/"`: a glob entry whose
two fields have been read and whose object is still open. -/
def openGlobEntryEvents : List Event :=
  [ beginObject, propertyName "globFiles", Event.begin_ LaxJsonType.Array, beginObject
  , propertyName "glob", stringValue "*", propertyName "prefix", stringValue "icons/" ]

/-! ### The page of a texture entry, in the words of the specification -/

/-- The anchor tag a name of the grammar stands for, from `namedAnchors`. -/
def anchor_of_name (value : String) : Option RuckSackAnchor :=
  (namedAnchors.find? (fun e => e.1 = value)).map (fun e => e.2)

/-- The path of an image after one more field: a `path` field gives the path,
resolved against the root prefix. -/
def image_path_given (root : String) (path : Option String) : ImageProp → Option String
  | ImageProp.path value => some (resolve_path root value)
  | ImageProp.anchor _ => path

/-- The anchor tag of an image after one more field: an `anchor` field gives the
tag of its name, or `Explicit` when it is an anchor point. -/
def image_anchor_given (anchor : RuckSackAnchor) : ImageProp → RuckSackAnchor
  | ImageProp.path _ => anchor
  | ImageProp.anchor (AnchorValue.name value) => (anchor_of_name value).getD anchor
  | ImageProp.anchor (AnchorValue.point _) => RuckSackAnchor.Explicit

/-- The path an image entry gives: that of its last `path` field, resolved
against the root prefix; none when it has no such field. -/
def spec_image_path (root : String) (props : List ImageProp) : Option String :=
  props.foldl (image_path_given root) none

/-- The anchor tag an image entry gives: that of its last `anchor` field, and
`Center` when it has no such field. -/
def spec_image_anchor (props : List ImageProp) : RuckSackAnchor :=
  props.foldl image_anchor_given RuckSackAnchor.Center

/-- What the specification says of an image in a page, apart from the numbers of
an anchor point: its name, its path and its anchor tag. -/
def image_summary (e : Option String × RuckSackImage) :
    Option String × Option String × RuckSackAnchor :=
  (e.1, e.2.path, e.2.anchor)

/-- The images a field of a texture entry gives, in the order of the manifest,
each with its name, its resolved path and its anchor tag. -/
def images_given (root : String) : TextureProp → List (Option String × Option String × RuckSackAnchor)
  | TextureProp.images entries =>
    entries.map (fun e => (some e.1, spec_image_path root e.2, spec_image_anchor e.2))
  | _ => []

/-- The images of a texture entry, in the order of the manifest. -/
def spec_images (root : String) (props : List TextureProp) :
    List (Option String × Option String × RuckSackAnchor) :=
  props.flatMap (images_given root)

/-- The `maxWidth` of a page after one more field of the texture entry. -/
def max_width_given (w : Option Int) : TextureProp → Option Int
  | TextureProp.maxWidth value => some value
  | _ => w

/-- The `maxHeight` of a page after one more field of the texture entry. -/
def max_height_given (h : Option Int) : TextureProp → Option Int
  | TextureProp.maxHeight value => some value
  | _ => h

/-- The `pow2` flag of a page after one more field of the texture entry, as the
`1` or `0` the page stores. -/
def pow2_given (p : Option Int) : TextureProp → Option Int
  | TextureProp.pow2 value => some (if value then 1 else 0)
  | _ => p

/-- The `maxWidth` a texture entry gives: that of its last `maxWidth` field. -/
def spec_max_width (props : List TextureProp) : Option Int :=
  props.foldl max_width_given none

/-- The `maxHeight` a texture entry gives: that of its last `maxHeight` field. -/
def spec_max_height (props : List TextureProp) : Option Int :=
  props.foldl max_height_given none

/-- The `pow2` flag a texture entry gives: that of its last `pow2` field. -/
def spec_pow2 (props : List TextureProp) : Option Int :=
  props.foldl pow2_given none

/-- The manifest `{textures: {t: {images: {a: {path: "a.png", anchor: {x: X}}}},
u: {images: {b: {path: "b.png", anchor: {}}}}}}` for a number `X`: the anchor
object of the image `b` gives no number. -/
def staleAnchorManifest (x : ℚ) : List ManifestSection :=
  [ManifestSection.textures
    [ ("t", [TextureProp.images
        [("a", [ImageProp.path "a.png",
                ImageProp.anchor (AnchorValue.point [AnchorPointProp.x x])])]])
    , ("u", [TextureProp.images
        [("b", [ImageProp.path "b.png", ImageProp.anchor (AnchorValue.point [])])]]) ]]
/-- A session at the texture-name position, with the root prefix `assets`,
that still holds the image variable of an earlier entry. -/
def textureNameSession : Session :=
  { Session.init "assets" with
    state := State.StateTextureName
    image := { path := none, anchor := RuckSackAnchor.Left, anchor_x := 3, anchor_y := 0 } }

/-- The texture entry `t: {maxWidth: 256, pow2: false, images: {i: {anchor:
"top", path: "x.png"}, j: {path: "/abs/y.png"}}, maxWidth: 128}`. -/
def demoTextureEntry : String × List TextureProp :=
  ("t", [ TextureProp.maxWidth 256, TextureProp.pow2 false
        , TextureProp.images
            [ ("i", [ImageProp.anchor (AnchorValue.name "top"), ImageProp.path "x.png"])
            , ("j", [ImageProp.path "/abs/y.png"]) ]
        , TextureProp.maxWidth 128 ])

/-! # Theorems -/

/-! ## Lemmas on the helpers -/

theorem snprintf_of_fits (size : Nat) (text : String) (h : text.length ≤ size - 1) :
    snprintf size text = text := by
  cases text with
  | mk cs =>
    simp only [snprintf]
    congr 1
    exact List.take_of_length_le h

theorem snprintf_length_le (size : Nat) (text : String) :
    (snprintf size text).length ≤ size - 1 := by
  show (List.take (size - 1) text.data).length ≤ size - 1
  rw [List.length_take]
  exact Nat.min_le_left _ _

/-! ## C2: the path resolver -/

/-- C2: whenever the joined form fits the 1023 bytes of the result buffer,
`resolve_path` returns a path that begins with '/' unchanged, whatever the root
prefix, and returns any other path as the root prefix, a '/' and the path. -/
theorem C2_resolve_path (rootPrefix rawPath : String)
    (hfit : (rootPrefix ++ "/" ++ rawPath).length ≤ 1023) :
    (rawPath.data.head? = some '/' → resolve_path rootPrefix rawPath = rawPath) ∧
    (rawPath.data.head? ≠ some '/' →
      resolve_path rootPrefix rawPath = rootPrefix ++ "/" ++ rawPath) := by
  constructor
  · intro h
    simp [resolve_path, h]
  · intro h
    simp only [resolve_path, if_neg h]
    exact snprintf_of_fits _ _ (by simpa [STRBUF_SIZE] using hfit)

/-- C2, the two examples of the specification: the absolute path `/tmp/x.png`
stays as it is, and `x.png` under the root `/assets` becomes `/assets/x.png`. -/
theorem C2_resolve_path_witness :
    resolve_path "/assets" "/tmp/x.png" = "/tmp/x.png" ∧
    resolve_path "/assets" "x.png" = "/assets/x.png" :=
  ⟨(C2_resolve_path "/assets" "/tmp/x.png" (by decide)).1 (by decide),
   (C2_resolve_path "/assets" "x.png" (by decide)).2 (by decide)⟩

/-! ## C3: the key of a glob match -/

theorem relative_path_length_le (rootPrefix matched : String) :
    (relative_path rootPrefix matched).length ≤ matched.length := by
  unfold relative_path
  split
  · show (List.dropWhile _ (List.drop _ matched.data)).length ≤ matched.data.length
    exact le_trans (List.dropWhile_sublist _).length_le (by simp)
  · exact le_refl _

theorem take_eq_iff_isPrefixOf (r m : List Char) :
    (m.take r.length = r) ↔ r.isPrefixOf m = true := by
  rw [ List.isPrefixOf_iff_prefix, List.prefix_iff_eq_take]
  exact eq_comm

/-- C3, counterexample: with root prefix `/srv/pack` and a match that is exactly
`/srv/pack`, the match starts with the root prefix, yet the code keeps the whole
match in the key, where the claim's wording leaves nothing after the key
prefix. -/
theorem C3_counterexample :
    glob_key "icons/" "/srv/pack" "/srv/pack" = "icons//srv/pack" ∧
    spec_glob_key "icons/" "/srv/pack" "/srv/pack" = "icons/" := by
  decide

/-- C3, amended: when key prefix and match together fit the 1023 bytes of the
key buffer, the key of a match different from the root prefix is the one the
specification words (root prefix and leading separators stripped when the match
starts with the root prefix, the full match otherwise), and the key of a match
equal to the root prefix is the key prefix followed by the full match. -/
theorem C3_glob_key (keyPrefix rootPrefix matched : String)
    (hfit : (keyPrefix ++ matched).length ≤ 1023) :
    (matched ≠ rootPrefix →
      glob_key keyPrefix rootPrefix matched = spec_glob_key keyPrefix rootPrefix matched) ∧
    (matched = rootPrefix →
      glob_key keyPrefix rootPrefix matched = keyPrefix ++ matched) := by
  have hlen : (keyPrefix ++ relative_path rootPrefix matched).length ≤ STRBUF_SIZE - 1 := by
    have h1 := relative_path_length_le rootPrefix matched
    simp only [String.length_append] at hfit ⊢
    simp only [STRBUF_SIZE]
    omega
  have hkey : glob_key keyPrefix rootPrefix matched
      = keyPrefix ++ relative_path rootPrefix matched := snprintf_of_fits _ _ hlen
  constructor
  · intro hne
    rw [hkey]
    unfold spec_glob_key relative_path
    by_cases hp : rootPrefix.data.isPrefixOf matched.data = true
    · have htake := (take_eq_iff_isPrefixOf rootPrefix.data matched.data).2 hp
      have hle : rootPrefix.length ≤ matched.length :=
        ( List.isPrefixOf_iff_prefix.1 hp).length_le
      have hlt : matched.length > rootPrefix.length := by
        rcases Nat.lt_or_ge rootPrefix.length matched.length with h | h
        · exact h
        · exfalso
          apply hne
          have heq : rootPrefix.data.length = matched.data.length := le_antisymm hle h
          have := ( List.isPrefixOf_iff_prefix.1 hp).eq_of_length heq
          exact (String.ext this).symm
      rw [if_pos ⟨hlt, htake⟩, if_pos hp]
    · have htake : ¬ (matched.data.take rootPrefix.length = rootPrefix.data) :=
        fun h => hp ((take_eq_iff_isPrefixOf _ _).1 h)
      rw [if_neg (fun h => htake h.2), if_neg hp]
  · intro heq
    rw [hkey]
    unfold relative_path
    rw [if_neg (by rw [heq]; exact fun h => absurd h.1 (lt_irrefl _))]

/-- C3, the example of the specification: under root `assets` and key prefix
`icons/`, the matches `assets/a.png` and `assets/b.png` get the keys
`icons/a.png` and `icons/b.png`. -/
theorem C3_glob_key_witness :
    glob_key "icons/" "assets" "assets/a.png" = "icons/a.png" ∧
    glob_key "icons/" "assets" "assets/b.png" = "icons/b.png" :=
  ⟨((C3_glob_key "icons/" "assets" "assets/a.png" (by decide)).1 (by decide)).trans (by decide),
   ((C3_glob_key "icons/" "assets" "assets/b.png" (by decide)).1 (by decide)).trans (by decide)⟩

/-! ## C4: glob expansion when the file system and the bundle cooperate -/

theorem glob_insert_loop_ok (env : Env) (json : LaxJsonContext) (keyPrefix : String)
    (hadd : ∀ calls k p, env.rucksack_bundle_add_file calls k p = 0) :
    ∀ (matches_ : List String) (s : Session),
      Session.glob_prefix s = some keyPrefix →
      (∀ p ∈ matches_, env.stat p ≠ StatResult.failed) →
      ∃ sb, glob_insert_loop env json matches_ s =
        (0, { s with
          strbuf := sb
          calls := s.calls ++ glob_calls env keyPrefix ( Session.path_prefix s) matches_ })
  | [], s, _, _ => ⟨s.strbuf, by simp [glob_insert_loop, glob_calls]⟩
  | path :: rest, s, hp, hstat => by
    have hrest : ∀ p ∈ rest, env.stat p ≠ StatResult.failed :=
      fun p hmem => hstat p (List.mem_cons_of_mem _ hmem)
    have hpath := hstat path (List.mem_cons_self _ _)
    cases hst : env.stat path with
    | failed => exact absurd hst hpath
    | directory =>
      obtain ⟨sb, ih⟩ := glob_insert_loop_ok env json keyPrefix hadd rest s hp hrest
      refine ⟨sb, ?_⟩
      simp [glob_insert_loop, hst, ih, glob_calls]
    | other =>
      obtain ⟨sb, ih⟩ := glob_insert_loop_ok env json keyPrefix hadd rest
        { s with
          strbuf := glob_key keyPrefix ( Session.path_prefix s) path
          calls := s.calls ++
            [Action.addFile (some (glob_key keyPrefix ( Session.path_prefix s) path)) (some path)] }
        hp hrest
      refine ⟨sb, ?_⟩
      have hstep : glob_insert_loop env json (path :: rest) s =
          glob_insert_loop env json rest
            { s with
              strbuf := glob_key keyPrefix ( Session.path_prefix s) path
              calls := s.calls ++
                [Action.addFile (some (glob_key keyPrefix ( Session.path_prefix s) path))
                  (some path)] } := by
        simp [glob_insert_loop, hst, hp, hadd]
      rw [hstep, ih]
      simp [glob_calls, hst]

/-- C4: when the enumeration returns matches, no `stat` fails and the bundle
accepts every file, the expansion returns success, writes no diagnostic, and
appends to the calls made so far exactly one `addFile` for each match that is
not a directory, in the order of the enumeration, with the key computed from the
match and the match itself, unmodified, as the path; so N such matches give N
calls. -/
theorem C4_glob_expansion (env : Env) (json : LaxJsonContext) (s : Session)
    (pattern keyPrefix : String) (matches_ : List String)
    (hpattern : s.glob_glob = some pattern)
    ( hprefix : Session.glob_prefix s = some keyPrefix)
    (hglob : env.glob pattern = GlobResult.matches matches_)
    (hstat : ∀ p ∈ matches_, env.stat p ≠ StatResult.failed)
    (hadd : ∀ calls k p, env.rucksack_bundle_add_file calls k p = 0) :
    (glob_insert_files env json s).1 = 0 ∧
    (glob_insert_files env json s).2.calls = s.calls ++
      (matches_.filter (fun p => decide (env.stat p ≠ StatResult.directory))).map
        (fun p => Action.addFile (some (glob_key keyPrefix ( Session.path_prefix s) p)) (some p)) ∧
    (glob_insert_files env json s).2.calls.length = s.calls.length +
      (matches_.filter (fun p => decide (env.stat p ≠ StatResult.directory))).length ∧
    (glob_insert_files env json s).2.stderr = s.stderr ∧
    (glob_insert_files env json s).2.parse_err_occurred = s.parse_err_occurred := by
  obtain ⟨sb, h⟩ := glob_insert_loop_ok env json keyPrefix hadd matches_ s hprefix hstat
  have hrun : glob_insert_files env json s = (0, { s with
      strbuf := sb
      calls := s.calls ++ glob_calls env keyPrefix ( Session.path_prefix s) matches_ }) := by
    simp [glob_insert_files, hpattern, hglob, h]
  rw [hrun]
  simp [glob_calls]

/-- C4, an example: three matches, the second a directory, give two `addFile`
calls in the order of the enumeration. -/
theorem C4_glob_expansion_witness :
    (glob_insert_files demoEnv ⟨1, 1⟩ (globSession "assets" "assets/*")).1 = 0 ∧
    (glob_insert_files demoEnv ⟨1, 1⟩ (globSession "assets" "assets/*")).2.calls =
      [ Action.addFile (some "icons/a.png") (some "assets/a.png")
      , Action.addFile (some "icons/b.png") (some "assets/b.png") ] :=
  have h := C4_glob_expansion demoEnv ⟨1, 1⟩ (globSession "assets" "assets/*") "assets/*"
    "icons/" ["assets/a.png", "assets/sub", "assets/b.png"] rfl rfl (by decide) (by decide)
    (fun _ _ _ => rfl)
  ⟨h.1, h.2.1.trans (by decide)⟩

/-! ## C5: the failure modes of glob expansion -/

theorem glob_insert_loop_stat_failed (env : Env) (json : LaxJsonContext) (keyPrefix bad : String)
    (post : List String)
    (hadd : ∀ calls k p, env.rucksack_bundle_add_file calls k p = 0)
    (hbad : env.stat bad = StatResult.failed) :
    ∀ (pre : List String) (s : Session),
      Session.glob_prefix s = some keyPrefix →
      s.parse_err_occurred = false →
      (∀ p ∈ pre, env.stat p ≠ StatResult.failed) →
      glob_insert_loop env json (pre ++ bad :: post) s =
        (-1, { s with
          strbuf := snprintf STRBUF_SIZE ("unable to stat " ++ bad)
          calls := s.calls ++ glob_calls env keyPrefix ( Session.path_prefix s) pre
          stderr := s.stderr ++ [diagnostic json (snprintf STRBUF_SIZE ("unable to stat " ++ bad))]
          parse_err_occurred := true })
  | [], s, _, hlatch, _ => by
    simp [glob_insert_loop, hbad, parse_error, hlatch, glob_calls]
  | path :: pre, s, hp, hlatch, hstat => by
    have hrest : ∀ p ∈ pre, env.stat p ≠ StatResult.failed :=
      fun p hmem => hstat p (List.mem_cons_of_mem _ hmem)
    have hpath := hstat path (List.mem_cons_self _ _)
    cases hst : env.stat path with
    | failed => exact absurd hst hpath
    | directory =>
      have ih := glob_insert_loop_stat_failed env json keyPrefix bad post hadd hbad pre s hp
        hlatch hrest
      simp [glob_insert_loop, hst, ih, glob_calls]
    | other =>
      have ih := glob_insert_loop_stat_failed env json keyPrefix bad post hadd hbad pre
        { s with
          strbuf := glob_key keyPrefix ( Session.path_prefix s) path
          calls := s.calls ++
            [Action.addFile (some (glob_key keyPrefix ( Session.path_prefix s) path)) (some path)] }
        hp hlatch hrest
      have hstep : glob_insert_loop env json (path :: pre ++ bad :: post) s =
          glob_insert_loop env json (pre ++ bad :: post)
            { s with
              strbuf := glob_key keyPrefix ( Session.path_prefix s) path
              calls := s.calls ++
                [Action.addFile (some (glob_key keyPrefix ( Session.path_prefix s) path))
                  (some path)] } := by
        simp [glob_insert_loop, hst, hp, hadd]
      rw [hstep, ih]
      simp [glob_calls, hst]

theorem feed_cons_failed (env : Env) (t : Token) (rest : List Token) (s : Session)
    (r : Session) (h : dispatch env t s = (-1, r)) : feed env (t :: rest) s = (-1, r) := by
  simp [feed, h]

theorem feed_cons_ok (env : Env) (t : Token) (rest : List Token) (s : Session)
    (r : Session) (h : dispatch env t s = (0, r)) : feed env (t :: rest) s = feed env rest r := by
  simp [feed, h]

theorem on_end_glob_failed (env : Env) (json : LaxJsonContext) (type : LaxJsonType)
    (s r : Session) (hstate : s.state = State.StateGlobObjectProp)
    (h : glob_insert_files env json s = (-1, r)) : on_end env json type s = (-1, r) := by
  simp [on_end, hstate, h]

theorem feed_end_glob_failed (env : Env) (json : LaxJsonContext) (type : LaxJsonType)
    (rest : List Token) (s r : Session) (hstate : s.state = State.StateGlobObjectProp)
    (h : glob_insert_files env json s = (-1, r)) :
    feed env (⟨json, Event.end_ type⟩ :: rest) s = (-1, r) :=
  feed_cons_failed env _ rest s r (on_end_glob_failed env json type s r hstate h)

/-- C5, counterexample: when `stat` fails on a match of 2000 bytes, the end
event fails, but the one line written to the error stream is shorter than the
path and so does not contain it: the message is cut to the 1023 bytes of
`strbuf`. -/
theorem C5_counterexample :
    demoEnv.stat hugePath = StatResult.failed ∧
    (on_end demoEnv ⟨1, 1⟩ LaxJsonType.Object (globSession "." "huge/*")).1 = -1 ∧
    ∀ line ∈ (on_end demoEnv ⟨1, 1⟩ LaxJsonType.Object (globSession "." "huge/*")).2.stderr,
      ¬ hugePath.data <:+: line.data := by
  have hlen : hugePath.length = 2000 := by
    show (List.replicate 2000 'p').length = 2000
    simp only [List.length_replicate]
  have hstat : demoEnv.stat hugePath = StatResult.failed := by
    simp [demoEnv, hlen]
  have hglob : demoEnv.glob "huge/*" = GlobResult.matches ([] ++ hugePath :: []) := by
    simp [demoEnv]
  have hloop := glob_insert_loop_stat_failed demoEnv ⟨1, 1⟩ "icons/" hugePath []
    (fun _ _ _ => rfl) hstat [] (globSession "." "huge/*") rfl rfl (by simp)
  have hrun := on_end_glob_failed demoEnv ⟨1, 1⟩ LaxJsonType.Object (globSession "." "huge/*") _
    rfl (by
      show glob_insert_files demoEnv ⟨1, 1⟩ (globSession "." "huge/*") = _
      unfold glob_insert_files
      simp only [globSession, hglob]
      exact hloop)
  refine ⟨hstat, by rw [hrun], ?_⟩
  rw [hrun]
  intro line hline hinfix
  have hle := hinfix.length_le
  have hline' : line = diagnostic ⟨1, 1⟩ (snprintf STRBUF_SIZE ("unable to stat " ++ hugePath)) := by
    simpa [globSession, Session.init] using hline
  have hmsg := snprintf_length_le STRBUF_SIZE ("unable to stat " ++ hugePath)
  have hdiag : line.length ≤ 16 + (STRBUF_SIZE - 1) := by
    rw [hline']
    simp only [diagnostic, String.length_append]
    have h1 : ("line " : String).length = 5 := by decide
    have h2 : (toString (1 : Nat)).length = 1 := by decide
    have h3 : (", col " : String).length = 6 := by decide
    have h4 : (": " : String).length = 2 := by decide
    have h5 : ("\n" : String).length = 1 := by decide
    omega
  have : hugePath.data.length = 2000 := hlen
  have : line.data.length = line.length := rfl
  simp only [STRBUF_SIZE] at hdiag
  omega

/-- C5, amended: in a glob entry whose pattern has been read, with no error
reported before, the end event fails, leaves the position where it is and makes
the rest of the stream without effect, with the diagnostic `no patterns matched`
when the enumeration finds no match, `read error while globbing` when it is
aborted, `out of memory` when it runs out of space, and, when `stat` fails on a
match after matches that were handled without failure, with the diagnostic
`unable to stat ` followed by that match's path, cut to the 1023 bytes of the
message buffer (so the whole path whenever it has at most 1008 bytes); no
`addFile` is issued in the first three cases, and in the last only those of the
matches before the failing one. -/
theorem C5_glob_failures (env : Env) (json : LaxJsonContext) (type : LaxJsonType)
    (rest : List Token) (s : Session) (pattern : String)
    (hstate : s.state = State.StateGlobObjectProp)
    (hlatch : s.parse_err_occurred = false)
    (hpattern : s.glob_glob = some pattern) :
    (env.glob pattern = GlobResult.GLOB_NOMATCH →
      feed env (⟨json, Event.end_ type⟩ :: rest) s =
        (-1, { s with
          stderr := s.stderr ++ [diagnostic json "no patterns matched"]
          parse_err_occurred := true })) ∧
    (env.glob pattern = GlobResult.GLOB_ABORTED →
      feed env (⟨json, Event.end_ type⟩ :: rest) s =
        (-1, { s with
          stderr := s.stderr ++ [diagnostic json "read error while globbing"]
          parse_err_occurred := true })) ∧
    (env.glob pattern = GlobResult.GLOB_NOSPACE →
      feed env (⟨json, Event.end_ type⟩ :: rest) s =
        (-1, { s with
          stderr := s.stderr ++ [diagnostic json "out of memory"]
          parse_err_occurred := true })) ∧
    (∀ (keyPrefix bad : String) (pre post : List String),
      Session.glob_prefix s = some keyPrefix →
      env.glob pattern = GlobResult.matches (pre ++ bad :: post) →
      (∀ p ∈ pre, env.stat p ≠ StatResult.failed) →
      (∀ calls k p, env.rucksack_bundle_add_file calls k p = 0) →
      env.stat bad = StatResult.failed →
      feed env (⟨json, Event.end_ type⟩ :: rest) s =
        (-1, { s with
          strbuf := snprintf STRBUF_SIZE ("unable to stat " ++ bad)
          calls := s.calls ++ glob_calls env keyPrefix ( Session.path_prefix s) pre
          stderr := s.stderr ++ [diagnostic json (snprintf STRBUF_SIZE ("unable to stat " ++ bad))]
          parse_err_occurred := true }) ∧
      (bad.length ≤ 1008 →
        snprintf STRBUF_SIZE ("unable to stat " ++ bad) = "unable to stat " ++ bad)) := by
  refine ⟨?_, ?_, ?_, ?_⟩
  · intro hglob
    apply feed_end_glob_failed env json type rest s _ hstate
    simp [glob_insert_files, hpattern, hglob, parse_error, hlatch]
  · intro hglob
    apply feed_end_glob_failed env json type rest s _ hstate
    simp [glob_insert_files, hpattern, hglob, parse_error, hlatch]
  · intro hglob
    apply feed_end_glob_failed env json type rest s _ hstate
    simp [glob_insert_files, hpattern, hglob, parse_error, hlatch]
  · intro keyPrefix bad pre post hprefix hglob hpre hadd hbad
    constructor
    · apply feed_end_glob_failed env json type rest s _ hstate
      have hfiles : glob_insert_files env json s =
          glob_insert_loop env json (pre ++ bad :: post) s := by
        simp only [glob_insert_files, hpattern, hglob]
      rw [hfiles]
      exact glob_insert_loop_stat_failed env json keyPrefix bad post hadd hbad pre s
        hprefix hlatch hpre
    · intro hshort
      apply snprintf_of_fits
      have h1 : ("unable to stat " : String).length = 15 := by decide
      simp only [String.length_append, STRBUF_SIZE, h1]
      omega

/-- C5, examples: a pattern that matches nothing stops the run at the end of its
glob entry with `no patterns matched`, and the `files` section after it is not
processed; a `stat` failure on the second of three matches leaves the `addFile`
of the first, names the second in the diagnostic and issues nothing for the
third. -/
theorem C5_glob_failures_witness :
    feed demoEnv
      [⟨⟨3, 5⟩, Event.end_ LaxJsonType.Object⟩, ⟨⟨3, 6⟩, Event.end_ LaxJsonType.Array⟩,
       ⟨⟨4, 3⟩, Event.string LaxJsonType.Property "files"⟩]
      (globSession "." "./nothing/*") =
        (-1, { globSession "." "./nothing/*" with
          stderr := ["line 3, col 5: no patterns matched\n"]
          parse_err_occurred := true }) ∧
    feed demoEnv [⟨⟨3, 5⟩, Event.end_ LaxJsonType.Object⟩] (globSession "broken" "broken/*") =
        (-1, { globSession "broken" "broken/*" with
          strbuf := "unable to stat broken/gone"
          calls := [Action.addFile (some "icons/a.png") (some "broken/a.png")]
          stderr := ["line 3, col 5: unable to stat broken/gone\n"]
          parse_err_occurred := true }) :=
  ⟨((C5_glob_failures demoEnv ⟨3, 5⟩ LaxJsonType.Object
      [⟨⟨3, 6⟩, Event.end_ LaxJsonType.Array⟩, ⟨⟨4, 3⟩, Event.string LaxJsonType.Property "files"⟩]
      (globSession "." "./nothing/*") "./nothing/*" rfl rfl rfl).1 (by decide)).trans (by decide),
   (((C5_glob_failures demoEnv ⟨3, 5⟩ LaxJsonType.Object [] (globSession "broken" "broken/*")
      "broken/*" rfl rfl rfl).2.2.2 "icons/" "broken/gone" ["broken/a.png"] ["broken/b.png"]
      rfl (by decide) (by decide) (fun _ _ _ => rfl) (by decide)).1).trans (by decide)⟩

/-! ## The position of an event matters to diagnostics only -/

theorem parse_error_fst (json : LaxJsonContext) (msg : String) (s : Session) :
    (parse_error json msg s).1 = -1 := by
  unfold parse_error
  split <;> rfl

theorem ite_indep {α : Type} (c : Prop) [Decidable c] (a a' b b' : Int × α)
    (ha : a.1 = 0 → a' = a) (hb : b.1 = 0 → b' = b) :
    (if c then a else b).1 = 0 → (if c then a' else b') = (if c then a else b) := by
  intro h
  split_ifs at h ⊢
  · exact ha h
  · exact hb h

theorem parse_error_indep (j : LaxJsonContext) (msg : String) (s : Session) (r : Int × Session) :
    (parse_error j msg s).1 = 0 → r = parse_error j msg s := by
  intro h
  rw [parse_error_fst] at h
  exact absurd h (by decide)

theorem on_string_indep (j j' : LaxJsonContext) (type : LaxJsonType) (value : String)
    (s : Session) :
    (on_string j type value s).1 = 0 → on_string j' type value s = on_string j type value s := by
  cases hs : s.state <;> simp only [on_string, hs] <;>
    repeat' (first
      | with_reducible apply parse_error_indep
      | with_reducible apply ite_indep
      | exact fun _ => rfl
      | exact fun _ => trivial)

theorem on_number_indep (j j' : LaxJsonContext) (x : ℚ) (s : Session) :
    (on_number j x s).1 = 0 → on_number j' x s = on_number j x s := by
  cases hs : s.state <;> simp only [on_number, hs] <;>
    repeat' (first
      | with_reducible apply parse_error_indep
      | with_reducible apply ite_indep
      | exact fun _ => rfl
      | exact fun _ => trivial)

theorem on_primitive_indep (j j' : LaxJsonContext) (type : LaxJsonType) (s : Session) :
    (on_primitive j type s).1 = 0 → on_primitive j' type s = on_primitive j type s := by
  cases hs : s.state <;> cases type <;> simp only [on_primitive, hs] <;>
    first
    | with_reducible apply parse_error_indep
    | exact fun _ => rfl
    | exact fun _ => trivial

theorem on_begin_indep (j j' : LaxJsonContext) (type : LaxJsonType) (s : Session) :
    (on_begin j type s).1 = 0 → on_begin j' type s = on_begin j type s := by
  cases hs : s.state <;> simp only [on_begin, hs] <;>
    repeat' (first
      | with_reducible apply parse_error_indep
      | with_reducible apply ite_indep
      | exact fun _ => rfl)

theorem glob_insert_loop_indep (env : Env) (j j' : LaxJsonContext) :
    ∀ (matches_ : List String) (s : Session),
      (glob_insert_loop env j matches_ s).1 = 0 →
      glob_insert_loop env j' matches_ s = glob_insert_loop env j matches_ s
  | [], s => fun _ => rfl
  | path :: rest, s => by
    simp only [glob_insert_loop]
    cases env.stat path with
    | failed => exact parse_error_indep _ _ _ _
    | directory => exact glob_insert_loop_indep env j j' rest s
    | other =>
      cases Session.glob_prefix s with
      | none => exact fun _ => rfl
      | some keyPrefix =>
        simp only
        apply ite_indep
        · exact parse_error_indep _ _ _ _
        · exact glob_insert_loop_indep env j j' rest _

theorem glob_insert_files_indep (env : Env) (j j' : LaxJsonContext) (s : Session) :
    (glob_insert_files env j s).1 = 0 →
    glob_insert_files env j' s = glob_insert_files env j s := by
  cases hg : s.glob_glob with
  | none => simp only [glob_insert_files, hg]; exact fun _ => trivial
  | some pattern =>
    cases hm : env.glob pattern with
    | GLOB_NOSPACE => simp only [glob_insert_files, hg, hm]; exact parse_error_indep _ _ _ _
    | GLOB_ABORTED => simp only [glob_insert_files, hg, hm]; exact parse_error_indep _ _ _ _
    | GLOB_NOMATCH => simp only [glob_insert_files, hg, hm]; exact parse_error_indep _ _ _ _
    | «matches» gl_pathv =>
      simp only [glob_insert_files, hg, hm]
      exact glob_insert_loop_indep env j j' gl_pathv s

theorem on_end_indep (env : Env) (j j' : LaxJsonContext) (type : LaxJsonType) (s : Session) :
    (on_end env j type s).1 = 0 → on_end env j' type s = on_end env j type s := by
  cases hs : s.state <;> simp only [on_end, hs] <;>
    first
    | (intro h
       have h0 : (glob_insert_files env j s).1 = 0 := by
         by_contra hne
         rw [if_pos hne] at h
         exact hne h
       rw [glob_insert_files_indep env j j' s h0])
    | (repeat' (first
        | with_reducible apply parse_error_indep
        | with_reducible apply ite_indep
        | exact fun _ => rfl
        | exact fun _ => trivial))

/-! ## C6: the two numbers of an anchor point -/

/-- C6: on the manifest
`{textures: {t: {images: {i: {path: "x.png", anchor: {x: 3, y: 5}}}}}}` the run
succeeds and the image is committed with the tag `Explicit`, but with the x
offset 5 and the y offset still at its initial 0: the number given for `y` is
stored in `anchor_x`, over the number given for `x`. -/
theorem C6_anchor_y_stored_in_x :
    (feed demoEnv (tokensAt ⟨1, 1⟩ (manifestEvents anchorPointManifest))
      (Session.init "/assets")).1 = 0 ∧
    (feed demoEnv (tokensAt ⟨1, 1⟩ (manifestEvents anchorPointManifest))
      (Session.init "/assets")).2.calls =
        [ Action.addImage (some "i")
            { path := some "/assets/x.png", anchor := RuckSackAnchor.Explicit,
              anchor_x := 5, anchor_y := 0 }
        , Action.addPage (some "t")
            (some { max_width := none, max_height := none, pow2 := none,
                    images := [(some "i",
                      { path := some "/assets/x.png", anchor := RuckSackAnchor.Explicit,
                        anchor_x := 5, anchor_y := 0 })] }) ] := by
  decide

/-! ## C8: anchor names -/

theorem parse_error_spec (json : LaxJsonContext) (msg : String) (s : Session) :
    (parse_error json msg s).1 = -1 ∧
    (parse_error json msg s).2.parse_err_occurred = true ∧
    (parse_error json msg s).2.state = s.state ∧
    (parse_error json msg s).2.image = s.image ∧
    (parse_error json msg s).2.page = s.page ∧
    (parse_error json msg s).2.calls = s.calls ∧
    (s.parse_err_occurred = false →
      (parse_error json msg s).2.stderr = s.stderr ++ [diagnostic json msg]) := by
  unfold parse_error
  split
  · rename_i h
    simp [h]
  · simp

/-- C8: in the anchor value position, a string that is one of the nine anchor
names sets the anchor of the image to the tag that name stands for and moves to
the image-property position, changing nothing else; any other string is
rejected: the callback returns failure, the error latch is set (with the
diagnostic `unknown anchor value: ` and the string when it is the first error),
and the anchor and the position stay as they were. -/
theorem C8_anchor_names (json : LaxJsonContext) (type : LaxJsonType) (s : Session)
    (hstate : s.state = State.StateImagePropAnchor) :
    (∀ entry ∈ namedAnchors,
      on_string json type entry.1 s =
        (0, { s with
          image := { s.image with anchor := entry.2 }
          state := State.StateImagePropName })) ∧
    (∀ value, value ∉ anchorNames →
      (on_string json type value s).1 = -1 ∧
      (on_string json type value s).2.parse_err_occurred = true ∧
      (on_string json type value s).2.image = s.image ∧
      (on_string json type value s).2.state = State.StateImagePropAnchor ∧
      (s.parse_err_occurred = false →
        (on_string json type value s).2.stderr = s.stderr ++
          [diagnostic json (snprintf STRBUF_SIZE ("unknown anchor value: " ++ value))])) := by
  constructor
  · intro entry hmem
    simp only [namedAnchors, List.mem_cons, List.mem_singleton, List.not_mem_nil, or_false] at hmem
    rcases hmem with h | h | h | h | h | h | h | h | h <;> subst h <;>
      simp [on_string, hstate]
  · intro value hvalue
    simp only [anchorNames, List.mem_cons, List.mem_singleton, List.not_mem_nil, or_false,
      not_or] at hvalue
    obtain ⟨h1, h2, h3, h4, h5, h6, h7, h8, h9⟩ := hvalue
    have hrun : on_string json type value s =
        parse_error json (snprintf STRBUF_SIZE ("unknown anchor value: " ++ value))
          { s with strbuf := snprintf STRBUF_SIZE ("unknown anchor value: " ++ value) } := by
      simp [on_string, hstate, h1, h2, h3, h4, h5, h6, h7, h8, h9]
    rw [hrun]
    have h := parse_error_spec json (snprintf STRBUF_SIZE ("unknown anchor value: " ++ value))
      { s with strbuf := snprintf STRBUF_SIZE ("unknown anchor value: " ++ value) }
    exact ⟨h.1, h.2.1, h.2.2.2.1, h.2.2.1.trans hstate, h.2.2.2.2.2.2⟩

/-- C8, examples: in the anchor value position `topleft` is accepted and
`middle` is rejected. -/
theorem C8_anchor_names_witness :
    on_string ⟨2, 7⟩ LaxJsonType.String "topleft" (textureSession State.StateImagePropAnchor) =
      (0, { textureSession State.StateImagePropAnchor with
        image := { path := none, anchor := RuckSackAnchor.TopLeft, anchor_x := 0, anchor_y := 0 }
        state := State.StateImagePropName }) ∧
    (on_string ⟨2, 7⟩ LaxJsonType.String "middle" (textureSession State.StateImagePropAnchor)).1
      = -1 ∧
    (on_string ⟨2, 7⟩ LaxJsonType.String "middle"
      (textureSession State.StateImagePropAnchor)).2.stderr
      = ["line 2, col 7: unknown anchor value: middle\n"] :=
  have h := C8_anchor_names ⟨2, 7⟩ LaxJsonType.String (textureSession State.StateImagePropAnchor)
    rfl
  ⟨(h.1 ("topleft", RuckSackAnchor.TopLeft) (by decide)).trans (by decide),
   (h.2 "middle" (by decide)).1,
   ((h.2 "middle" (by decide)).2.2.2.2 rfl).trans (by decide)⟩

/-! ## Running the event loop -/

theorem feed_nil (env : Env) (s : Session) : feed env [] s = (0, s) := rfl

theorem feed_append_ok (env : Env) (a b : List Token) (s r : Session)
    (h : feed env a s = (0, r)) : feed env (a ++ b) s = feed env b r := by
  induction a generalizing s with
  | nil =>
    simp only [feed] at h
    cases h
    rfl
  | cons t a ih =>
    simp only [List.cons_append, feed] at h ⊢
    split_ifs at h ⊢ with hne
    · rw [h] at hne
      exact absurd rfl hne
    · exact ih _ h

theorem tokensAt_append (json : LaxJsonContext) (a b : List Event) :
    tokensAt json (a ++ b) = tokensAt json a ++ tokensAt json b := by
  simp [tokensAt]

theorem tokensAt_cons (json : LaxJsonContext) (e : Event) (a : List Event) :
    tokensAt json (e :: a) = ⟨json, e⟩ :: tokensAt json a := rfl

theorem tokensAt_nil (json : LaxJsonContext) : tokensAt json [] = [] := rfl

theorem tokensAt_event (json : LaxJsonContext) (a : List Event) :
    (tokensAt json a).map Token.event = a := by
  induction a with
  | nil => rfl
  | cons e a ih => simp only [tokensAt_cons, List.map_cons, ih]

theorem dispatch_indep (env : Env) (j j' : LaxJsonContext) (e : Event) (s : Session) :
    (dispatch env ⟨j, e⟩ s).1 = 0 → dispatch env ⟨j', e⟩ s = dispatch env ⟨j, e⟩ s := by
  cases e with
  | string type value => exact on_string_indep j j' type value s
  | number x => exact on_number_indep j j' x s
  | primitive type => exact on_primitive_indep j j' type s
  | begin_ type => exact on_begin_indep j j' type s
  | end_ type => exact on_end_indep env j j' type s

theorem feed_fst_of_failed (env : Env) (t : Token) (rest : List Token) (s : Session)
    (h : (dispatch env t s).1 ≠ 0) : feed env (t :: rest) s = dispatch env t s := by
  simp [feed, h]

/-- A run that succeeds does not depend on the positions of its events. -/
theorem feed_indep (env : Env) :
    ∀ (ts ts' : List Token) (s : Session),
      ts'.map Token.event = ts.map Token.event →
      (feed env ts s).1 = 0 → feed env ts' s = feed env ts s
  | [], ts', s, hmap, _ => by
    have : ts' = [] := by simpa using hmap
    rw [this]
  | t :: ts, [], s, hmap, _ => by simp at hmap
  | t :: ts, t' :: ts', s, hmap, h => by
    simp only [List.map_cons, List.cons.injEq] at hmap
    obtain ⟨hev, hrest⟩ := hmap
    by_cases hok : (dispatch env t s).1 = 0
    · have hd : dispatch env t' s = dispatch env t s := by
        cases t with
        | mk j e =>
          cases t' with
          | mk j' e' =>
            simp only at hev
            subst hev
            exact dispatch_indep env j j' e' s hok
      simp only [feed, hd, hok, ne_eq, not_true_eq_false, if_false] at h ⊢
      exact feed_indep env ts ts' _ hrest h
    · rw [feed_fst_of_failed env t ts s hok] at h
      exact absurd h hok

/-! ## Steps of the grammar -/

theorem feed_image_path (env : Env) (json : LaxJsonContext) (value : String)
    (rest : List Token) (s : Session) (hs : s.state = State.StateImagePropName) :
    feed env (tokensAt json (imagePropEvents (ImageProp.path value)) ++ rest) s =
      feed env rest
        { s with
          image := { s.image with path := some (resolve_path ( Session.path_prefix s) value) } } := by
  simp only [imagePropEvents, tokensAt_cons, tokensAt_nil, propertyName, stringValue,
    List.cons_append, List.nil_append, feed, dispatch]
  simp [on_string, hs]

theorem feed_image_open (env : Env) (json : LaxJsonContext) (name : String)
    (rest : List Token) (s : Session) (hs : s.state = State.StateImageName) :
    feed env (tokensAt json [propertyName name, beginObject] ++ rest) s =
      feed env rest
        { s with
          image := { s.image with anchor := RuckSackAnchor.Center, path := none }
          image_key := some name
          state := State.StateImagePropName } := by
  simp only [tokensAt_cons, tokensAt_nil, propertyName, beginObject,
    List.cons_append, List.nil_append, feed, dispatch]
  simp [on_string, on_begin, hs]

theorem feed_image_close (env : Env) (json : LaxJsonContext) (page : RuckSackPage)
    (rest : List Token) (s : Session) (hs : s.state = State.StateImagePropName)
    (hpage : s.page = some page) :
    feed env (tokensAt json [endObject] ++ rest) s =
      feed env rest
        { s with
          calls := s.calls ++ [Action.addImage s.image_key s.image]
          page := some (rucksack_page_add_image env s.calls page s.image_key s.image).2
          image := { s.image with path := none }
          image_key := none
          state := State.StateImageName } := by
  simp only [tokensAt_cons, tokensAt_nil, endObject,
    List.cons_append, List.nil_append, feed, dispatch]
  simp [on_end, hs, hpage]

/-! ## C7: the default anchor -/

theorem feed_image_paths (env : Env) (json : LaxJsonContext) (rest : List Token)
    (paths : List String) :
    ∀ s : Session, s.state = State.StateImagePropName →
      ∃ p, feed env (tokensAt json ((paths.map ImageProp.path).flatMap imagePropEvents) ++ rest) s =
        feed env rest { s with image := { s.image with path := p } } := by
  induction paths with
  | nil => exact fun s _ => ⟨s.image.path, rfl⟩
  | cons value paths ih =>
    intro s hs
    obtain ⟨p, ih⟩ := ih
      { s with image := { s.image with path := some (resolve_path ( Session.path_prefix s) value) } }
      hs
    refine ⟨p, ?_⟩
    rw [List.map_cons, List.flatMap_cons, tokensAt_append, List.append_assoc,
      feed_image_path env json value _ s hs, ih]

/-- C7: from the image-name position inside a texture entry, whatever the image
variable holds from the entries before, the events of an image entry that has
only `path` fields are all accepted and return to the image-name position, and
the image passed to the page when the object closes has the anchor `Center`; it
is the image the page holds under the entry's name whenever the library accepts
it. -/
theorem C7_default_anchor (env : Env) (s : Session) (page : RuckSackPage) (name : String)
    (paths : List String) (ts : List Token)
    (hstate : s.state = State.StateImageName)
    (hpage : s.page = some page)
    (hts : ts.map Token.event = imageEntryEvents (name, paths.map ImageProp.path)) :
    ∃ image : RuckSackImage,
      image.anchor = RuckSackAnchor.Center ∧
      (feed env ts s).1 = 0 ∧
      (feed env ts s).2.state = State.StateImageName ∧
      (feed env ts s).2.calls = s.calls ++ [Action.addImage (some name) image] ∧
      (feed env ts s).2.page =
        some (rucksack_page_add_image env s.calls page (some name) image).2 := by
  obtain ⟨p, hloop⟩ := feed_image_paths env ⟨0, 0⟩ (tokensAt ⟨0, 0⟩ [endObject] ++ []) paths
    { s with
      image := { s.image with anchor := RuckSackAnchor.Center, path := none }
      image_key := some name
      state := State.StateImagePropName } rfl
  have hcanon : feed env (tokensAt ⟨0, 0⟩ (imageEntryEvents (name, paths.map ImageProp.path))) s =
      (0, { s with
        calls := s.calls ++ [Action.addImage (some name)
          { s.image with anchor := RuckSackAnchor.Center, path := p }]
        page := some (rucksack_page_add_image env s.calls page (some name)
          { s.image with anchor := RuckSackAnchor.Center, path := p }).2
        image := { s.image with anchor := RuckSackAnchor.Center, path := none }
        image_key := none
        state := State.StateImageName }) := by
    have hshape : tokensAt ⟨0, 0⟩ (imageEntryEvents (name, paths.map ImageProp.path)) =
        tokensAt ⟨0, 0⟩ [propertyName name, beginObject] ++
          (tokensAt ⟨0, 0⟩ ((paths.map ImageProp.path).flatMap imagePropEvents) ++
            (tokensAt ⟨0, 0⟩ [endObject] ++ [])) := by
      simp only [imageEntryEvents, tokensAt_append, List.append_assoc, List.append_nil]
    rw [hshape, feed_image_open env _ name _ s hstate, hloop,
      feed_image_close env _ page _
        { s with
          image := { s.image with anchor := RuckSackAnchor.Center, path := p }
          image_key := some name
          state := State.StateImagePropName } rfl hpage]
    rfl
  have hrun : feed env ts s = _ :=
    (feed_indep env _ ts s (by rw [hts, tokensAt_event]) (by rw [hcanon])).trans hcanon
  refine ⟨{ s.image with anchor := RuckSackAnchor.Center, path := p }, rfl, ?_, ?_, ?_, ?_⟩ <;>
    rw [hrun]

/-- C7, an example: after an image anchored at the top left, the entry
`i: {path: "x.png"}` is committed with the anchor `Center`. -/
theorem C7_default_anchor_witness :
    ∃ image : RuckSackImage,
      image.anchor = RuckSackAnchor.Center ∧
      (feed demoEnv (tokensAt ⟨5, 3⟩ (imageEntryEvents ("i", [ImageProp.path "x.png"])))
        imageSession).1 = 0 ∧
      (feed demoEnv (tokensAt ⟨5, 3⟩ (imageEntryEvents ("i", [ImageProp.path "x.png"])))
        imageSession).2.state = State.StateImageName ∧
      (feed demoEnv (tokensAt ⟨5, 3⟩ (imageEntryEvents ("i", [ImageProp.path "x.png"])))
        imageSession).2.calls = imageSession.calls ++ [Action.addImage (some "i") image] ∧
      (feed demoEnv (tokensAt ⟨5, 3⟩ (imageEntryEvents ("i", [ImageProp.path "x.png"])))
        imageSession).2.page =
          some (rucksack_page_add_image demoEnv imageSession.calls
            { max_width := some 64, max_height := some 32, pow2 := some 1, images := [] }
            (some "i") image).2 :=
  C7_default_anchor demoEnv imageSession
    { max_width := some 64, max_height := some 32, pow2 := some 1, images := [] } "i" ["x.png"]
    (tokensAt ⟨5, 3⟩ (imageEntryEvents ("i", [ImageProp.path "x.png"]))) rfl rfl (by decide)

/-! ## C9: the sizes of a texture page -/

theorem truncate_intCast (n : Int) : truncate (n : ℚ) = n := by
  simp [truncate, Int.tdiv_one]

/-- The verdict of the test `x != (double)(int)x`. -/
theorem double_to_int_eq_iff (x : ℚ) :
    x = ((double_to_int x : Int) : ℚ) ↔
      x = ((truncate x : Int) : ℚ) ∧ INT_MIN ≤ truncate x ∧ truncate x ≤ INT_MAX := by
  unfold double_to_int
  split_ifs with hrange
  · exact ⟨fun h => ⟨h, hrange⟩, fun h => h.1⟩
  · constructor
    · intro h
      exfalso
      apply hrange
      rw [h, truncate_intCast]
      decide
    · intro h
      exact absurd h.2 hrange

theorem double_to_int_of_whole (x : ℚ)
    (h : x = ((truncate x : Int) : ℚ) ∧ INT_MIN ≤ truncate x ∧ truncate x ≤ INT_MAX) :
    double_to_int x = truncate x := by
  unfold double_to_int
  rw [if_pos h.2]

/-- C9, counterexample: 2147483648 equals its own truncation to a whole
number, yet in the maxWidth position it is refused with `expected integer`: it
is outside the range of `int`, to which the code converts it. -/
theorem C9_counterexample :
    (2147483648 : ℚ) = ((truncate 2147483648 : Int) : ℚ) ∧
    on_number ⟨1, 1⟩ 2147483648 (textureSession State.StateTextureMaxWidth) =
      (-1, { textureSession State.StateTextureMaxWidth with
        stderr := ["line 1, col 1: expected integer\n"]
        parse_err_occurred := true }) := by
  decide

/-- C9, amended: in the maxWidth (respectively maxHeight) position of an open
page draft, a number is accepted if and only if it equals its own truncation to
a whole number and that whole number is in the range of `int`; when accepted the
max width (respectively max height) of the draft becomes that integer, nothing
else changes and the position returns to the texture-property position;
otherwise the event fails with `expected integer` and the draft and the position
stay as they are. -/
theorem C9_integer_sizes (json : LaxJsonContext) (x : ℚ) (s : Session) (page : RuckSackPage)
    (hpage : s.page = some page) :
    (s.state = State.StateTextureMaxWidth →
      ((x = ((truncate x : Int) : ℚ) ∧ INT_MIN ≤ truncate x ∧ truncate x ≤ INT_MAX) →
        on_number json x s =
          (0, { s with
            page := some { page with max_width := some (truncate x) }
            state := State.StateTextureProp })) ∧
      (¬ (x = ((truncate x : Int) : ℚ) ∧ INT_MIN ≤ truncate x ∧ truncate x ≤ INT_MAX) →
        on_number json x s = parse_error json "expected integer" s ∧
        (on_number json x s).1 = -1 ∧
        (on_number json x s).2.page = s.page ∧
        (on_number json x s).2.state = s.state)) ∧
    (s.state = State.StateTextureMaxHeight →
      ((x = ((truncate x : Int) : ℚ) ∧ INT_MIN ≤ truncate x ∧ truncate x ≤ INT_MAX) →
        on_number json x s =
          (0, { s with
            page := some { page with max_height := some (truncate x) }
            state := State.StateTextureProp })) ∧
      (¬ (x = ((truncate x : Int) : ℚ) ∧ INT_MIN ≤ truncate x ∧ truncate x ≤ INT_MAX) →
        on_number json x s = parse_error json "expected integer" s ∧
        (on_number json x s).1 = -1 ∧
        (on_number json x s).2.page = s.page ∧
        (on_number json x s).2.state = s.state)) := by
  have hspec := parse_error_spec json "expected integer" s
  constructor
  · intro hstate
    constructor
    · intro hwhole
      have h2 := double_to_int_of_whole x hwhole
      have h1 : ¬ ¬ x = ((truncate x : Int) : ℚ) := not_not_intro hwhole.1
      simp only [on_number, hstate, hpage, ne_eq, h2, if_neg h1]
    · intro hnot
      have h1 : ¬ x = ((double_to_int x : Int) : ℚ) := fun h => hnot ((double_to_int_eq_iff x).1 h)
      have hrun : on_number json x s = parse_error json "expected integer" s := by
        simp only [on_number, hstate, ne_eq, h1, not_false_eq_true, if_true]
      rw [hrun]
      exact ⟨rfl, hspec.1, hspec.2.2.2.2.1, hspec.2.2.1⟩
  · intro hstate
    constructor
    · intro hwhole
      have h2 := double_to_int_of_whole x hwhole
      have h1 : ¬ ¬ x = ((truncate x : Int) : ℚ) := not_not_intro hwhole.1
      simp only [on_number, hstate, hpage, ne_eq, h2, if_neg h1]
    · intro hnot
      have h1 : ¬ x = ((double_to_int x : Int) : ℚ) := fun h => hnot ((double_to_int_eq_iff x).1 h)
      have hrun : on_number json x s = parse_error json "expected integer" s := by
        simp only [on_number, hstate, ne_eq, h1, not_false_eq_true, if_true]
      rw [hrun]
      exact ⟨rfl, hspec.1, hspec.2.2.2.2.1, hspec.2.2.1⟩

/-- C9, the examples of the specification: `maxWidth: 256` is accepted and
stored as 256; `maxWidth: 256.5` fails with `expected integer`. -/
theorem C9_integer_sizes_witness :
    on_number ⟨4, 9⟩ 256 (textureSession State.StateTextureMaxWidth) =
      (0, { textureSession State.StateTextureMaxWidth with
        page := some { max_width := some 256, max_height := some 32, pow2 := some 1, images := [] }
        state := State.StateTextureProp }) ∧
    on_number ⟨4, 9⟩ (mkRat 513 2) (textureSession State.StateTextureMaxWidth) =
      (-1, { textureSession State.StateTextureMaxWidth with
        stderr := ["line 4, col 9: expected integer\n"]
        parse_err_occurred := true }) :=
  ⟨(((C9_integer_sizes ⟨4, 9⟩ 256 (textureSession State.StateTextureMaxWidth)
      { max_width := some 64, max_height := some 32, pow2 := some 1, images := [] } rfl).1 rfl).1
      (by decide)).trans (by decide),
   (((C9_integer_sizes ⟨4, 9⟩ (mkRat 513 2) (textureSession State.StateTextureMaxWidth)
      { max_width := some 64, max_height := some 32, pow2 := some 1, images := [] } rfl).1 rfl).2
      (by decide)).1.trans (by decide)⟩

/-! ## C10: the power-of-two flag -/

/-- C10, counterexample: in the pow2 position a number is refused with the
message `unexpected number`, not `expected true or false`. -/
theorem C10_counterexample :
    on_number ⟨6, 13⟩ 1 (textureSession State.StateTexturePow2) =
      (-1, { textureSession State.StateTexturePow2 with
        stderr := ["line 6, col 13: unexpected number\n"]
        parse_err_occurred := true }) := by
  decide

/-- C10, amended: in the pow2 position of an open page draft, `true` sets the
power-of-two flag of the draft to 1 and `false` sets it to 0, both returning to
the texture-property position; every other value event fails and leaves the
draft and the position as they are: `null` with the message
`expected true or false`, a number with `unexpected number`, a string with
`unexpected string`, the start of an object with `unexpected object` and the
start of an array with `unexpected array`. -/
theorem C10_pow2 (json : LaxJsonContext) (s : Session) (page : RuckSackPage)
    (hstate : s.state = State.StateTexturePow2) (hpage : s.page = some page) :
    on_primitive json LaxJsonType.True s =
      (0, { s with page := some { page with pow2 := some 1 }, state := State.StateTextureProp }) ∧
    on_primitive json LaxJsonType.False s =
      (0, { s with page := some { page with pow2 := some 0 }, state := State.StateTextureProp }) ∧
    on_primitive json LaxJsonType.Null s = parse_error json "expected true or false" s ∧
    (∀ x, on_number json x s = parse_error json "unexpected number" s) ∧
    (∀ type value, on_string json type value s = parse_error json "unexpected string" s) ∧
    on_begin json LaxJsonType.Object s = parse_error json "unexpected object" s ∧
    on_begin json LaxJsonType.Array s = parse_error json "unexpected array" s ∧
    (∀ msg, (parse_error json msg s).1 = -1 ∧
      (parse_error json msg s).2.page = s.page ∧
      (parse_error json msg s).2.state = s.state ∧
      (s.parse_err_occurred = false →
        (parse_error json msg s).2.stderr = s.stderr ++ [diagnostic json msg])) := by
  refine ⟨?_, ?_, ?_, ?_, ?_, ?_, ?_, ?_⟩
  · simp only [on_primitive, hstate, hpage]
  · simp only [on_primitive, hstate, hpage]
  · simp only [on_primitive, hstate]
  · intro x
    simp only [on_number, hstate]
  · intro type value
    simp only [on_string, hstate]
  · simp [on_begin, hstate]
  · simp [on_begin, hstate]
  · intro msg
    have h := parse_error_spec json msg s
    exact ⟨h.1, h.2.2.2.2.1, h.2.2.1, h.2.2.2.2.2.2⟩

/-- C10, examples: in the pow2 position `false` clears the flag of the draft,
and `null` fails with `expected true or false`. -/
theorem C10_pow2_witness :
    on_primitive ⟨6, 13⟩ LaxJsonType.False (textureSession State.StateTexturePow2) =
      (0, { textureSession State.StateTexturePow2 with
        page := some { max_width := some 64, max_height := some 32, pow2 := some 0, images := [] }
        state := State.StateTextureProp }) ∧
    on_primitive ⟨6, 13⟩ LaxJsonType.Null (textureSession State.StateTexturePow2) =
      (-1, { textureSession State.StateTexturePow2 with
        stderr := ["line 6, col 13: expected true or false\n"]
        parse_err_occurred := true }) :=
  have h := C10_pow2 ⟨6, 13⟩ (textureSession State.StateTexturePow2)
    { max_width := some 64, max_height := some 32, pow2 := some 1, images := [] } rfl rfl
  ⟨h.2.1.trans (by decide), h.2.2.1.trans (by decide)⟩

/-! ## C1: a well-formed manifest

Each lemma below runs the events of one construct of the grammar and hands the
rest of the stream to the session reached. -/

theorem Advances.refl (s : Session) : Advances s s 0 0 :=
  ⟨rfl, rfl, rfl, rfl, rfl, rfl, rfl⟩

theorem Advances.trans {s s' s'' : Session} {p f p' f' : Nat}
    (h : Advances s s' p f) (h' : Advances s' s'' p' f') : Advances s s'' (p + p') (f + f') :=
  ⟨h'.state.trans h.state, h'.latch.trans h.latch, h'.root.trans h.root,
   h'.stderr.trans h.stderr, h'.crashed.trans h.crashed,
   by rw [h'.addPages, h.addPages, Nat.add_assoc],
   by rw [h'.addFiles, h.addFiles, Nat.add_assoc]⟩

theorem feed_anchor_point_prop (env : Env) (json : LaxJsonContext) (prop : AnchorPointProp)
    (rest : List Token) (s : Session) (hs : s.state = State.StateImagePropAnchorObject) :
    ∃ image, feed env (tokensAt json (anchorPointPropEvents prop) ++ rest) s =
      feed env rest { s with image := image } := by
  cases prop with
  | x value =>
    refine ⟨{ s.image with anchor_x := value }, ?_⟩
    simp only [anchorPointPropEvents, tokensAt_cons, tokensAt_nil, propertyName,
      List.cons_append, List.nil_append, feed, dispatch]
    simp [on_string, on_number, hs]
  | y value =>
    refine ⟨{ s.image with anchor_x := value }, ?_⟩
    simp only [anchorPointPropEvents, tokensAt_cons, tokensAt_nil, propertyName,
      List.cons_append, List.nil_append, feed, dispatch]
    simp [on_string, on_number, hs]

theorem feed_anchor_point_props (env : Env) (json : LaxJsonContext) (rest : List Token)
    (props : List AnchorPointProp) :
    ∀ s : Session, s.state = State.StateImagePropAnchorObject →
      ∃ image, feed env (tokensAt json (props.flatMap anchorPointPropEvents) ++ rest) s =
        feed env rest { s with image := image } := by
  induction props with
  | nil => exact fun s _ => ⟨s.image, rfl⟩
  | cons prop props ih =>
    intro s hs
    obtain ⟨image, h1⟩ := feed_anchor_point_prop env json prop
      (tokensAt json (props.flatMap anchorPointPropEvents) ++ rest) s hs
    obtain ⟨image', h2⟩ := ih { s with image := image } hs
    refine ⟨image', ?_⟩
    rw [List.flatMap_cons, tokensAt_append, List.append_assoc, h1, h2]

theorem on_string_anchor_name (json : LaxJsonContext) (type : LaxJsonType) (value : String)
    (s : Session) (hs : s.state = State.StateImagePropAnchor) (hvalue : value ∈ anchorNames) :
    ∃ anchor, on_string json type value s =
      (0, { s with image := { s.image with anchor := anchor }, state := State.StateImagePropName }) := by
  simp only [anchorNames, List.mem_cons, List.mem_singleton, List.not_mem_nil, or_false] at hvalue
  rcases hvalue with h | h | h | h | h | h | h | h | h <;> subst h <;>
    simp [on_string, hs]

theorem feed_image_prop (env : Env) (json : LaxJsonContext) (prop : ImageProp)
    (rest : List Token) (s : Session) (hs : s.state = State.StateImagePropName)
    (hwf : prop.WellFormed) :
    ∃ image, feed env (tokensAt json (imagePropEvents prop) ++ rest) s =
      feed env rest { s with image := image } := by
  cases prop with
  | path value => exact ⟨_, feed_image_path env json value rest s hs⟩
  | anchor value =>
    cases value with
    | name value =>
      obtain ⟨anchor, h⟩ := on_string_anchor_name json LaxJsonType.String value
        { s with state := State.StateImagePropAnchor } rfl hwf
      refine ⟨{ s.image with anchor := anchor }, ?_⟩
      simp only [imagePropEvents, anchorValueEvents, tokensAt_cons, tokensAt_nil, propertyName,
        stringValue, List.cons_append, List.nil_append, feed, dispatch]
      have h0 : on_string json LaxJsonType.Property "anchor" s =
          (0, { s with state := State.StateImagePropAnchor }) := by
        simp [on_string, hs]
      rw [h0]
      simp only [ne_eq, not_true_eq_false, if_false, h]
      simp [hs]
    | point props =>
      obtain ⟨image, h⟩ := feed_anchor_point_props env json
        (tokensAt json [endObject] ++ rest) props
        { s with
          state := State.StateImagePropAnchorObject
          image := { s.image with anchor := RuckSackAnchor.Explicit } } rfl
      refine ⟨image, ?_⟩
      have hopen : ∀ rest', feed env
          (tokensAt json [propertyName "anchor", beginObject] ++ rest') s =
          feed env rest'
            { s with
              state := State.StateImagePropAnchorObject
              image := { s.image with anchor := RuckSackAnchor.Explicit } } := by
        intro rest'
        simp only [tokensAt_cons, tokensAt_nil, propertyName, beginObject,
          List.cons_append, List.nil_append, feed, dispatch]
        simp [on_string, on_begin, hs]
      have hclose : feed env (tokensAt json [endObject] ++ rest)
          { s with state := State.StateImagePropAnchorObject, image := image } =
          feed env rest { s with image := image } := by
        simp only [tokensAt_cons, tokensAt_nil, endObject,
          List.cons_append, List.nil_append, feed, dispatch]
        simp [on_end, hs]
      have hshape : tokensAt json (imagePropEvents (ImageProp.anchor (AnchorValue.point props)))
          ++ rest = tokensAt json [propertyName "anchor", beginObject] ++
            (tokensAt json (props.flatMap anchorPointPropEvents) ++
              (tokensAt json [endObject] ++ rest)) := by
        simp only [imagePropEvents, anchorValueEvents, tokensAt_append, tokensAt_cons,
          tokensAt_nil, List.append_assoc, List.cons_append, List.nil_append]
      rw [hshape, hopen, h]
      exact hclose

theorem feed_image_props (env : Env) (json : LaxJsonContext) (rest : List Token)
    (props : List ImageProp) :
    ∀ s : Session, s.state = State.StateImagePropName → (∀ p ∈ props, p.WellFormed) →
      ∃ image, feed env (tokensAt json (props.flatMap imagePropEvents) ++ rest) s =
        feed env rest { s with image := image } := by
  induction props with
  | nil => exact fun s _ _ => ⟨s.image, rfl⟩
  | cons prop props ih =>
    intro s hs hwf
    obtain ⟨image, h1⟩ := feed_image_prop env json prop
      (tokensAt json (props.flatMap imagePropEvents) ++ rest) s hs
      (hwf prop (List.mem_cons_self _ _))
    obtain ⟨image', h2⟩ := ih { s with image := image } hs
      (fun p hp => hwf p (List.mem_cons_of_mem _ hp))
    refine ⟨image', ?_⟩
    rw [List.flatMap_cons, tokensAt_append, List.append_assoc, h1, h2]

theorem addPageCount_append (a b : List Action) :
    addPageCount (a ++ b) = addPageCount a + addPageCount b := by
  simp [addPageCount, List.countP_append]

theorem addFileCount_append (a b : List Action) :
    addFileCount (a ++ b) = addFileCount a + addFileCount b := by
  simp [addFileCount, List.countP_append]

theorem feed_image_entry (env : Env) (json : LaxJsonContext) (rest : List Token)
    (entry : String × List ImageProp) (s : Session) (hs : s.state = State.StateImageName)
    (hpage : s.page.isSome) (hwf : ∀ p ∈ entry.2, p.WellFormed) :
    ∃ s', Advances s s' 0 0 ∧ s'.page.isSome ∧
      feed env (tokensAt json (imageEntryEvents entry) ++ rest) s = feed env rest s' := by
  obtain ⟨page, hpage⟩ := Option.isSome_iff_exists.1 hpage
  obtain ⟨image, hprops⟩ := feed_image_props env json (tokensAt json [endObject] ++ rest) entry.2
    { s with
      image := { s.image with anchor := RuckSackAnchor.Center, path := none }
      image_key := some entry.1
      state := State.StateImagePropName } rfl hwf
  have hshape : tokensAt json (imageEntryEvents entry) ++ rest =
      tokensAt json [propertyName entry.1, beginObject] ++
        (tokensAt json (entry.2.flatMap imagePropEvents) ++
          (tokensAt json [endObject] ++ rest)) := by
    simp only [imageEntryEvents, tokensAt_append, List.append_assoc]
  refine ⟨{ s with
      calls := s.calls ++ [Action.addImage (some entry.1) image]
      page := some (rucksack_page_add_image env s.calls page (some entry.1) image).2
      image := { image with path := none }
      image_key := none
      state := State.StateImageName }, ?_, rfl, ?_⟩
  · exact ⟨hs.symm, rfl, rfl, rfl, rfl,
      by simp [addPageCount_append, addPageCount, Action.isAddPage],
      by simp [addFileCount_append, addFileCount, Action.isAddFile]⟩
  · rw [hshape, feed_image_open env json entry.1 _ s hs, hprops,
      feed_image_close env json page rest
        { s with image := image, image_key := some entry.1, state := State.StateImagePropName }
        rfl hpage]

theorem feed_image_entries (env : Env) (json : LaxJsonContext) (rest : List Token)
    (entries : List (String × List ImageProp)) :
    ∀ s : Session, s.state = State.StateImageName → s.page.isSome →
      (∀ e ∈ entries, ∀ p ∈ e.2, p.WellFormed) →
      ∃ s', Advances s s' 0 0 ∧ s'.page.isSome ∧
        feed env (tokensAt json (entries.flatMap imageEntryEvents) ++ rest) s = feed env rest s' := by
  induction entries with
  | nil => exact fun s _ hpage _ => ⟨s, Advances.refl s, hpage, rfl⟩
  | cons entry entries ih =>
    intro s hs hpage hwf
    obtain ⟨s1, hadv1, hpage1, h1⟩ := feed_image_entry env json
      (tokensAt json (entries.flatMap imageEntryEvents) ++ rest) entry s hs hpage
      (hwf entry (List.mem_cons_self _ _))
    obtain ⟨s2, hadv2, hpage2, h2⟩ := ih s1 (hadv1.state.trans hs) hpage1
      (fun e he => hwf e (List.mem_cons_of_mem _ he))
    refine ⟨s2, hadv1.trans hadv2, hpage2, ?_⟩
    rw [List.flatMap_cons, tokensAt_append, List.append_assoc, h1, h2]

theorem double_to_int_intCast (n : Int) (h : INT_MIN ≤ n ∧ n ≤ INT_MAX) :
    double_to_int (n : ℚ) = n := by
  rw [double_to_int_of_whole, truncate_intCast]
  rw [truncate_intCast]
  exact ⟨rfl, h⟩

theorem feed_texture_prop (env : Env) (json : LaxJsonContext) (rest : List Token)
    (prop : TextureProp) (s : Session) (hs : s.state = State.StateTextureProp)
    (hpage : s.page.isSome) (hwf : prop.WellFormed) :
    ∃ s', Advances s s' 0 0 ∧ s'.page.isSome ∧
      feed env (tokensAt json (texturePropEvents prop) ++ rest) s = feed env rest s' := by
  obtain ⟨page, hpage'⟩ := Option.isSome_iff_exists.1 hpage
  cases prop with
  | maxWidth value =>
    have hcast := double_to_int_intCast value hwf
    refine ⟨{ s with page := some { page with max_width := some value } },
      ⟨rfl, rfl, rfl, rfl, rfl, rfl, rfl⟩, rfl, ?_⟩
    simp only [texturePropEvents, tokensAt_cons, tokensAt_nil, propertyName,
      List.cons_append, List.nil_append, feed, dispatch]
    simp [on_string, on_number, hs, hpage', hcast]
  | maxHeight value =>
    have hcast := double_to_int_intCast value hwf
    refine ⟨{ s with page := some { page with max_height := some value } },
      ⟨rfl, rfl, rfl, rfl, rfl, rfl, rfl⟩, rfl, ?_⟩
    simp only [texturePropEvents, tokensAt_cons, tokensAt_nil, propertyName,
      List.cons_append, List.nil_append, feed, dispatch]
    simp [on_string, on_number, hs, hpage', hcast]
  | pow2 value =>
    cases value with
    | false =>
      refine ⟨{ s with page := some { page with pow2 := some 0 } },
        ⟨rfl, rfl, rfl, rfl, rfl, rfl, rfl⟩, rfl, ?_⟩
      simp only [texturePropEvents, tokensAt_cons, tokensAt_nil, propertyName,
        List.cons_append, List.nil_append, feed, dispatch]
      simp [on_string, on_primitive, hs, hpage']
    | true =>
      refine ⟨{ s with page := some { page with pow2 := some 1 } },
        ⟨rfl, rfl, rfl, rfl, rfl, rfl, rfl⟩, rfl, ?_⟩
      simp only [texturePropEvents, tokensAt_cons, tokensAt_nil, propertyName,
        List.cons_append, List.nil_append, feed, dispatch]
      simp [on_string, on_primitive, hs, hpage']
  | images entries =>
    obtain ⟨s1, hadv, hpage1, h1⟩ := feed_image_entries env json
      (tokensAt json [endObject] ++ rest) entries
      { s with state := State.StateImageName } rfl hpage (fun e he => (hwf e he).1)
    have hopen : ∀ rest', feed env
        (tokensAt json [propertyName "images", beginObject] ++ rest') s =
        feed env rest' { s with state := State.StateImageName } := by
      intro rest'
      simp only [tokensAt_cons, tokensAt_nil, propertyName, beginObject,
        List.cons_append, List.nil_append, feed, dispatch]
      simp [on_string, on_begin, hs]
    have hs1 : s1.state = State.StateImageName := hadv.state
    have hclose : feed env (tokensAt json [endObject] ++ rest) s1 =
        feed env rest { s1 with state := State.StateTextureProp } := by
      simp only [tokensAt_cons, tokensAt_nil, endObject,
        List.cons_append, List.nil_append, feed, dispatch]
      simp [on_end, hs1]
    have hshape : tokensAt json (texturePropEvents (TextureProp.images entries)) ++ rest =
        tokensAt json [propertyName "images", beginObject] ++
          (tokensAt json (entries.flatMap imageEntryEvents) ++
            (tokensAt json [endObject] ++ rest)) := by
      simp only [texturePropEvents, tokensAt_append, List.append_assoc]
    refine ⟨{ s1 with state := State.StateTextureProp }, ?_, hpage1, ?_⟩
    · exact ⟨hs.symm, hadv.latch, hadv.root, hadv.stderr, hadv.crashed, hadv.addPages,
        hadv.addFiles⟩
    · rw [hshape, hopen, h1, hclose]

theorem feed_texture_props (env : Env) (json : LaxJsonContext) (rest : List Token)
    (props : List TextureProp) :
    ∀ s : Session, s.state = State.StateTextureProp → s.page.isSome →
      (∀ p ∈ props, p.WellFormed) →
      ∃ s', Advances s s' 0 0 ∧ s'.page.isSome ∧
        feed env (tokensAt json (props.flatMap texturePropEvents) ++ rest) s = feed env rest s' := by
  induction props with
  | nil => exact fun s _ hpage _ => ⟨s, Advances.refl s, hpage, rfl⟩
  | cons prop props ih =>
    intro s hs hpage hwf
    obtain ⟨s1, hadv1, hpage1, h1⟩ := feed_texture_prop env json
      (tokensAt json (props.flatMap texturePropEvents) ++ rest) prop s hs hpage
      (hwf prop (List.mem_cons_self _ _))
    obtain ⟨s2, hadv2, hpage2, h2⟩ := ih s1 (hadv1.state.trans hs) hpage1
      (fun p hp => hwf p (List.mem_cons_of_mem _ hp))
    refine ⟨s2, hadv1.trans hadv2, hpage2, ?_⟩
    rw [List.flatMap_cons, tokensAt_append, List.append_assoc, h1, h2]

theorem feed_texture_entry (env : Env) (json : LaxJsonContext) (rest : List Token)
    (entry : String × List TextureProp) (s : Session) (hs : s.state = State.StateTextureName)
    (hadd : ∀ calls k p, env.rucksack_bundle_add_page calls k p = 0)
    (hwf : ∀ p ∈ entry.2, p.WellFormed) :
    ∃ s', Advances s s' 1 0 ∧
      feed env (tokensAt json (textureEntryEvents entry) ++ rest) s = feed env rest s' := by
  have hopen : ∀ rest', feed env
      (tokensAt json [propertyName entry.1, beginObject] ++ rest') s =
      feed env rest'
        { s with
          page := some rucksack_page_create
          page_key := some entry.1
          state := State.StateTextureProp } := by
    intro rest'
    simp only [tokensAt_cons, tokensAt_nil, propertyName, beginObject,
      List.cons_append, List.nil_append, feed, dispatch]
    simp [on_string, on_begin, hs]
  obtain ⟨s1, hadv, _, h1⟩ := feed_texture_props env json
    (tokensAt json [endObject] ++ rest) entry.2
    { s with
      page := some rucksack_page_create
      page_key := some entry.1
      state := State.StateTextureProp } rfl rfl hwf
  have hs1 : s1.state = State.StateTextureProp := hadv.state
  have hclose : feed env (tokensAt json [endObject] ++ rest) s1 =
      feed env rest
        { s1 with
          calls := s1.calls ++ [Action.addPage s1.page_key s1.page]
          page := none
          page_key := none
          state := State.StateTextureName } := by
    simp only [tokensAt_cons, tokensAt_nil, endObject,
      List.cons_append, List.nil_append, feed, dispatch]
    simp [on_end, hs1, hadd]
  have hshape : tokensAt json (textureEntryEvents entry) ++ rest =
      tokensAt json [propertyName entry.1, beginObject] ++
        (tokensAt json (entry.2.flatMap texturePropEvents) ++
          (tokensAt json [endObject] ++ rest)) := by
    simp only [textureEntryEvents, tokensAt_append, List.append_assoc]
  refine ⟨_, ?_, by rw [hshape, hopen, h1, hclose]⟩
  refine ⟨hs.symm, hadv.latch, hadv.root, hadv.stderr, hadv.crashed, ?_, ?_⟩
  · have := hadv.addPages
    simp only [addPageCount_append, this]
    simp [addPageCount, Action.isAddPage]
  · have := hadv.addFiles
    simp only [addFileCount_append, this]
    simp [addFileCount, Action.isAddFile]

theorem feed_texture_entries (env : Env) (json : LaxJsonContext) (rest : List Token)
    (hadd : ∀ calls k p, env.rucksack_bundle_add_page calls k p = 0)
    (entries : List (String × List TextureProp)) :
    ∀ s : Session, s.state = State.StateTextureName →
      (∀ e ∈ entries, ∀ p ∈ e.2, p.WellFormed) →
      ∃ s', Advances s s' entries.length 0 ∧
        feed env (tokensAt json (entries.flatMap textureEntryEvents) ++ rest) s =
          feed env rest s' := by
  induction entries with
  | nil => exact fun s _ _ => ⟨s, Advances.refl s, rfl⟩
  | cons entry entries ih =>
    intro s hs hwf
    obtain ⟨s1, hadv1, h1⟩ := feed_texture_entry env json
      (tokensAt json (entries.flatMap textureEntryEvents) ++ rest) entry s hs hadd
      (hwf entry (List.mem_cons_self _ _))
    obtain ⟨s2, hadv2, h2⟩ := ih s1 (hadv1.state.trans hs)
      (fun e he => hwf e (List.mem_cons_of_mem _ he))
    refine ⟨s2, ?_, ?_⟩
    · have := hadv1.trans hadv2
      rw [List.length_cons, Nat.add_comm]
      exact this
    · rw [List.flatMap_cons, tokensAt_append, List.append_assoc, h1, h2]

theorem feed_file_paths (env : Env) (json : LaxJsonContext) (rest : List Token)
    (paths : List String) :
    ∀ s : Session, s.state = State.StateFilePropName →
      ∃ path, feed env
        (tokensAt json (paths.flatMap (fun p => [propertyName "path", stringValue p])) ++ rest) s =
        feed env rest { s with file_path := path } := by
  induction paths with
  | nil => exact fun s _ => ⟨s.file_path, rfl⟩
  | cons value paths ih =>
    intro s hs
    obtain ⟨path, h2⟩ := ih
      { s with file_path := some (resolve_path ( Session.path_prefix s) value) } hs
    refine ⟨path, ?_⟩
    have h1 : ∀ rest', feed env
        (tokensAt json [propertyName "path", stringValue value] ++ rest') s =
        feed env rest'
          { s with file_path := some (resolve_path ( Session.path_prefix s) value) } := by
      intro rest'
      simp only [tokensAt_cons, tokensAt_nil, propertyName, stringValue,
        List.cons_append, List.nil_append, feed, dispatch]
      simp [on_string, hs]
    rw [List.flatMap_cons, tokensAt_append, List.append_assoc, h1, h2]

theorem feed_file_entry (env : Env) (json : LaxJsonContext) (rest : List Token)
    (entry : String × List String) (s : Session) (hs : s.state = State.StateFileName)
    (hadd : ∀ calls k p, env.rucksack_bundle_add_file calls k p = 0) :
    ∃ s', Advances s s' 0 1 ∧
      feed env (tokensAt json (fileEntryEvents entry) ++ rest) s = feed env rest s' := by
  have hopen : ∀ rest', feed env
      (tokensAt json [propertyName entry.1, beginObject] ++ rest') s =
      feed env rest' { s with file_key := some entry.1, state := State.StateFilePropName } := by
    intro rest'
    simp only [tokensAt_cons, tokensAt_nil, propertyName, beginObject,
      List.cons_append, List.nil_append, feed, dispatch]
    simp [on_string, on_begin, hs]
  obtain ⟨path, h1⟩ := feed_file_paths env json (tokensAt json [endObject] ++ rest) entry.2
    { s with file_key := some entry.1, state := State.StateFilePropName } rfl
  have hclose : feed env (tokensAt json [endObject] ++ rest)
      { s with file_key := some entry.1, state := State.StateFilePropName, file_path := path } =
      feed env rest
        { s with
          calls := s.calls ++ [Action.addFile (some entry.1) path]
          file_path := none
          file_key := none
          state := State.StateFileName } := by
    simp only [tokensAt_cons, tokensAt_nil, endObject,
      List.cons_append, List.nil_append, feed, dispatch]
    simp [on_end, hadd]
  have hshape : tokensAt json (fileEntryEvents entry) ++ rest =
      tokensAt json [propertyName entry.1, beginObject] ++
        (tokensAt json (entry.2.flatMap (fun p => [propertyName "path", stringValue p])) ++
          (tokensAt json [endObject] ++ rest)) := by
    simp only [fileEntryEvents, tokensAt_append, List.append_assoc]
  refine ⟨_, ?_, by rw [hshape, hopen, h1]; exact hclose⟩
  exact ⟨hs.symm, rfl, rfl, rfl, rfl,
    by simp [addPageCount_append, addPageCount, Action.isAddPage],
    by simp [addFileCount_append, addFileCount, Action.isAddFile]⟩

theorem feed_file_entries (env : Env) (json : LaxJsonContext) (rest : List Token)
    (hadd : ∀ calls k p, env.rucksack_bundle_add_file calls k p = 0)
    (entries : List (String × List String)) :
    ∀ s : Session, s.state = State.StateFileName →
      ∃ s', Advances s s' 0 entries.length ∧
        feed env (tokensAt json (entries.flatMap fileEntryEvents) ++ rest) s =
          feed env rest s' := by
  induction entries with
  | nil => exact fun s _ => ⟨s, Advances.refl s, rfl⟩
  | cons entry entries ih =>
    intro s hs
    obtain ⟨s1, hadv1, h1⟩ := feed_file_entry env json
      (tokensAt json (entries.flatMap fileEntryEvents) ++ rest) entry s hs hadd
    obtain ⟨s2, hadv2, h2⟩ := ih s1 (hadv1.state.trans hs)
    refine ⟨s2, ?_, ?_⟩
    · have := hadv1.trans hadv2
      rw [List.length_cons, Nat.add_comm]
      exact this
    · rw [List.flatMap_cons, tokensAt_append, List.append_assoc, h1, h2]

theorem feed_glob_props (env : Env) (json : LaxJsonContext) (rest : List Token)
    (props : List GlobProp) :
    ∀ s : Session, s.state = State.StateGlobObjectProp →
      feed env (tokensAt json (props.flatMap globPropEvents) ++ rest) s =
        feed env rest
          { s with
            glob_glob :=
              match globPattern props with
              | some pattern => some (resolve_path ( Session.path_prefix s) pattern)
              | none => s.glob_glob
            glob_prefix :=
              match globKeyPrefix props with
              | some value => some value
              | none => Session.glob_prefix s } := by
  induction props with
  | nil => exact fun s _ => rfl
  | cons prop props ih =>
    intro s hs
    cases prop with
    | glob pattern =>
      have h1 : ∀ rest', feed env
          (tokensAt json (globPropEvents (GlobProp.glob pattern)) ++ rest') s =
          feed env rest'
            { s with glob_glob := some (resolve_path ( Session.path_prefix s) pattern) } := by
        intro rest'
        simp only [globPropEvents, tokensAt_cons, tokensAt_nil, propertyName, stringValue,
          List.cons_append, List.nil_append, feed, dispatch]
        simp [on_string, hs]
      rw [List.flatMap_cons, tokensAt_append, List.append_assoc, h1,
        ih { s with glob_glob := some (resolve_path ( Session.path_prefix s) pattern) } hs]
      cases hp : globPattern props <;> simp [globPattern, globKeyPrefix, hp]
    | keyPrefix value =>
      have h1 : ∀ rest', feed env
          (tokensAt json (globPropEvents (GlobProp.keyPrefix value)) ++ rest') s =
          feed env rest' { s with glob_prefix := some value } := by
        intro rest'
        simp only [globPropEvents, tokensAt_cons, tokensAt_nil, propertyName, stringValue,
          List.cons_append, List.nil_append, feed, dispatch]
        simp [on_string, hs]
      rw [List.flatMap_cons, tokensAt_append, List.append_assoc, h1,
        ih { s with glob_prefix := some value } hs]
      cases hp : globKeyPrefix props <;> simp [globPattern, globKeyPrefix, hp]

theorem addPageCount_glob_calls (env : Env) (keyPrefix root : String) (matches_ : List String) :
    addPageCount (glob_calls env keyPrefix root matches_) = 0 := by
  simp only [addPageCount, glob_calls, List.countP_eq_zero, List.mem_map]
  rintro a ⟨p, _, rfl⟩
  simp [Action.isAddPage]

theorem addFileCount_glob_calls (env : Env) (keyPrefix root : String) (matches_ : List String) :
    addFileCount (glob_calls env keyPrefix root matches_) =
      (matches_.filter (fun p => decide (env.stat p ≠ StatResult.directory))).length := by
  simp only [addFileCount, glob_calls]
  rw [← List.length_map (matches_.filter _)
    (fun p => Action.addFile (some (glob_key keyPrefix root p)) (some p))]
  apply List.countP_eq_length.2
  intro a ha
  obtain ⟨p, _, rfl⟩ := List.mem_map.1 ha
  rfl

theorem feed_glob_entry (env : Env) (json : LaxJsonContext) (rest : List Token)
    (props : List GlobProp) (s : Session) (hs : s.state = State.StateGlobObject)
    (hadd : ∀ calls k p, env.rucksack_bundle_add_file calls k p = 0)
    (hexp : globExpands env ( Session.path_prefix s) props) :
    ∃ s', Advances s s' 0 (globFileCount env ( Session.path_prefix s) props) ∧
      feed env (tokensAt json (globEntryEvents props) ++ rest) s = feed env rest s' := by
  obtain ⟨pattern, keyPrefix, matches_, hpattern, hkey, hglob, hstat⟩ := hexp
  have hopen : ∀ rest', feed env (tokensAt json [beginObject] ++ rest') s =
      feed env rest'
        { s with state := State.StateGlobObjectProp, glob_glob := none, glob_prefix := none } := by
    intro rest'
    simp only [tokensAt_cons, tokensAt_nil, beginObject,
      List.cons_append, List.nil_append, feed, dispatch]
    simp [on_begin, hs]
  have hprops := feed_glob_props env json (tokensAt json [endObject] ++ rest) props
    { s with state := State.StateGlobObjectProp, glob_glob := none, glob_prefix := none } rfl
  simp only [hpattern, hkey] at hprops
  obtain ⟨sb, hloop⟩ := glob_insert_loop_ok env json keyPrefix hadd matches_
    { s with
      state := State.StateGlobObjectProp
      glob_glob := some (resolve_path ( Session.path_prefix s) pattern)
      glob_prefix := some keyPrefix } rfl hstat
  have hclose : feed env (tokensAt json [endObject] ++ rest)
      { s with
        state := State.StateGlobObjectProp
        glob_glob := some (resolve_path ( Session.path_prefix s) pattern)
        glob_prefix := some keyPrefix } =
      feed env rest
        { s with
          state := State.StateGlobObject
          glob_glob := some (resolve_path ( Session.path_prefix s) pattern)
          glob_prefix := some keyPrefix
          strbuf := sb
          calls := s.calls ++ glob_calls env keyPrefix ( Session.path_prefix s) matches_ } := by
    simp only [tokensAt_cons, tokensAt_nil, endObject,
      List.cons_append, List.nil_append, feed, dispatch]
    simp only [on_end, glob_insert_files, hglob, hloop]
    simp
  have hshape : tokensAt json (globEntryEvents props) ++ rest =
      tokensAt json [beginObject] ++
        (tokensAt json (props.flatMap globPropEvents) ++
          (tokensAt json [endObject] ++ rest)) := by
    simp only [globEntryEvents, tokensAt_append, List.append_assoc]
  refine ⟨_, ?_, by rw [hshape, hopen, hprops]; exact hclose⟩
  refine ⟨hs.symm, rfl, rfl, rfl, rfl, ?_, ?_⟩
  · simp only [addPageCount_append, addPageCount_glob_calls]
  · simp only [addFileCount_append, addFileCount_glob_calls, globFileCount, hpattern, hglob]

theorem feed_glob_entries (env : Env) (json : LaxJsonContext) (rest : List Token)
    (hadd : ∀ calls k p, env.rucksack_bundle_add_file calls k p = 0)
    (entries : List (List GlobProp)) :
    ∀ s : Session, s.state = State.StateGlobObject →
      (∀ e ∈ entries, globExpands env ( Session.path_prefix s) e) →
      ∃ s', Advances s s' 0 ((entries.map (globFileCount env ( Session.path_prefix s))).sum) ∧
        feed env (tokensAt json (entries.flatMap globEntryEvents) ++ rest) s =
          feed env rest s' := by
  induction entries with
  | nil => exact fun s _ _ => ⟨s, Advances.refl s, rfl⟩
  | cons entry entries ih =>
    intro s hs hexp
    obtain ⟨s1, hadv1, h1⟩ := feed_glob_entry env json
      (tokensAt json (entries.flatMap globEntryEvents) ++ rest) entry s hs hadd
      (hexp entry (List.mem_cons_self _ _))
    obtain ⟨s2, hadv2, h2⟩ := ih s1 (hadv1.state.trans hs)
      (fun e he => by rw [hadv1.root]; exact hexp e (List.mem_cons_of_mem _ he))
    refine ⟨s2, ?_, ?_⟩
    · have := hadv1.trans hadv2
      rw [hadv1.root] at this
      simpa [List.map_cons, List.sum_cons] using this
    · rw [List.flatMap_cons, tokensAt_append, List.append_assoc, h1, h2]

theorem textureEntryCount_cons (sec : ManifestSection) (m : List ManifestSection) :
    textureEntryCount (sec :: m) = textureEntryCount [sec] + textureEntryCount m := by
  cases sec <;> simp [textureEntryCount]

theorem fileEntryCount_cons (sec : ManifestSection) (m : List ManifestSection) :
    fileEntryCount (sec :: m) = fileEntryCount [sec] + fileEntryCount m := by
  cases sec <;> simp [fileEntryCount]

theorem globEntries_cons (sec : ManifestSection) (m : List ManifestSection) :
    globEntries (sec :: m) = globEntries [sec] ++ globEntries m := by
  cases sec <;> simp [globEntries]

theorem feed_section (env : Env) (json : LaxJsonContext) (rest : List Token)
    (sec : ManifestSection) (s : Session) (hs : s.state = State.StateTopLevelProp)
    (hpage : ∀ calls k p, env.rucksack_bundle_add_page calls k p = 0)
    (hfile : ∀ calls k p, env.rucksack_bundle_add_file calls k p = 0)
    (hwf : sec.WellFormed)
    (hexp : ∀ e ∈ globEntries [sec], globExpands env ( Session.path_prefix s) e) :
    ∃ s', Advances s s' (textureEntryCount [sec])
        (fileEntryCount [sec] +
          ((globEntries [sec]).map (globFileCount env ( Session.path_prefix s))).sum) ∧
      feed env (tokensAt json (sectionEvents sec) ++ rest) s = feed env rest s' := by
  cases sec with
  | textures entries =>
    have hopen : ∀ rest', feed env
        (tokensAt json [propertyName "textures", beginObject] ++ rest') s =
        feed env rest' { s with state := State.StateTextureName } := by
      intro rest'
      simp only [tokensAt_cons, tokensAt_nil, propertyName, beginObject,
        List.cons_append, List.nil_append, feed, dispatch]
      simp [on_string, on_begin, hs]
    obtain ⟨s1, hadv, h1⟩ := feed_texture_entries env json (tokensAt json [endObject] ++ rest)
      hpage entries { s with state := State.StateTextureName } rfl hwf
    have hs1 : s1.state = State.StateTextureName := hadv.state
    have hclose : feed env (tokensAt json [endObject] ++ rest) s1 =
        feed env rest { s1 with state := State.StateTopLevelProp } := by
      simp only [tokensAt_cons, tokensAt_nil, endObject,
        List.cons_append, List.nil_append, feed, dispatch]
      simp [on_end, hs1]
    have hshape : tokensAt json (sectionEvents (ManifestSection.textures entries)) ++ rest =
        tokensAt json [propertyName "textures", beginObject] ++
          (tokensAt json (entries.flatMap textureEntryEvents) ++
            (tokensAt json [endObject] ++ rest)) := by
      simp only [sectionEvents, tokensAt_append, List.append_assoc]
    refine ⟨{ s1 with state := State.StateTopLevelProp }, ?_, by rw [hshape, hopen, h1, hclose]⟩
    refine ⟨hs.symm, hadv.latch, hadv.root, hadv.stderr, hadv.crashed, ?_, ?_⟩
    · simpa [textureEntryCount] using hadv.addPages
    · simpa [fileEntryCount, globEntries] using hadv.addFiles
  | files entries =>
    have hopen : ∀ rest', feed env
        (tokensAt json [propertyName "files", beginObject] ++ rest') s =
        feed env rest' { s with state := State.StateFileName } := by
      intro rest'
      simp only [tokensAt_cons, tokensAt_nil, propertyName, beginObject,
        List.cons_append, List.nil_append, feed, dispatch]
      simp [on_string, on_begin, hs]
    obtain ⟨s1, hadv, h1⟩ := feed_file_entries env json (tokensAt json [endObject] ++ rest)
      hfile entries { s with state := State.StateFileName } rfl
    have hs1 : s1.state = State.StateFileName := hadv.state
    have hclose : feed env (tokensAt json [endObject] ++ rest) s1 =
        feed env rest { s1 with state := State.StateTopLevelProp } := by
      simp only [tokensAt_cons, tokensAt_nil, endObject,
        List.cons_append, List.nil_append, feed, dispatch]
      simp [on_end, hs1]
    have hshape : tokensAt json (sectionEvents (ManifestSection.files entries)) ++ rest =
        tokensAt json [propertyName "files", beginObject] ++
          (tokensAt json (entries.flatMap fileEntryEvents) ++
            (tokensAt json [endObject] ++ rest)) := by
      simp only [sectionEvents, tokensAt_append, List.append_assoc]
    refine ⟨{ s1 with state := State.StateTopLevelProp }, ?_, by rw [hshape, hopen, h1, hclose]⟩
    refine ⟨hs.symm, hadv.latch, hadv.root, hadv.stderr, hadv.crashed, ?_, ?_⟩
    · simpa [textureEntryCount] using hadv.addPages
    · simpa [fileEntryCount, globEntries] using hadv.addFiles
  | globFiles entries =>
    have hopen : ∀ rest', feed env
        (tokensAt json [propertyName "globFiles", Event.begin_ LaxJsonType.Array] ++ rest') s =
        feed env rest' { s with state := State.StateGlobObject } := by
      intro rest'
      simp only [tokensAt_cons, tokensAt_nil, propertyName,
        List.cons_append, List.nil_append, feed, dispatch]
      simp [on_string, on_begin, hs]
    obtain ⟨s1, hadv, h1⟩ := feed_glob_entries env json
      (tokensAt json [Event.end_ LaxJsonType.Array] ++ rest)
      hfile entries { s with state := State.StateGlobObject } rfl
      (fun e he => hexp e (by simpa [globEntries] using he))
    have hs1 : s1.state = State.StateGlobObject := hadv.state
    have hclose : feed env (tokensAt json [Event.end_ LaxJsonType.Array] ++ rest) s1 =
        feed env rest { s1 with state := State.StateTopLevelProp } := by
      simp only [tokensAt_cons, tokensAt_nil,
        List.cons_append, List.nil_append, feed, dispatch]
      simp [on_end, hs1]
    have hshape : tokensAt json (sectionEvents (ManifestSection.globFiles entries)) ++ rest =
        tokensAt json [propertyName "globFiles", Event.begin_ LaxJsonType.Array] ++
          (tokensAt json (entries.flatMap globEntryEvents) ++
            (tokensAt json [Event.end_ LaxJsonType.Array] ++ rest)) := by
      simp only [sectionEvents, tokensAt_append, List.append_assoc]
    refine ⟨{ s1 with state := State.StateTopLevelProp }, ?_, by rw [hshape, hopen, h1, hclose]⟩
    refine ⟨hs.symm, hadv.latch, hadv.root, hadv.stderr, hadv.crashed, ?_, ?_⟩
    · simpa [textureEntryCount] using hadv.addPages
    · simpa [fileEntryCount, globEntries] using hadv.addFiles

theorem feed_sections (env : Env) (json : LaxJsonContext) (rest : List Token)
    (hpage : ∀ calls k p, env.rucksack_bundle_add_page calls k p = 0)
    (hfile : ∀ calls k p, env.rucksack_bundle_add_file calls k p = 0)
    (m : List ManifestSection) :
    ∀ s : Session, s.state = State.StateTopLevelProp → manifestWellFormed m →
      (∀ e ∈ globEntries m, globExpands env ( Session.path_prefix s) e) →
      ∃ s', Advances s s' (textureEntryCount m)
          (fileEntryCount m +
            ((globEntries m).map (globFileCount env ( Session.path_prefix s))).sum) ∧
        feed env (tokensAt json (m.flatMap sectionEvents) ++ rest) s = feed env rest s' := by
  induction m with
  | nil => exact fun s _ _ _ => ⟨s, Advances.refl s, rfl⟩
  | cons sec m ih =>
    intro s hs hwf hexp
    rw [globEntries_cons] at hexp
    obtain ⟨s1, hadv1, h1⟩ := feed_section env json
      (tokensAt json (m.flatMap sectionEvents) ++ rest) sec s hs hpage hfile
      (hwf sec (List.mem_cons_self _ _))
      (fun e he => hexp e (List.mem_append_left _ he))
    obtain ⟨s2, hadv2, h2⟩ := ih s1 (hadv1.state.trans hs)
      (fun x hx => hwf x (List.mem_cons_of_mem _ hx))
      (fun e he => by rw [hadv1.root]; exact hexp e (List.mem_append_right _ he))
    refine ⟨s2, ?_, ?_⟩
    · have h := hadv1.trans hadv2
      rw [hadv1.root] at h
      rw [textureEntryCount_cons, fileEntryCount_cons, globEntries_cons, List.map_append,
        List.sum_append]
      have e : fileEntryCount [sec] + fileEntryCount m +
          ((List.map (globFileCount env ( Session.path_prefix s)) (globEntries [sec])).sum +
            (List.map (globFileCount env ( Session.path_prefix s)) (globEntries m)).sum) =
          fileEntryCount [sec] +
            (List.map (globFileCount env ( Session.path_prefix s)) (globEntries [sec])).sum +
          (fileEntryCount m +
            (List.map (globFileCount env ( Session.path_prefix s)) (globEntries m)).sum) := by
        omega
      rw [e]
      exact h
    · rw [List.flatMap_cons, tokensAt_append, List.append_assoc, h1, h2]

/-- The run of a well-formed manifest at one fixed position. -/
theorem feed_manifest (env : Env) (json : LaxJsonContext) (root : String)
    (m : List ManifestSection)
    (hwf : manifestWellFormed m)
    (hpage : ∀ calls k p, env.rucksack_bundle_add_page calls k p = 0)
    (hfile : ∀ calls k p, env.rucksack_bundle_add_file calls k p = 0)
    (hexp : ∀ e ∈ globEntries m, globExpands env root e) :
    ∃ s', feed env (tokensAt json (manifestEvents m)) (Session.init root) = (0, s') ∧
      s'.state = State.StateDone ∧ s'.parse_err_occurred = false ∧ s'.stderr = [] ∧
      s'.crashed = false ∧
      addPageCount s'.calls = textureEntryCount m ∧
      addFileCount s'.calls =
        fileEntryCount m + ((globEntries m).map (globFileCount env root)).sum := by
  have hopen : ∀ rest', feed env (tokensAt json [beginObject] ++ rest') (Session.init root) =
      feed env rest' { Session.init root with state := State.StateTopLevelProp } := by
    intro rest'
    simp only [tokensAt_cons, tokensAt_nil, beginObject,
      List.cons_append, List.nil_append, feed, dispatch]
    simp [on_begin, Session.init]
  obtain ⟨s1, hadv, h1⟩ := feed_sections env json (tokensAt json [endObject] ++ []) hpage hfile m
    { Session.init root with state := State.StateTopLevelProp } rfl hwf hexp
  have hs1 : s1.state = State.StateTopLevelProp := hadv.state
  have hclose : feed env (tokensAt json [endObject] ++ []) s1 =
      (0, { s1 with state := State.StateDone }) := by
    simp only [tokensAt_cons, tokensAt_nil, endObject,
      List.cons_append, List.nil_append, feed, dispatch]
    simp [on_end, hs1]
  have hshape : tokensAt json (manifestEvents m) =
      tokensAt json [beginObject] ++
        (tokensAt json (m.flatMap sectionEvents) ++ (tokensAt json [endObject] ++ [])) := by
    simp only [manifestEvents, tokensAt_append, List.append_assoc, List.append_nil]
  refine ⟨{ s1 with state := State.StateDone }, by rw [hshape, hopen, h1, hclose], rfl,
    hadv.latch, hadv.stderr, hadv.crashed, ?_, ?_⟩
  · simpa [addPageCount, Session.init] using hadv.addPages
  · simpa [addFileCount, Session.init] using hadv.addFiles

theorem unmatchedGlobManifest_wellFormed : manifestWellFormed unmatchedGlobManifest := by
  intro sec hsec
  simp only [unmatchedGlobManifest, List.mem_singleton] at hsec
  subst hsec
  intro e he
  simp only [List.mem_singleton] at he
  subst he
  exact ⟨by decide, by decide⟩

/-- C1, counterexample: the manifest
`{globFiles: [{glob: "nothing/*", prefix: "icons/"}]}` is well formed and the
bundle accepts every action, but the pattern matches no file: the run fails at
the end of the glob entry and never reaches the done position. -/
theorem C1_counterexample :
    manifestWellFormed unmatchedGlobManifest ∧
    (∀ calls k p, demoEnv.rucksack_bundle_add_page calls k p = 0) ∧
    (∀ calls k p, demoEnv.rucksack_page_add_image calls k p = 0) ∧
    (∀ calls k p, demoEnv.rucksack_bundle_add_file calls k p = 0) ∧
    (feed demoEnv (tokensAt ⟨1, 1⟩ (manifestEvents unmatchedGlobManifest)) (Session.init ".")).1
      = -1 ∧
    (feed demoEnv (tokensAt ⟨1, 1⟩ (manifestEvents unmatchedGlobManifest))
      (Session.init ".")).2.state = State.StateGlobObjectProp ∧
    (feed demoEnv (tokensAt ⟨1, 1⟩ (manifestEvents unmatchedGlobManifest))
      (Session.init ".")).2.stderr = ["line 1, col 1: no patterns matched\n"] :=
  ⟨unmatchedGlobManifest_wellFormed, fun _ _ _ => rfl, fun _ _ _ => rfl, fun _ _ _ => rfl,
    by decide, by decide, by decide⟩

/-- C1, amended: for every well-formed manifest, given as its event sequence at
any positions, with the bundle accepting every page and every file and with
every glob entry expanding without failure (the enumeration of its resolved
pattern returns matches and `stat` fails on none of them), feeding the events
from the start position succeeds and ends in the done position with no error
reported and no crash; the calls made contain exactly one `addPage` per texture
entry, and as many `addFile` as there are file entries plus matches of the glob
entries that are not directories. -/
theorem C1_wellformed_manifest (env : Env) (root : String) (m : List ManifestSection)
    (ts : List Token)
    (hwf : manifestWellFormed m)
    (hts : ts.map Token.event = manifestEvents m)
    (hpage : ∀ calls k p, env.rucksack_bundle_add_page calls k p = 0)
    (hfile : ∀ calls k p, env.rucksack_bundle_add_file calls k p = 0)
    (hglob : ∀ e ∈ globEntries m, globExpands env root e) :
    (feed env ts (Session.init root)).1 = 0 ∧
    (feed env ts (Session.init root)).2.state = State.StateDone ∧
    (feed env ts (Session.init root)).2.parse_err_occurred = false ∧
    (feed env ts (Session.init root)).2.stderr = [] ∧
    (feed env ts (Session.init root)).2.crashed = false ∧
    addPageCount (feed env ts (Session.init root)).2.calls = textureEntryCount m ∧
    addFileCount (feed env ts (Session.init root)).2.calls =
      fileEntryCount m + ((globEntries m).map (globFileCount env root)).sum := by
  obtain ⟨s', hcanon, hstate, hlatch, hstderr, hcrashed, hpages, hfiles⟩ :=
    feed_manifest env ⟨0, 0⟩ root m hwf hpage hfile hglob
  have hrun : feed env ts (Session.init root) = (0, s') :=
    (feed_indep env _ ts _ (by rw [hts, tokensAt_event]) (by rw [hcanon])).trans hcanon
  rw [hrun]
  exact ⟨rfl, hstate, hlatch, hstderr, hcrashed, hpages, hfiles⟩

theorem demoManifest_wellFormed : manifestWellFormed demoManifest := by
  intro sec hsec
  simp only [demoManifest, List.mem_cons, List.mem_singleton, List.not_mem_nil, or_false] at hsec
  rcases hsec with h | h | h <;> subst h
  · intro e he p hp
    simp only [List.mem_cons, List.mem_singleton, List.not_mem_nil, or_false] at he
    rcases he with h | h <;> subst h
    · simp only [List.mem_cons, List.mem_singleton, List.not_mem_nil, or_false] at hp
      rcases hp with h | h | h <;> subst h
      · exact ⟨by decide, by decide⟩
      · trivial
      · intro img himg
        simp only [List.mem_singleton] at himg
        subst himg
        refine ⟨?_, ⟨"x.png", by simp⟩⟩
        intro q hq
        simp only [List.mem_cons, List.mem_singleton, List.not_mem_nil, or_false] at hq
        rcases hq with h | h <;> subst h
        · show "top" ∈ anchorNames
          decide
        · trivial
    · simp at hp
  · intro e he
    simp only [List.mem_cons, List.mem_singleton, List.not_mem_nil, or_false] at he
    rcases he with h | h <;> subst h <;> simp
  · intro e he
    simp only [List.mem_singleton] at he
    subst he
    exact ⟨by decide, by decide⟩

theorem demoManifest_globExpands :
    ∀ e ∈ globEntries demoManifest, globExpands demoEnv "assets" e := by
  intro e he
  simp only [demoManifest, globEntries, List.append_nil, List.mem_singleton] at he
  subst he
  exact ⟨"*", "icons/", ["assets/a.png", "assets/sub", "assets/b.png"], by decide, by decide,
    by decide, by decide⟩

/-- C1, an example: a manifest with two texture entries, two file entries and a
glob entry whose pattern matches two files and a directory runs to the done
position with two `addPage` calls and four `addFile` calls. -/
theorem C1_wellformed_manifest_witness :
    (feed demoEnv (tokensAt ⟨1, 1⟩ (manifestEvents demoManifest)) (Session.init "assets")).1 = 0 ∧
    (feed demoEnv (tokensAt ⟨1, 1⟩ (manifestEvents demoManifest))
      (Session.init "assets")).2.state = State.StateDone ∧
    addPageCount (feed demoEnv (tokensAt ⟨1, 1⟩ (manifestEvents demoManifest))
      (Session.init "assets")).2.calls = 2 ∧
    addFileCount (feed demoEnv (tokensAt ⟨1, 1⟩ (manifestEvents demoManifest))
      (Session.init "assets")).2.calls = 4 :=
  have h := C1_wellformed_manifest demoEnv "assets" demoManifest
    (tokensAt ⟨1, 1⟩ (manifestEvents demoManifest)) demoManifest_wellFormed
    (tokensAt_event _ _) (fun _ _ _ => rfl) (fun _ _ _ => rfl) demoManifest_globExpands
  ⟨h.1, h.2.1, h.2.2.2.2.2.1.trans (by decide), h.2.2.2.2.2.2.trans (by decide)⟩

/-! ## C11: unknown property names -/

theorem hugePath_length : hugePath.length = 2000 := by
  show (List.replicate 2000 'p').length = 2000
  simp only [List.length_replicate]

theorem diagnostic_length (json : LaxJsonContext) (msg : String) :
    (diagnostic json msg).length =
      (toString json.line).length + (toString json.column).length + msg.length + 14 := by
  simp only [diagnostic, String.length_append]
  have h1 : ("line " : String).length = 5 := by decide
  have h3 : (", col " : String).length = 6 := by decide
  have h4 : (": " : String).length = 2 := by decide
  have h5 : ("\n" : String).length = 1 := by decide
  omega

/-- The effect of a first or later report on everything but the diagnostics. -/
theorem parse_error_eq (json : LaxJsonContext) (msg : String) (s : Session) :
    parse_error json msg s =
      (-1, { s with
        stderr := if s.parse_err_occurred then s.stderr else s.stderr ++ [diagnostic json msg]
        parse_err_occurred := true }) := by
  cases s
  unfold parse_error
  split
  · rename_i h
    simp only at h
    simp [h]
  · rename_i h
    simp only at h
    simp [h]

theorem on_string_unknown_key (json : LaxJsonContext) (type : LaxJsonType) (name : String)
    (s : Session) (entry : State × List String × String) (hentry : entry ∈ propertyPositions)
    (hstate : s.state = entry.1) (hname : name ∉ entry.2.1) :
    on_string json type name s =
      parse_error json (snprintf STRBUF_SIZE (entry.2.2 ++ name))
        { s with strbuf := snprintf STRBUF_SIZE (entry.2.2 ++ name) } := by
  simp only [propertyPositions, List.mem_cons, List.mem_singleton, List.not_mem_nil,
    or_false] at hentry
  rcases hentry with h | h | h | h | h | h <;> subst h <;>
    simp only [List.mem_cons, List.mem_singleton, List.not_mem_nil, or_false, not_or] at hname <;>
    simp [on_string, hstate, hname]

theorem hugePath_not_infix (line : String) (h : line.length < 2000) :
    ¬ hugePath.data <:+: line.data := by
  intro hinfix
  have hle := hinfix.length_le
  have h1 : hugePath.data.length = 2000 := hugePath_length
  have h2 : line.data.length = line.length := rfl
  omega

/-- C11, counterexample: at the top level a property name of 2000 bytes, which
is none of the three allowed names, is rejected, but the diagnostic written is
shorter than the name and so does not contain it: the message is cut to the
1023 bytes of `strbuf`. -/
theorem C11_counterexample :
    hugePath ∉ ["textures", "files", "globFiles"] ∧
    (on_string ⟨1, 1⟩ LaxJsonType.Property hugePath topLevelSession).1 = -1 ∧
    ∃ line, (on_string ⟨1, 1⟩ LaxJsonType.Property hugePath topLevelSession).2.stderr = [line] ∧
      ¬ hugePath.data <:+: line.data := by
  have hne : ∀ name : String, name.length ≠ 2000 → hugePath ≠ name :=
    fun name h heq => h (heq ▸ hugePath_length)
  have hname : hugePath ∉ ["textures", "files", "globFiles"] := by
    simp only [List.mem_cons, List.mem_singleton, List.not_mem_nil, or_false, not_or]
    exact ⟨hne _ (by decide), hne _ (by decide), hne _ (by decide)⟩
  have hrun := on_string_unknown_key ⟨1, 1⟩ LaxJsonType.Property hugePath topLevelSession
    (State.StateTopLevelProp, ["textures", "files", "globFiles"], "unknown top level property: ")
    (by simp [propertyPositions]) rfl hname
  rw [hrun, parse_error_eq]
  refine ⟨hname, rfl, _, rfl, ?_⟩
  apply hugePath_not_infix
  rw [diagnostic_length]
  have hmsg := snprintf_length_le STRBUF_SIZE ("unknown top level property: " ++ hugePath)
  have h1 : (toString (1 : Nat)).length = 1 := by decide
  have hsize : STRBUF_SIZE - 1 = 1023 := rfl
  rw [hsize] at hmsg
  simp only [h1]
  omega

/-- C11, amended: in each of the six property-name positions, a property name
that is not exactly one of the allowed names is rejected: the callback returns
failure, the error latch is set, the position and the calls made on the bundle
stay as they were, and when it is the first error the diagnostic written is the
text for that position followed by the name, cut to the 1023 bytes of the
message buffer (so the whole name whenever it has at most 992 bytes). -/
theorem C11_unknown_keys (json : LaxJsonContext) (type : LaxJsonType) (name : String)
    (s : Session) (entry : State × List String × String) (hentry : entry ∈ propertyPositions)
    (hstate : s.state = entry.1) (hname : name ∉ entry.2.1) :
    (on_string json type name s).1 = -1 ∧
    (on_string json type name s).2.state = s.state ∧
    (on_string json type name s).2.calls = s.calls ∧
    (on_string json type name s).2.parse_err_occurred = true ∧
    (s.parse_err_occurred = false →
      (on_string json type name s).2.stderr =
        s.stderr ++ [diagnostic json (snprintf STRBUF_SIZE (entry.2.2 ++ name))]) ∧
    (name.length ≤ 992 → snprintf STRBUF_SIZE (entry.2.2 ++ name) = entry.2.2 ++ name) := by
  rw [on_string_unknown_key json type name s entry hentry hstate hname, parse_error_eq]
  refine ⟨rfl, rfl, rfl, rfl, ?_, ?_⟩
  · intro hlatch
    simp [hlatch]
  · intro hshort
    apply snprintf_of_fits
    have hlabel : entry.2.2.length ≤ 31 := by
      simp only [propertyPositions, List.mem_cons, List.mem_singleton, List.not_mem_nil,
        or_false] at hentry
      rcases hentry with h | h | h | h | h | h <;> subst h <;> decide
    simp only [String.length_append, STRBUF_SIZE]
    omega

/-- C11, the example of the specification: the top-level key `textures2` is
rejected, with a diagnostic that names it. -/
theorem C11_unknown_keys_witness :
    (on_string ⟨2, 3⟩ LaxJsonType.Property "textures2" topLevelSession).1 = -1 ∧
    (on_string ⟨2, 3⟩ LaxJsonType.Property "textures2" topLevelSession).2.state =
      State.StateTopLevelProp ∧
    (on_string ⟨2, 3⟩ LaxJsonType.Property "textures2" topLevelSession).2.calls = [] ∧
    (on_string ⟨2, 3⟩ LaxJsonType.Property "textures2" topLevelSession).2.stderr =
      ["line 2, col 3: unknown top level property: textures2\n"] :=
  have h := C11_unknown_keys ⟨2, 3⟩ LaxJsonType.Property "textures2" topLevelSession
    (State.StateTopLevelProp, ["textures", "files", "globFiles"], "unknown top level property: ")
    (by decide) rfl (by decide)
  ⟨h.1, h.2.1, h.2.2.1, (h.2.2.2.2.1 rfl).trans (by decide)⟩

/-! ## C12: required fields -/

/-- C12, counterexample: on the manifest `{files: {f: {}}}`, whose file entry
has no `path`, the run succeeds and the closing of the entry issues an `addFile`
for `f`, with a null path. -/
theorem C12_counterexample :
    (feed demoEnv (tokensAt ⟨1, 1⟩ (manifestEvents missingPathManifest)) (Session.init ".")).1
      = 0 ∧
    (feed demoEnv (tokensAt ⟨1, 1⟩ (manifestEvents missingPathManifest))
      (Session.init ".")).2.calls = [Action.addFile (some "f") none] := by
  decide

theorem glob_insert_loop_directories (env : Env) (json : LaxJsonContext) (s : Session)
    (matches_ : List String) (h : ∀ p ∈ matches_, env.stat p = StatResult.directory) :
    glob_insert_loop env json matches_ s = (0, s) := by
  induction matches_ with
  | nil => rfl
  | cons path rest ih =>
    have hpath := h path (List.mem_cons_self _ _)
    simp only [glob_insert_loop, hpath]
    exact ih (fun p hp => h p (List.mem_cons_of_mem _ hp))

/-- C12, amended: the closing of an entry object does not check which fields
were given. Closing a file entry with no `path` issues `addFile` with the key of
the entry and a null path, and succeeds when the bundle accepts that call;
closing an image entry with no `path` passes the image, with a null path, to
`rucksack_page_add_image` and succeeds; closing a glob entry that has a pattern
but no key prefix still enumerates the pattern: it fails with
`no patterns matched` when nothing matches and succeeds when every match is a
directory. -/
theorem C12_required_fields_not_checked (env : Env) (json : LaxJsonContext)
    (type : LaxJsonType) (s : Session) :
    (s.state = State.StateFilePropName → s.file_path = none →
      (on_end env json type s).2.calls = s.calls ++ [Action.addFile s.file_key none] ∧
      (env.rucksack_bundle_add_file s.calls s.file_key none = 0 →
        on_end env json type s =
          (0, { s with
            calls := s.calls ++ [Action.addFile s.file_key none]
            file_path := none
            file_key := none
            state := State.StateFileName }))) ∧
    (s.state = State.StateImagePropName → s.image.path = none →
      ∀ page, s.page = some page →
        on_end env json type s =
          (0, { s with
            calls := s.calls ++ [Action.addImage s.image_key s.image]
            page := some (rucksack_page_add_image env s.calls page s.image_key s.image).2
            image := { s.image with path := none }
            image_key := none
            state := State.StateImageName })) ∧
    (s.state = State.StateGlobObjectProp → Session.glob_prefix s = none →
      ∀ pattern, s.glob_glob = some pattern →
        (env.glob pattern = GlobResult.GLOB_NOMATCH →
          on_end env json type s = parse_error json "no patterns matched" s) ∧
        (∀ matches_, env.glob pattern = GlobResult.matches matches_ →
          (∀ p ∈ matches_, env.stat p = StatResult.directory) →
          on_end env json type s = (0, { s with state := State.StateGlobObject }))) := by
  refine ⟨?_, ?_, ?_⟩
  · intro hstate hpath
    constructor
    · simp only [on_end, hstate, hpath]
      split_ifs
      · rw [parse_error_eq]
      · rfl
    · intro hadd
      simp [on_end, hstate, hpath, hadd]
  · intro hstate _ page hpage
    simp [on_end, hstate, hpage]
  · intro hstate _ pattern hpattern
    constructor
    · intro hglob
      have h : glob_insert_files env json s = parse_error json "no patterns matched" s := by
        simp only [glob_insert_files, hpattern, hglob]
      simp only [on_end, hstate, h, parse_error_fst]
      simp
    · intro matches_ hglob hdirs
      have h : glob_insert_files env json s = (0, s) := by
        simp only [glob_insert_files, hpattern, hglob]
        exact glob_insert_loop_directories env json s matches_ hdirs
      simp only [on_end, hstate, h]
      simp

/-- C12, examples: a file entry and an image entry closed with no `path` both
commit, with a null path. -/
theorem C12_required_fields_not_checked_witness :
    on_end demoEnv ⟨3, 1⟩ LaxJsonType.Object fileSession =
      (0, { fileSession with
        calls := [Action.addFile (some "f") none]
        file_key := none
        state := State.StateFileName }) ∧
    (on_end demoEnv ⟨3, 1⟩ LaxJsonType.Object imagePropSession).1 = 0 ∧
    (on_end demoEnv ⟨3, 1⟩ LaxJsonType.Object imagePropSession).2.calls =
      [Action.addImage (some "i")
        { path := none, anchor := RuckSackAnchor.Center, anchor_x := 0, anchor_y := 0 }] :=
  have h := C12_required_fields_not_checked demoEnv ⟨3, 1⟩ LaxJsonType.Object
  ⟨(((h fileSession).1 rfl rfl).2 rfl).trans (by decide),
   by rw [(h imagePropSession).2.1 rfl rfl _ rfl],
   by rw [(h imagePropSession).2.1 rfl rfl _ rfl]; decide⟩

/-! ## C13: the fields of an anchor object -/

/-- C13, counterexample: on the manifest
`{textures: {t: {images: {i: {anchor: {}, path: "x.png"}}}}}` the empty anchor
object is accepted: the run succeeds and the image is committed with the tag
`Explicit` and the offsets the image variable held. -/
theorem C13_counterexample :
    (feed demoEnv (tokensAt ⟨1, 1⟩ (manifestEvents emptyAnchorManifest)) (Session.init ".")).1
      = 0 ∧
    (feed demoEnv (tokensAt ⟨1, 1⟩ (manifestEvents emptyAnchorManifest))
      (Session.init ".")).2.calls =
        [ Action.addImage (some "i")
            { path := some "./x.png", anchor := RuckSackAnchor.Explicit,
              anchor_x := 0, anchor_y := 0 }
        , Action.addPage (some "t")
            (some { max_width := none, max_height := none, pow2 := none,
                    images := [(some "i",
                      { path := some "./x.png", anchor := RuckSackAnchor.Explicit,
                        anchor_x := 0, anchor_y := 0 })] }) ] := by
  decide

/-- C13, amended: the closing of an anchor object is accepted whether or not
`x` and `y` were given, returning to the image-property position and changing
nothing else; a value for `x` or `y` that is not a number is rejected with an
error: a string with `expected number`, a literal with `unexpected primitive`,
the start of an object with `unexpected object` and the start of an array with
`unexpected array`. -/
theorem C13_anchor_object (env : Env) (json : LaxJsonContext) (s : Session) :
    (s.state = State.StateImagePropAnchorObject →
      ∀ type, on_end env json type s = (0, { s with state := State.StateImagePropName })) ∧
    (s.state = State.StateImagePropAnchorX ∨ s.state = State.StateImagePropAnchorY →
      (∀ type value, on_string json type value s = parse_error json "expected number" s) ∧
      (∀ type, on_primitive json type s = parse_error json "unexpected primitive" s) ∧
      on_begin json LaxJsonType.Object s = parse_error json "unexpected object" s ∧
      on_begin json LaxJsonType.Array s = parse_error json "unexpected array" s ∧
      (∀ msg, (parse_error json msg s).1 = -1 ∧
        (parse_error json msg s).2.parse_err_occurred = true ∧
        (parse_error json msg s).2.state = s.state ∧
        (parse_error json msg s).2.image = s.image)) := by
  constructor
  · intro hstate type
    simp only [on_end, hstate]
  · intro hstate
    have hspec : ∀ msg, (parse_error json msg s).1 = -1 ∧
        (parse_error json msg s).2.parse_err_occurred = true ∧
        (parse_error json msg s).2.state = s.state ∧
        (parse_error json msg s).2.image = s.image := by
      intro msg
      rw [parse_error_eq]
      exact ⟨rfl, rfl, rfl, rfl⟩
    rcases hstate with hstate | hstate
    · refine ⟨?_, ?_, ?_, ?_, hspec⟩
      · intro type value
        simp only [on_string, hstate]
      · intro type
        simp only [on_primitive, hstate]
      · simp [on_begin, hstate]
      · simp [on_begin, hstate]
    · refine ⟨?_, ?_, ?_, ?_, hspec⟩
      · intro type value
        simp only [on_string, hstate]
      · intro type
        simp only [on_primitive, hstate]
      · simp [on_begin, hstate]
      · simp [on_begin, hstate]

/-- C13, examples: closing an anchor object in which nothing was given is
accepted, and the string `"left"` as the value of `x` is rejected. -/
theorem C13_anchor_object_witness :
    on_end demoEnv ⟨2, 9⟩ LaxJsonType.Object (textureSession State.StateImagePropAnchorObject) =
      (0, textureSession State.StateImagePropName) ∧
    on_string ⟨2, 9⟩ LaxJsonType.String "left" (textureSession State.StateImagePropAnchorX) =
      (-1, { textureSession State.StateImagePropAnchorX with
        stderr := ["line 2, col 9: expected number\n"]
        parse_err_occurred := true }) :=
  ⟨((C13_anchor_object demoEnv ⟨2, 9⟩ (textureSession State.StateImagePropAnchorObject)).1 rfl
      LaxJsonType.Object).trans (by decide),
   (((C13_anchor_object demoEnv ⟨2, 9⟩ (textureSession State.StateImagePropAnchorX)).2
      (Or.inl rfl)).1 LaxJsonType.String "left").trans (by decide)⟩

/-! ## C14: commit failures -/

/-- The two commits of `on_end` whose result is tested: when the bundle rejects
the page (respectively the file), the end event is a reported error. -/
theorem on_end_commit_rejected (env : Env) (json : LaxJsonContext) (type : LaxJsonType)
    (s : Session) :
    (s.state = State.StateTextureProp →
      env.rucksack_bundle_add_page s.calls s.page_key s.page ≠ 0 →
      on_end env json type s =
        parse_error json
          (snprintf STRBUF_SIZE ("unable to add page: " ++
            RS_ERROR_STR.getD (env.rucksack_bundle_add_page s.calls s.page_key s.page) ""))
          { s with
            calls := s.calls ++ [Action.addPage s.page_key s.page]
            strbuf := snprintf STRBUF_SIZE ("unable to add page: " ++
              RS_ERROR_STR.getD (env.rucksack_bundle_add_page s.calls s.page_key s.page) "") }) ∧
    (s.state = State.StateFilePropName →
      env.rucksack_bundle_add_file s.calls s.file_key s.file_path ≠ 0 →
      on_end env json type s =
        parse_error json
          (snprintf STRBUF_SIZE ("unable to add file: " ++
            RS_ERROR_STR.getD (env.rucksack_bundle_add_file s.calls s.file_key s.file_path) ""))
          { s with
            calls := s.calls ++ [Action.addFile s.file_key s.file_path]
            strbuf := snprintf STRBUF_SIZE ("unable to add file: " ++
              RS_ERROR_STR.getD
                (env.rucksack_bundle_add_file s.calls s.file_key s.file_path) "") }) := by
  constructor
  · intro hstate hadd
    simp [on_end, hstate, hadd]
  · intro hstate hadd
    simp [on_end, hstate, hadd]

/-- C14: with a bundle library that rejects every image, the manifest
`{textures: {t: {images: {i: {path: "x.png"}}}}}` still runs to the done
position with return code 0, the latch unset and no diagnostic: the end event of
the image entry ignores the error code of `rucksack_page_add_image`, advances to
the image-name position, and the page is later added without the image. -/
theorem C14_add_image_failure_ignored :
    rejectImagesEnv.rucksack_page_add_image []
      (some "i") { path := some "./x.png", anchor := RuckSackAnchor.Center,
                   anchor_x := 0, anchor_y := 0 } = 7 ∧
    feed rejectImagesEnv (tokensAt ⟨1, 1⟩ (manifestEvents singleImageManifest))
      (Session.init ".") =
      (0, { Session.init "." with
        state := State.StateDone
        calls :=
          [ Action.addImage (some "i")
              { path := some "./x.png", anchor := RuckSackAnchor.Center,
                anchor_x := 0, anchor_y := 0 }
          , Action.addPage (some "t")
              (some { max_width := none, max_height := none, pow2 := none, images := [] }) ] }) := by
  decide

/-! ## The first failure of a run -/

theorem report_all_latched (reports : List (LaxJsonContext × String)) (s : Session)
    (hlatch : s.parse_err_occurred = true) :
    report_all reports s = (List.replicate reports.length (-1), s) := by
  induction reports with
  | nil => rfl
  | cons report rest ih =>
    have h : parse_error report.1 report.2 s = (-1, s) := by
      simp [parse_error, hlatch]
    simp only [report_all, h, ih, List.length_cons, List.replicate_succ]

/-- C16: starting with the latch unset, over any non-empty sequence of error
reports exactly one line is added to the error stream, the one of the first
report, of the form `line <L>, col <C>: <message>` with the position of that
report; every report, first or later, returns `-1`, and the latch is set after
the first report and after every later one. -/
theorem C16_first_error_only (s : Session) (first : LaxJsonContext × String)
    (later : List (LaxJsonContext × String)) (hlatch : s.parse_err_occurred = false) :
    (report_all (first :: later) s).2.stderr = s.stderr ++ [diagnostic first.1 first.2] ∧
    diagnostic first.1 first.2 =
      "line " ++ toString first.1.line ++ ", col " ++ toString first.1.column ++ ": " ++
        first.2 ++ "\n" ∧
    (report_all (first :: later) s).1 = List.replicate (later.length + 1) (-1) ∧
    (report_all (first :: later) s).2.parse_err_occurred = true ∧
    (∀ k, (report_all (first :: later.take k) s).2.parse_err_occurred = true ∧
      (report_all (first :: later.take k) s).2.stderr =
        s.stderr ++ [diagnostic first.1 first.2]) := by
  have hfirst : parse_error first.1 first.2 s =
      (-1, { s with
        stderr := s.stderr ++ [diagnostic first.1 first.2]
        parse_err_occurred := true }) := by
    simp [parse_error, hlatch]
  have hall : ∀ reports : List (LaxJsonContext × String),
      report_all (first :: reports) s =
        (List.replicate (reports.length + 1) (-1),
          { s with
            stderr := s.stderr ++ [diagnostic first.1 first.2]
            parse_err_occurred := true }) := by
    intro reports
    simp only [report_all, hfirst]
    rw [report_all_latched reports _ rfl]
    rfl
  refine ⟨by rw [hall], rfl, by rw [hall], by rw [hall], ?_⟩
  intro k
  rw [hall]
  exact ⟨rfl, rfl⟩

/-- C16, an example: of three reports only the first is written. -/
theorem C16_first_error_only_witness :
    (report_all [(⟨3, 5⟩, "expected integer"), (⟨4, 1⟩, "unexpected number"),
      (⟨9, 2⟩, "unexpected EOF")] (Session.init ".")).2.stderr =
      ["line 3, col 5: expected integer\n"] ∧
    (report_all [(⟨3, 5⟩, "expected integer"), (⟨4, 1⟩, "unexpected number"),
      (⟨9, 2⟩, "unexpected EOF")] (Session.init ".")).1 = [-1, -1, -1] :=
  have h := C16_first_error_only (Session.init ".") (⟨3, 5⟩, "expected integer")
    [(⟨4, 1⟩, "unexpected number"), (⟨9, 2⟩, "unexpected EOF")] rfl
  ⟨h.1.trans (by decide), h.2.2.1.trans (by decide)⟩

/-! ## What a failing handler leaves unchanged -/

theorem sameDrafts_refl (s : Session) : SameDrafts s s :=
  ⟨rfl, rfl, rfl, rfl, rfl, rfl, rfl, rfl, rfl, rfl⟩

theorem parse_error_sameDrafts (json : LaxJsonContext) (msg : String) (s s1 : Session)
    (h : SameDrafts s s1) : (parse_error json msg s1).1 ≠ 0 →
      SameDrafts s (parse_error json msg s1).2 := by
  intro _
  rw [parse_error_eq]
  exact ⟨h.state, h.page, h.page_key, h.image, h.image_key, h.file_key, h.file_path,
    h.glob_glob, h.globPrefix, h.root⟩

theorem ite_sameDrafts (s : Session) (c : Prop) [Decidable c] (a b : Int × Session)
    (ha : a.1 ≠ 0 → SameDrafts s a.2) (hb : b.1 ≠ 0 → SameDrafts s b.2) :
    (if c then a else b).1 ≠ 0 → SameDrafts s (if c then a else b).2 := by
  split_ifs
  · exact ha
  · exact hb

theorem ok_sameDrafts (s r : Session) : ((0 : Int), r).1 ≠ 0 → SameDrafts s ((0 : Int), r).2 :=
  fun h => absurd rfl h

theorem on_string_failed (json : LaxJsonContext) (type : LaxJsonType) (value : String)
    (s : Session) :
    (on_string json type value s).1 ≠ 0 → SameDrafts s (on_string json type value s).2 := by
  cases hs : s.state <;> simp only [on_string, hs] <;>
    repeat' (first
      | exact ok_sameDrafts _ _
      | (with_reducible apply parse_error_sameDrafts
         exact ⟨hs.symm, rfl, rfl, rfl, rfl, rfl, rfl, rfl, rfl, rfl⟩)
      | (with_reducible apply parse_error_sameDrafts
         exact ⟨rfl, rfl, rfl, rfl, rfl, rfl, rfl, rfl, rfl, rfl⟩)
      | with_reducible apply ite_sameDrafts)

theorem crash_sameDrafts (s r : Session) (h : SameDrafts s r) :
    ((-1 : Int), r).1 ≠ 0 → SameDrafts s ((-1 : Int), r).2 :=
  fun _ => h

theorem on_number_failed (json : LaxJsonContext) (x : ℚ) (s : Session) :
    (on_number json x s).1 ≠ 0 → SameDrafts s (on_number json x s).2 := by
  cases hs : s.state <;> simp only [on_number, hs] <;>
    repeat' (first
      | exact ok_sameDrafts _ _
      | (with_reducible apply parse_error_sameDrafts
         exact ⟨rfl, rfl, rfl, rfl, rfl, rfl, rfl, rfl, rfl, rfl⟩)
      | (with_reducible apply crash_sameDrafts
         exact ⟨hs.symm, rfl, rfl, rfl, rfl, rfl, rfl, rfl, rfl, rfl⟩)
      | with_reducible apply ite_sameDrafts
      | split)

theorem on_primitive_failed (json : LaxJsonContext) (type : LaxJsonType) (s : Session) :
    (on_primitive json type s).1 ≠ 0 → SameDrafts s (on_primitive json type s).2 := by
  cases hs : s.state <;> cases type <;> simp only [on_primitive, hs] <;>
    repeat' (first
      | exact ok_sameDrafts _ _
      | (with_reducible apply parse_error_sameDrafts
         exact ⟨rfl, rfl, rfl, rfl, rfl, rfl, rfl, rfl, rfl, rfl⟩)
      | (with_reducible apply crash_sameDrafts
         exact ⟨hs.symm, rfl, rfl, rfl, rfl, rfl, rfl, rfl, rfl, rfl⟩)
      | split)

theorem on_begin_failed (json : LaxJsonContext) (type : LaxJsonType) (s : Session) :
    (on_begin json type s).1 ≠ 0 → SameDrafts s (on_begin json type s).2 := by
  cases hs : s.state <;> simp only [on_begin, hs] <;>
    repeat' (first
      | exact ok_sameDrafts _ _
      | (with_reducible apply parse_error_sameDrafts
         exact ⟨rfl, rfl, rfl, rfl, rfl, rfl, rfl, rfl, rfl, rfl⟩)
      | (with_reducible apply crash_sameDrafts
         exact ⟨hs.symm, rfl, rfl, rfl, rfl, rfl, rfl, rfl, rfl, rfl⟩)
      | with_reducible apply ite_sameDrafts)

theorem glob_insert_loop_failed (env : Env) (json : LaxJsonContext) (matches_ : List String) :
    ∀ s : Session, (glob_insert_loop env json matches_ s).1 ≠ 0 →
      SameDrafts s (glob_insert_loop env json matches_ s).2 := by
  induction matches_ with
  | nil => exact fun s h => absurd rfl h
  | cons path rest ih =>
    intro s
    cases hst : env.stat path with
    | failed =>
      simp only [glob_insert_loop, hst]
      exact parse_error_sameDrafts _ _ _ _ ⟨rfl, rfl, rfl, rfl, rfl, rfl, rfl, rfl, rfl, rfl⟩
    | directory =>
      simp only [glob_insert_loop, hst]
      exact ih s
    | other =>
      cases hp : Session.glob_prefix s with
      | none =>
        simp only [glob_insert_loop, hst, hp]
        intro _
        constructor <;> first | rfl | exact hp | exact hp.symm
      | some keyPrefix =>
        simp only [glob_insert_loop, hst, hp]
        apply ite_sameDrafts
        · apply parse_error_sameDrafts
          constructor <;> first | rfl | exact hp | exact hp.symm
        · intro h
          have := ih _ h
          exact ⟨this.state, this.page, this.page_key, this.image, this.image_key,
            this.file_key, this.file_path, this.glob_glob, this.globPrefix.trans hp.symm, this.root⟩

theorem glob_insert_files_failed (env : Env) (json : LaxJsonContext) (s : Session) :
    (glob_insert_files env json s).1 ≠ 0 → SameDrafts s (glob_insert_files env json s).2 := by
  cases hg : s.glob_glob with
  | none =>
    simp only [glob_insert_files, hg]
    exact fun _ => ⟨rfl, rfl, rfl, rfl, rfl, rfl, rfl, hg.symm, rfl, rfl⟩
  | some pattern =>
    cases hm : env.glob pattern with
    | GLOB_NOSPACE =>
      simp only [glob_insert_files, hg, hm]
      exact parse_error_sameDrafts _ _ _ _ (sameDrafts_refl s)
    | GLOB_ABORTED =>
      simp only [glob_insert_files, hg, hm]
      exact parse_error_sameDrafts _ _ _ _ (sameDrafts_refl s)
    | GLOB_NOMATCH =>
      simp only [glob_insert_files, hg, hm]
      exact parse_error_sameDrafts _ _ _ _ (sameDrafts_refl s)
    | «matches» gl_pathv =>
      simp only [glob_insert_files, hg, hm]
      exact glob_insert_loop_failed env json gl_pathv s

theorem on_end_failed (env : Env) (json : LaxJsonContext) (type : LaxJsonType) (s : Session) :
    (on_end env json type s).1 ≠ 0 → SameDrafts s (on_end env json type s).2 := by
  cases hs : s.state <;> simp only [on_end, hs] <;>
    first
    | (intro h
       by_cases h0 : (glob_insert_files env json s).1 = 0
       · rw [if_neg (not_not_intro h0)] at h
         exact absurd rfl h
       · rw [if_pos h0]
         exact glob_insert_files_failed env json s h0)
    | (repeat' (first
        | exact ok_sameDrafts _ _
        | (with_reducible apply parse_error_sameDrafts
           exact ⟨hs.symm, rfl, rfl, rfl, rfl, rfl, rfl, rfl, rfl, rfl⟩)
        | (with_reducible apply parse_error_sameDrafts
           exact ⟨rfl, rfl, rfl, rfl, rfl, rfl, rfl, rfl, rfl, rfl⟩)
        | (with_reducible apply crash_sameDrafts
           exact ⟨hs.symm, rfl, rfl, rfl, rfl, rfl, rfl, rfl, rfl, rfl⟩)
        | with_reducible apply ite_sameDrafts
        | split))

/-- An event whose handler returns failure leaves the position, the root prefix
and every draft variable as they were. -/
theorem dispatch_failed (env : Env) (t : Token) (s : Session) :
    (dispatch env t s).1 ≠ 0 → SameDrafts s (dispatch env t s).2 := by
  cases t with
  | mk json event =>
    cases event with
    | string type value => exact on_string_failed json type value s
    | number x => exact on_number_failed json x s
    | primitive type => exact on_primitive_failed json type s
    | begin_ type => exact on_begin_failed json type s
    | end_ type => exact on_end_failed env json type s

/-! ## Which events call `addPage` -/

theorem on_string_calls (json : LaxJsonContext) (type : LaxJsonType) (value : String)
    (s : Session) : (on_string json type value s).2.calls = s.calls := by
  cases hs : s.state <;> simp only [on_string, hs] <;>
    repeat' (first
      | split
      | (rw [parse_error_eq])
      | rfl)

theorem on_number_calls (json : LaxJsonContext) (x : ℚ) (s : Session) :
    (on_number json x s).2.calls = s.calls := by
  cases hs : s.state <;> simp only [on_number, hs] <;>
    repeat' (first
      | split
      | (rw [parse_error_eq])
      | rfl)

theorem on_primitive_calls (json : LaxJsonContext) (type : LaxJsonType) (s : Session) :
    (on_primitive json type s).2.calls = s.calls := by
  cases hs : s.state <;> cases type <;> simp only [on_primitive, hs] <;>
    repeat' (first
      | split
      | (rw [parse_error_eq])
      | rfl)

theorem on_begin_calls (json : LaxJsonContext) (type : LaxJsonType) (s : Session) :
    (on_begin json type s).2.calls = s.calls := by
  cases hs : s.state <;> simp only [on_begin, hs] <;>
    repeat' (first
      | split
      | (rw [parse_error_eq])
      | rfl)

theorem glob_insert_loop_pages (env : Env) (json : LaxJsonContext) (matches_ : List String) :
    ∀ s : Session, addPageCount (glob_insert_loop env json matches_ s).2.calls =
      addPageCount s.calls := by
  induction matches_ with
  | nil => exact fun s => rfl
  | cons path rest ih =>
    intro s
    cases hst : env.stat path with
    | failed =>
      simp only [glob_insert_loop, hst]
      rw [parse_error_eq]
    | directory =>
      simp only [glob_insert_loop, hst]
      exact ih s
    | other =>
      cases hp : Session.glob_prefix s with
      | none => simp only [glob_insert_loop, hst, hp]
      | some keyPrefix =>
        simp only [glob_insert_loop, hst, hp]
        split
        · rw [parse_error_eq]
          simp [addPageCount_append, addPageCount, Action.isAddPage]
        · rw [ih]
          simp [addPageCount_append, addPageCount, Action.isAddPage]

theorem glob_insert_files_pages (env : Env) (json : LaxJsonContext) (s : Session) :
    addPageCount (glob_insert_files env json s).2.calls = addPageCount s.calls := by
  cases hg : s.glob_glob with
  | none => simp only [glob_insert_files, hg]
  | some pattern =>
    cases hm : env.glob pattern with
    | GLOB_NOSPACE => simp only [glob_insert_files, hg, hm]; rw [parse_error_eq]
    | GLOB_ABORTED => simp only [glob_insert_files, hg, hm]; rw [parse_error_eq]
    | GLOB_NOMATCH => simp only [glob_insert_files, hg, hm]; rw [parse_error_eq]
    | «matches» gl_pathv =>
      simp only [glob_insert_files, hg, hm]
      exact glob_insert_loop_pages env json gl_pathv s

theorem on_end_pages (env : Env) (json : LaxJsonContext) (type : LaxJsonType) (s : Session)
    (hstate : s.state ≠ State.StateTextureProp) :
    addPageCount (on_end env json type s).2.calls = addPageCount s.calls := by
  cases hs : s.state <;> simp only [on_end, hs] <;>
    first
    | exact absurd hs hstate
    | (split
       · exact glob_insert_files_pages env json s
       · exact glob_insert_files_pages env json s)
    | (repeat' (first
        | split
        | (rw [parse_error_eq])
        | rfl
        | simp [addPageCount_append, addPageCount, Action.isAddPage]))

/-- Only the closing of a texture entry calls `addPage`. -/
theorem dispatch_pages (env : Env) (t : Token) (s : Session)
    (hnot : ¬ (s.state = State.StateTextureProp ∧ ∃ type, t.event = Event.end_ type)) :
    addPageCount (dispatch env t s).2.calls = addPageCount s.calls := by
  cases t with
  | mk json event =>
    cases event with
    | string type value => exact congrArg addPageCount (on_string_calls json type value s)
    | number x => exact congrArg addPageCount (on_number_calls json x s)
    | primitive type => exact congrArg addPageCount (on_primitive_calls json type s)
    | begin_ type => exact congrArg addPageCount (on_begin_calls json type s)
    | end_ type =>
      exact on_end_pages env json type s (fun h => hnot ⟨h, type, rfl⟩)

/-! ## C17: the drafts after an error -/

/-- C17, counterexample: in a texture entry `t` with two images drafted, the
unknown field `bogus` of a third image entry `c` is an error, and after it the
session still holds the page draft with its two images, the key `t` of the page
and the key `c` of the open image entry: nothing has been released. -/
theorem C17_counterexample :
    (feed demoEnv (tokensAt ⟨1, 1⟩ twoImagesThenError) (Session.init ".")).1 = -1 ∧
    (feed demoEnv (tokensAt ⟨1, 1⟩ twoImagesThenError) (Session.init ".")).2.parse_err_occurred
      = true ∧
    (feed demoEnv (tokensAt ⟨1, 1⟩ twoImagesThenError) (Session.init ".")).2.page =
      some { max_width := none, max_height := none, pow2 := none,
             images :=
               [ (some "a", { path := some "./a.png", anchor := RuckSackAnchor.Center,
                              anchor_x := 0, anchor_y := 0 })
               , (some "b", { path := some "./b.png", anchor := RuckSackAnchor.Center,
                              anchor_x := 0, anchor_y := 0 }) ] } ∧
    (feed demoEnv (tokensAt ⟨1, 1⟩ twoImagesThenError) (Session.init ".")).2.page_key
      = some "t" ∧
    (feed demoEnv (tokensAt ⟨1, 1⟩ twoImagesThenError) (Session.init ".")).2.image_key
      = some "c" := by
  decide

/-- C17, amended: an event whose handler returns failure releases nothing: the
page draft, its key, the open image key and the image path are left as they
were. No `addPage` is issued by the failing event unless it is the closing of
the texture entry itself with the bundle rejecting the page, in which case the
one `addPage` call that was rejected is the last call made. -/
theorem C17_drafts_kept_on_error (env : Env) (t : Token) (s : Session)
    (hfail : (dispatch env t s).1 ≠ 0) :
    (dispatch env t s).2.page = s.page ∧
    (dispatch env t s).2.page_key = s.page_key ∧
    (dispatch env t s).2.image_key = s.image_key ∧
    (dispatch env t s).2.image.path = s.image.path ∧
    (¬ (s.state = State.StateTextureProp ∧ ∃ type, t.event = Event.end_ type) →
      addPageCount (dispatch env t s).2.calls = addPageCount s.calls) ∧
    (s.state = State.StateTextureProp → (∃ type, t.event = Event.end_ type) →
      env.rucksack_bundle_add_page s.calls s.page_key s.page ≠ 0 ∧
      (dispatch env t s).2.calls = s.calls ++ [Action.addPage s.page_key s.page]) := by
  have hkeep := dispatch_failed env t s hfail
  refine ⟨hkeep.page, hkeep.page_key, hkeep.image_key, by rw [hkeep.image],
    dispatch_pages env t s, ?_⟩
  intro hstate hend
  obtain ⟨type, hevent⟩ := hend
  cases t with
  | mk json event =>
    simp only at hevent
    subst hevent
    simp only [dispatch] at hfail ⊢
    by_cases hadd : env.rucksack_bundle_add_page s.calls s.page_key s.page = 0
    · exfalso
      apply hfail
      simp [on_end, hstate, hadd]
    · refine ⟨hadd, ?_⟩
      rw [(on_end_commit_rejected env json type s).1 hstate hadd, parse_error_eq]

/-- C17, an example: the failing event of the stream above, the unknown field
`bogus`, leaves the page draft with its two images, the key of the page and the
key of the open image entry in the session, and issues no `addPage`. -/
theorem C17_drafts_kept_on_error_witness :
    (dispatch demoEnv ⟨⟨9, 5⟩, propertyName "bogus"⟩
      (feed demoEnv (tokensAt ⟨1, 1⟩ twoImagesThenError.dropLast) (Session.init ".")).2).2.page =
      some { max_width := none, max_height := none, pow2 := none,
             images :=
               [ (some "a", { path := some "./a.png", anchor := RuckSackAnchor.Center,
                              anchor_x := 0, anchor_y := 0 })
               , (some "b", { path := some "./b.png", anchor := RuckSackAnchor.Center,
                              anchor_x := 0, anchor_y := 0 }) ] } ∧
    (dispatch demoEnv ⟨⟨9, 5⟩, propertyName "bogus"⟩
      (feed demoEnv (tokensAt ⟨1, 1⟩ twoImagesThenError.dropLast)
        (Session.init ".")).2).2.page_key = some "t" ∧
    (dispatch demoEnv ⟨⟨9, 5⟩, propertyName "bogus"⟩
      (feed demoEnv (tokensAt ⟨1, 1⟩ twoImagesThenError.dropLast)
        (Session.init ".")).2).2.image_key = some "c" ∧
    addPageCount (dispatch demoEnv ⟨⟨9, 5⟩, propertyName "bogus"⟩
      (feed demoEnv (tokensAt ⟨1, 1⟩ twoImagesThenError.dropLast)
        (Session.init ".")).2).2.calls = 0 :=
  have h := C17_drafts_kept_on_error demoEnv ⟨⟨9, 5⟩, propertyName "bogus"⟩
    (feed demoEnv (tokensAt ⟨1, 1⟩ twoImagesThenError.dropLast) (Session.init ".")).2
    (by decide)
  ⟨h.1.trans (by decide), h.2.1.trans (by decide), h.2.2.1.trans (by decide),
   (h.2.2.2.2.1 (fun hclose => absurd hclose.1 (by decide))).trans (by decide)⟩

/-! ## C18: paths longer than the buffer -/

theorem snprintf_length (size : Nat) (text : String) :
    (snprintf size text).length = min (size - 1) text.length := by
  show (List.take (size - 1) text.data).length = min (size - 1) text.data.length
  rw [List.length_take]

theorem hugePath_head : hugePath.data.head? ≠ some '/' := by
  show (List.replicate 2000 'p').head? ≠ some '/'
  rw [show (2000 : Nat) = 1999 + 1 from rfl, List.replicate_succ]
  decide

/-- C18, counterexample: the relative path of 2000 bytes under the root `.` has
a joined form of 2002 bytes; in the path position of a file entry it is accepted
with return code 0 and no diagnostic, and the path stored is 1023 bytes long. -/
theorem C18_counterexample :
    hugePath.data.head? ≠ some '/' ∧
    ("." ++ "/" ++ hugePath).length = 2002 ∧
    (resolve_path "." hugePath).length = 1023 ∧
    on_string ⟨1, 1⟩ LaxJsonType.String hugePath
      { fileSession with state := State.StateFilePropPath } =
      (0, { fileSession with file_path := some (resolve_path "." hugePath) }) := by
  have hlen : ("." ++ "/" ++ hugePath).length = 2002 := by
    simp only [String.length_append, hugePath_length]
    decide
  refine ⟨hugePath_head, hlen, ?_, ?_⟩
  · simp only [resolve_path, if_neg hugePath_head, snprintf_length, hlen, STRBUF_SIZE]
    decide
  · simp [on_string, fileSession, Session.init]

/-- C18, amended: `resolve_path` has no failure result and writes no
diagnostic. For every relative raw path and root prefix whose joined form
rootPrefix ++ "/" ++ rawPath is longer than 1023 bytes, it returns the first
1023 bytes of the joined form, and the string event that carries the path (of a
file, of an image, or the pattern of a glob entry) is accepted with that value. -/
theorem C18_long_paths_truncated (rootPrefix rawPath : String)
    (hrelative : rawPath.data.head? ≠ some '/')
    (hlong : (rootPrefix ++ "/" ++ rawPath).length > 1023) :
    resolve_path rootPrefix rawPath =
      String.mk ((rootPrefix ++ "/" ++ rawPath).data.take 1023) ∧
    (resolve_path rootPrefix rawPath).length = 1023 ∧
    resolve_path rootPrefix rawPath ≠ rootPrefix ++ "/" ++ rawPath ∧
    (∀ json type (s : Session), Session.path_prefix s = rootPrefix →
      (s.state = State.StateFilePropPath →
        on_string json type rawPath s =
          (0, { s with
            file_path := some (resolve_path rootPrefix rawPath)
            state := State.StateFilePropName })) ∧
      (s.state = State.StateImagePropPath →
        on_string json type rawPath s =
          (0, { s with
            image := { s.image with path := some (resolve_path rootPrefix rawPath) }
            state := State.StateImagePropName })) ∧
      (s.state = State.StateGlobValueGlob →
        on_string json type rawPath s =
          (0, { s with
            glob_glob := some (resolve_path rootPrefix rawPath)
            state := State.StateGlobObjectProp }))) := by
  have hlen : (resolve_path rootPrefix rawPath).length = 1023 := by
    simp only [resolve_path, if_neg hrelative, snprintf_length, STRBUF_SIZE]
    exact Nat.min_eq_left (Nat.le_of_lt hlong)
  refine ⟨?_, hlen, ?_, ?_⟩
  · simp only [resolve_path, if_neg hrelative, snprintf, STRBUF_SIZE]
  · intro heq
    rw [heq] at hlen
    omega
  · intro json type s hroot
    refine ⟨?_, ?_, ?_⟩ <;> intro hstate <;> simp [on_string, hstate, hroot]

/-- C18, an example: the path of 2000 bytes under the root `.` resolves to a
path of 1023 bytes. -/
theorem C18_long_paths_truncated_witness :
    (resolve_path "." hugePath).length = 1023 ∧
    resolve_path "." hugePath ≠ "." ++ "/" ++ hugePath :=
  have h := C18_long_paths_truncated "." hugePath hugePath_head
    (by simp only [String.length_append, hugePath_length]; decide)
  ⟨h.2.1, h.2.2.1⟩

/-! ## C19: a failure partway through the matches -/

theorem glob_calls_cons (env : Env) (keyPrefix root path : String) (rest : List String) :
    glob_calls env keyPrefix root (path :: rest) =
      (if env.stat path ≠ StatResult.directory then
          [Action.addFile (some (glob_key keyPrefix root path)) (some path)]
        else []) ++ glob_calls env keyPrefix root rest := by
  by_cases h : env.stat path = StatResult.directory
  · simp [glob_calls, List.filter_cons, h]
  · simp [glob_calls, List.filter_cons, h]

/-- The loop of `glob_insert_files` up to the first match that fails, each
`addFile` being answered by the bundle on the calls made so far. -/
theorem glob_insert_loop_failed_at (env : Env) (json : LaxJsonContext) (keyPrefix bad : String)
    (post : List String) :
    ∀ (pre : List String) (s : Session),
      Session.glob_prefix s = some keyPrefix →
      (∀ p ∈ pre, env.stat p ≠ StatResult.failed) →
      (∀ pre1 p pre2, pre = pre1 ++ p :: pre2 → env.stat p = StatResult.other →
        env.rucksack_bundle_add_file
          (s.calls ++ glob_calls env keyPrefix ( Session.path_prefix s) pre1)
          (some (glob_key keyPrefix ( Session.path_prefix s) p)) (some p) = 0) →
      (env.stat bad = StatResult.failed →
        (glob_insert_loop env json (pre ++ bad :: post) s).1 = -1 ∧
        (glob_insert_loop env json (pre ++ bad :: post) s).2.calls =
          s.calls ++ glob_calls env keyPrefix ( Session.path_prefix s) pre) ∧
      (env.stat bad = StatResult.other →
        env.rucksack_bundle_add_file
          (s.calls ++ glob_calls env keyPrefix ( Session.path_prefix s) pre)
          (some (glob_key keyPrefix ( Session.path_prefix s) bad)) (some bad) ≠ 0 →
        (glob_insert_loop env json (pre ++ bad :: post) s).1 = -1 ∧
        (glob_insert_loop env json (pre ++ bad :: post) s).2.calls =
          s.calls ++ glob_calls env keyPrefix ( Session.path_prefix s) pre ++
            [Action.addFile (some (glob_key keyPrefix ( Session.path_prefix s) bad))
              (some bad)]) := by
  intro pre
  induction pre with
  | nil =>
    intro s hp _ _
    constructor
    · intro hbad
      simp only [List.nil_append, glob_insert_loop, hbad]
      rw [parse_error_eq]
      simp [glob_calls]
    · intro hbad hadd
      have hadd' : env.rucksack_bundle_add_file s.calls
          (some (glob_key keyPrefix ( Session.path_prefix s) bad)) (some bad) ≠ 0 := by
        simpa [glob_calls] using hadd
      simp only [List.nil_append, glob_insert_loop, hbad, hp, ne_eq, hadd', not_false_eq_true,
        if_true]
      rw [parse_error_eq]
      simp [glob_calls]
  | cons path pre ih =>
    intro s hp hstat hadd
    have hrest : ∀ p ∈ pre, env.stat p ≠ StatResult.failed :=
      fun p hmem => hstat p (List.mem_cons_of_mem _ hmem)
    have hpath := hstat path (List.mem_cons_self _ _)
    cases hst : env.stat path with
    | failed => exact absurd hst hpath
    | directory =>
      have hgc : ∀ l, glob_calls env keyPrefix ( Session.path_prefix s) (path :: l) =
          glob_calls env keyPrefix ( Session.path_prefix s) l := by
        intro l
        rw [glob_calls_cons]
        simp [hst]
      have ih' := ih s hp hrest (fun pre1 p pre2 hsplit hother => by
        have := hadd (path :: pre1) p pre2 (by rw [hsplit, List.cons_append]) hother
        rwa [hgc] at this)
      have hstep : glob_insert_loop env json (path :: pre ++ bad :: post) s =
          glob_insert_loop env json (pre ++ bad :: post) s := by
        rw [List.cons_append]
        simp only [glob_insert_loop, hst]
      rw [hstep, hgc]
      exact ih'
    | other =>
      have hgc : ∀ l, glob_calls env keyPrefix ( Session.path_prefix s) (path :: l) =
          [Action.addFile (some (glob_key keyPrefix ( Session.path_prefix s) path)) (some path)] ++
            glob_calls env keyPrefix ( Session.path_prefix s) l := by
        intro l
        rw [glob_calls_cons]
        simp [hst]
      have hfirst : env.rucksack_bundle_add_file s.calls
          (some (glob_key keyPrefix ( Session.path_prefix s) path)) (some path) = 0 := by
        have := hadd [] path pre rfl hst
        simpa [glob_calls] using this
      have ih' := ih
        { s with
          strbuf := glob_key keyPrefix ( Session.path_prefix s) path
          calls := s.calls ++
            [Action.addFile (some (glob_key keyPrefix ( Session.path_prefix s) path)) (some path)] }
        hp hrest (fun pre1 p pre2 hsplit hother => by
          have := hadd (path :: pre1) p pre2 (by rw [hsplit, List.cons_append]) hother
          rw [hgc, ← List.append_assoc] at this
          exact this)
      have hstep : glob_insert_loop env json (path :: pre ++ bad :: post) s =
          glob_insert_loop env json (pre ++ bad :: post)
            { s with
              strbuf := glob_key keyPrefix ( Session.path_prefix s) path
              calls := s.calls ++
                [Action.addFile (some (glob_key keyPrefix ( Session.path_prefix s) path))
                  (some path)] } := by
        simp [glob_insert_loop, hst, hp, hfirst]
      rw [hstep, hgc, ← List.append_assoc]
      exact ih'

/-- C19: when the enumeration returns matches of which the k-th is the first to
fail, the matches before it having been examined and their files accepted by
the bundle one after the other, the expansion returns failure and the calls
made are exactly the `addFile` of the earlier matches that are not directories,
in the order of the enumeration, followed, when it is the `addFile` of the k-th
match that the bundle rejects, by that rejected call; nothing is issued for the
matches after the k-th. -/
theorem C19_no_batching (env : Env) (json : LaxJsonContext) (s : Session)
    (pattern keyPrefix bad : String) (pre post : List String)
    (hpattern : s.glob_glob = some pattern)
    ( hprefix : Session.glob_prefix s = some keyPrefix)
    (hglob : env.glob pattern = GlobResult.matches (pre ++ bad :: post))
    (hstat : ∀ p ∈ pre, env.stat p ≠ StatResult.failed)
    (hadd : ∀ pre1 p pre2, pre = pre1 ++ p :: pre2 → env.stat p = StatResult.other →
      env.rucksack_bundle_add_file
        (s.calls ++ glob_calls env keyPrefix ( Session.path_prefix s) pre1)
        (some (glob_key keyPrefix ( Session.path_prefix s) p)) (some p) = 0) :
    (env.stat bad = StatResult.failed →
      (glob_insert_files env json s).1 = -1 ∧
      (glob_insert_files env json s).2.calls =
        s.calls ++ glob_calls env keyPrefix ( Session.path_prefix s) pre) ∧
    (env.stat bad = StatResult.other →
      env.rucksack_bundle_add_file
        (s.calls ++ glob_calls env keyPrefix ( Session.path_prefix s) pre)
        (some (glob_key keyPrefix ( Session.path_prefix s) bad)) (some bad) ≠ 0 →
      (glob_insert_files env json s).1 = -1 ∧
      (glob_insert_files env json s).2.calls =
        s.calls ++ glob_calls env keyPrefix ( Session.path_prefix s) pre ++
          [Action.addFile (some (glob_key keyPrefix ( Session.path_prefix s) bad)) (some bad)]) := by
  have hfiles : glob_insert_files env json s =
      glob_insert_loop env json (pre ++ bad :: post) s := by
    simp only [glob_insert_files, hpattern, hglob]
  rw [hfiles]
  exact glob_insert_loop_failed_at env json keyPrefix bad post pre s hprefix hstat hadd

/-- C19, examples: of the three matches of `broken/*` the second cannot be
examined, and the one call made is the `addFile` of the first; of the three
matches of `assets/*` the second is a directory and the bundle rejects the
third, and the calls made are the `addFile` of the first and the rejected one of
the third. -/
theorem C19_no_batching_witness :
    ((glob_insert_files demoEnv ⟨3, 5⟩ (globSession "broken" "broken/*")).1 = -1 ∧
     (glob_insert_files demoEnv ⟨3, 5⟩ (globSession "broken" "broken/*")).2.calls =
       [Action.addFile (some "icons/a.png") (some "broken/a.png")]) ∧
    ((glob_insert_files oneFileEnv ⟨3, 5⟩ (globSession "assets" "assets/*")).1 = -1 ∧
     (glob_insert_files oneFileEnv ⟨3, 5⟩ (globSession "assets" "assets/*")).2.calls =
       [ Action.addFile (some "icons/a.png") (some "assets/a.png")
       , Action.addFile (some "icons/b.png") (some "assets/b.png") ]) :=
  have h1 := (C19_no_batching demoEnv ⟨3, 5⟩ (globSession "broken" "broken/*") "broken/*"
      "icons/" "broken/gone" ["broken/a.png"] ["broken/b.png"] rfl rfl (by decide) (by decide)
      (fun _ _ _ _ _ => rfl)).1 (by decide)
  have h2 := (C19_no_batching oneFileEnv ⟨3, 5⟩ (globSession "assets" "assets/*") "assets/*"
      "icons/" "assets/b.png" ["assets/a.png", "assets/sub"] [] rfl rfl (by decide) (by decide)
      (fun pre1 p pre2 hsplit hother => by
        cases pre1 with
        | nil =>
          simp only [List.nil_append, List.cons.injEq] at hsplit
          obtain ⟨hp, _⟩ := hsplit
          subst hp
          decide
        | cons q pre1 =>
          cases pre1 with
          | nil =>
            simp only [List.cons_append, List.nil_append, List.cons.injEq] at hsplit
            obtain ⟨_, hp, _⟩ := hsplit
            subst hp
            exact absurd hother (by decide)
          | cons q' pre1 =>
            simp only [List.cons_append, List.cons.injEq] at hsplit
            obtain ⟨_, _, hnil⟩ := hsplit
            cases pre1 <;> simp at hnil)).2 (by decide) (by decide)
  ⟨⟨h1.1, h1.2.trans (by decide)⟩, ⟨h2.1, h2.2.trans (by decide)⟩⟩

/-! ## What an accepted event leaves unchanged -/

theorem parse_error_latch (json : LaxJsonContext) (msg : String) (s s1 : Session) :
    (parse_error json msg s1).1 = 0 →
      (parse_error json msg s1).2.parse_err_occurred = s.parse_err_occurred ∧
      (parse_error json msg s1).2.stderr = s.stderr := by
  intro h
  rw [parse_error_fst] at h
  exact absurd h (by decide)

theorem crash_latch (s r : Session) :
    ((-1 : Int), r).1 = 0 →
      ((-1 : Int), r).2.parse_err_occurred = s.parse_err_occurred ∧
      ((-1 : Int), r).2.stderr = s.stderr := by
  intro h
  simp at h

theorem on_string_latch (json : LaxJsonContext) (type : LaxJsonType) (value : String)
    (s : Session) :
    (on_string json type value s).1 = 0 →
      (on_string json type value s).2.parse_err_occurred = s.parse_err_occurred ∧
      (on_string json type value s).2.stderr = s.stderr := by
  cases hs : s.state <;> simp only [on_string, hs] <;>
    repeat' (first
      | split
      | with_reducible apply parse_error_latch
      | (intro _; trivial))

theorem on_number_latch (json : LaxJsonContext) (x : ℚ) (s : Session) :
    (on_number json x s).1 = 0 →
      (on_number json x s).2.parse_err_occurred = s.parse_err_occurred ∧
      (on_number json x s).2.stderr = s.stderr := by
  cases hs : s.state <;> simp only [on_number, hs] <;>
    repeat' (first
      | split
      | with_reducible apply parse_error_latch
      | with_reducible apply crash_latch
      | (intro _; trivial))

theorem on_primitive_latch (json : LaxJsonContext) (type : LaxJsonType) (s : Session) :
    (on_primitive json type s).1 = 0 →
      (on_primitive json type s).2.parse_err_occurred = s.parse_err_occurred ∧
      (on_primitive json type s).2.stderr = s.stderr := by
  cases hs : s.state <;> cases type <;> simp only [on_primitive, hs] <;>
    repeat' (first
      | split
      | with_reducible apply parse_error_latch
      | with_reducible apply crash_latch
      | (intro _; trivial))

theorem on_begin_latch (json : LaxJsonContext) (type : LaxJsonType) (s : Session) :
    (on_begin json type s).1 = 0 →
      (on_begin json type s).2.parse_err_occurred = s.parse_err_occurred ∧
      (on_begin json type s).2.stderr = s.stderr := by
  cases hs : s.state <;> simp only [on_begin, hs] <;>
    repeat' (first
      | split
      | with_reducible apply parse_error_latch
      | with_reducible apply crash_latch
      | (intro _; trivial))

theorem glob_insert_loop_latch (env : Env) (json : LaxJsonContext) (matches_ : List String) :
    ∀ s : Session, (glob_insert_loop env json matches_ s).1 = 0 →
      (glob_insert_loop env json matches_ s).2.parse_err_occurred = s.parse_err_occurred ∧
      (glob_insert_loop env json matches_ s).2.stderr = s.stderr := by
  induction matches_ with
  | nil => exact fun s _ => ⟨rfl, rfl⟩
  | cons path rest ih =>
    intro s
    cases hst : env.stat path with
    | failed =>
      simp only [glob_insert_loop, hst]
      exact parse_error_latch _ _ _ _
    | directory =>
      simp only [glob_insert_loop, hst]
      exact ih s
    | other =>
      cases hp : Session.glob_prefix s with
      | none =>
        simp only [glob_insert_loop, hst, hp]
        intro h
        simp at h
      | some keyPrefix =>
        simp only [glob_insert_loop, hst, hp]
        split
        · exact parse_error_latch _ _ _ _
        · intro h
          exact ih _ h

theorem glob_insert_files_latch (env : Env) (json : LaxJsonContext) (s : Session) :
    (glob_insert_files env json s).1 = 0 →
      (glob_insert_files env json s).2.parse_err_occurred = s.parse_err_occurred ∧
      (glob_insert_files env json s).2.stderr = s.stderr := by
  cases hg : s.glob_glob with
  | none =>
    simp only [glob_insert_files, hg]
    intro h
    simp at h
  | some pattern =>
    cases hm : env.glob pattern with
    | GLOB_NOSPACE => simp only [glob_insert_files, hg, hm]; exact parse_error_latch _ _ _ _
    | GLOB_ABORTED => simp only [glob_insert_files, hg, hm]; exact parse_error_latch _ _ _ _
    | GLOB_NOMATCH => simp only [glob_insert_files, hg, hm]; exact parse_error_latch _ _ _ _
    | «matches» gl_pathv =>
      simp only [glob_insert_files, hg, hm]
      exact glob_insert_loop_latch env json gl_pathv s

theorem on_end_latch (env : Env) (json : LaxJsonContext) (type : LaxJsonType) (s : Session) :
    (on_end env json type s).1 = 0 →
      (on_end env json type s).2.parse_err_occurred = s.parse_err_occurred ∧
      (on_end env json type s).2.stderr = s.stderr := by
  cases hs : s.state <;> simp only [on_end, hs] <;>
    first
    | (intro h
       by_cases h0 : (glob_insert_files env json s).1 = 0
       · rw [if_neg (not_not_intro h0)]
         exact glob_insert_files_latch env json s h0
       · rw [if_pos h0] at h
         exact absurd h h0)
    | (repeat' (first
        | split
        | with_reducible apply parse_error_latch
        | with_reducible apply crash_latch
        | (intro _; trivial)))

/-- An event whose handler returns success leaves the latch and the error stream
as they were. -/
theorem dispatch_latch (env : Env) (t : Token) (s : Session) :
    (dispatch env t s).1 = 0 →
      (dispatch env t s).2.parse_err_occurred = s.parse_err_occurred ∧
      (dispatch env t s).2.stderr = s.stderr := by
  cases t with
  | mk json event =>
    cases event with
    | string type value => exact on_string_latch json type value s
    | number x => exact on_number_latch json x s
    | primitive type => exact on_primitive_latch json type s
    | begin_ type => exact on_begin_latch json type s
    | end_ type => exact on_end_latch env json type s

theorem feed_latch (env : Env) (ts : List Token) :
    ∀ s : Session, (feed env ts s).1 = 0 →
      (feed env ts s).2.parse_err_occurred = s.parse_err_occurred ∧
      (feed env ts s).2.stderr = s.stderr := by
  induction ts with
  | nil => exact fun s _ => ⟨rfl, rfl⟩
  | cons t ts ih =>
    intro s h
    by_cases hok : (dispatch env t s).1 = 0
    · have hstep : feed env (t :: ts) s = feed env ts (dispatch env t s).2 := by
        simp only [feed, hok, ne_eq, not_true_eq_false, if_false]
      rw [hstep] at h ⊢
      have h1 := dispatch_latch env t s hok
      have h2 := ih _ h
      exact ⟨h2.1.trans h1.1, h2.2.trans h1.2⟩
    · rw [feed_fst_of_failed env t ts s hok] at h
      exact absurd h hok

/-! ## C20: the exit status of the bundle run -/

theorem stop_position_ok (env : Env) (json : LaxJsonContext) (ts : List Token) :
    ∀ s : Session, (feed env ts s).1 = 0 → stop_position env ts s json = json := by
  induction ts with
  | nil => exact fun s _ => rfl
  | cons t ts ih =>
    intro s h
    by_cases hok : (dispatch env t s).1 = 0
    · have hstep : feed env (t :: ts) s = feed env ts (dispatch env t s).2 := by
        simp only [feed, hok, ne_eq, not_true_eq_false, if_false]
      rw [hstep] at h
      simp only [stop_position, hok, ne_eq, not_true_eq_false, if_false]
      exact ih _ h
    · rw [feed_fst_of_failed env t ts s hok] at h
      exact absurd h hok

/-- C20: the bundle run exits with status 0 if and only if no callback failed
and the tokenizer reported no error of its own, the latch is unset after the
last event, the position after the last event is the done position, and closing
the bundle succeeded; every other run exits with status 1. In particular, when
every event was accepted and the stream ends (the tokenizer reporting nothing,
or the end of input) in a position other than done, the empty stream included,
the diagnostic `unexpected EOF` is written at the position reached and the
status is 1. -/
theorem C20_bundle_status (env : Env) (rucksack_bundle_close : List Action → Nat)
    (run : TokenizerRun) (s : Session) (hlatch : s.parse_err_occurred = false) :
    ((command_bundle env rucksack_bundle_close run s).1 = 0 ↔
      ((feed env run.tokens s).1 = 0 ∧ run.error = 0) ∧
      (feed env run.tokens s).2.parse_err_occurred = false ∧
      (feed env run.tokens s).2.state = State.StateDone ∧
      rucksack_bundle_close (feed env run.tokens s).2.calls = 0) ∧
    ((command_bundle env rucksack_bundle_close run s).1 ≠ 0 →
      (command_bundle env rucksack_bundle_close run s).1 = 1) ∧
    ((feed env run.tokens s).1 = 0 → (run.error = 0 ∨ run.error = 9) →
      (feed env run.tokens s).2.state ≠ State.StateDone →
      (command_bundle env rucksack_bundle_close run s).1 = 1 ∧
      (command_bundle env rucksack_bundle_close run s).2.stderr =
        s.stderr ++ [diagnostic run.json "unexpected EOF"]) := by
  refine ⟨?_, ?_, ?_⟩
  · by_cases hfeed : (feed env run.tokens s).1 = 0
    · by_cases herr : run.error = 0
      · by_cases hstate : (feed env run.tokens s).2.state = State.StateDone
        · by_cases hl : (feed env run.tokens s).2.parse_err_occurred = true
          · simp [command_bundle, hfeed, herr, hstate, hl]
          · have hl' : (feed env run.tokens s).2.parse_err_occurred = false := by
              simpa using hl
            by_cases hclose : rucksack_bundle_close (feed env run.tokens s).2.calls = 0
            · simp [command_bundle, hfeed, herr, hstate, hl', hclose]
            · simp [command_bundle, hfeed, herr, hstate, hl', hclose]
        · simp [command_bundle, hfeed, herr, hstate, parse_error_eq]
      · simp [command_bundle, hfeed, herr]
    · simp [command_bundle, hfeed, LaxJsonErrorAborted]
  · intro hne
    simp only [command_bundle] at hne ⊢
    split_ifs at hne ⊢ <;> first | rfl | exact absurd rfl hne
  · intro hfeed herr hstate
    have hl := feed_latch env run.tokens s hfeed
    have hpos := stop_position_ok env run.json run.tokens s hfeed
    rw [hlatch] at hl
    rcases herr with herr | herr
    · simp [command_bundle, hfeed, herr, hstate, parse_error_eq, hl.1, hl.2, hpos]
    · have hmsg : ERR_STR[9]?.getD "" = "unexpected EOF" := by decide
      simp [command_bundle, hfeed, herr, hmsg, parse_error_eq, hl.1, hl.2, hpos]

/-- C20, examples: the run of a complete manifest with a bundle that closes
exits with status 0; the run of the empty stream exits with status 1 after the
diagnostic `unexpected EOF`. -/
theorem C20_bundle_status_witness :
    (command_bundle demoEnv (fun _ => 0)
      ⟨tokensAt ⟨1, 1⟩ (manifestEvents demoManifest), 0, ⟨9, 1⟩⟩ (Session.init "assets")).1 = 0 ∧
    (command_bundle demoEnv (fun _ => 0) ⟨[], 9, ⟨1, 0⟩⟩ (Session.init ".")).1 = 1 ∧
    (command_bundle demoEnv (fun _ => 0) ⟨[], 9, ⟨1, 0⟩⟩ (Session.init ".")).2.stderr =
      ["line 1, col 0: unexpected EOF\n"] :=
  have h1 := (C20_bundle_status demoEnv (fun _ => 0)
    ⟨tokensAt ⟨1, 1⟩ (manifestEvents demoManifest), 0, ⟨9, 1⟩⟩ (Session.init "assets") rfl).1
  have h2 := (C20_bundle_status demoEnv (fun _ => 0) ⟨[], 9, ⟨1, 0⟩⟩ (Session.init ".")
    rfl).2.2 rfl (Or.inr rfl) (by decide)
  ⟨h1.2 ⟨⟨by decide, rfl⟩, by decide, by decide, rfl⟩, h2.1, h2.2.trans (by decide)⟩

/-! ## C24: the position after a failure -/

/-- C24: whatever the grammar position, a handler that returns failure leaves
the position as it was; this holds for each of the five handlers `on_string`,
`on_number`, `on_primitive`, `on_begin` and `on_end`. -/
theorem C24_failure_keeps_position (env : Env) (json : LaxJsonContext) (s : Session) :
    (∀ type value, (on_string json type value s).1 ≠ 0 →
      (on_string json type value s).2.state = s.state) ∧
    (∀ x, (on_number json x s).1 ≠ 0 → (on_number json x s).2.state = s.state) ∧
    (∀ type, (on_primitive json type s).1 ≠ 0 → (on_primitive json type s).2.state = s.state) ∧
    (∀ type, (on_begin json type s).1 ≠ 0 → (on_begin json type s).2.state = s.state) ∧
    (∀ type, (on_end env json type s).1 ≠ 0 → (on_end env json type s).2.state = s.state) :=
  ⟨fun type value h => (on_string_failed json type value s h).state,
   fun x h => (on_number_failed json x s h).state,
   fun type h => (on_primitive_failed json type s h).state,
   fun type h => (on_begin_failed json type s h).state,
   fun type h => (on_end_failed env json type s h).state⟩

/-- C24, examples: an unknown key, a number and an array where a top-level key
is expected, `null` for the power-of-two flag, and the close of a file entry
that the bundle rejects all fail and leave the position where it was. -/
theorem C24_failure_keeps_position_witness :
    ((on_string ⟨1, 2⟩ LaxJsonType.Property "bogus" topLevelSession).1 ≠ 0 ∧
      (on_string ⟨1, 2⟩ LaxJsonType.Property "bogus" topLevelSession).2.state =
        State.StateTopLevelProp) ∧
    ((on_number ⟨1, 2⟩ 7 topLevelSession).1 ≠ 0 ∧
      (on_number ⟨1, 2⟩ 7 topLevelSession).2.state = State.StateTopLevelProp) ∧
    ((on_primitive ⟨3, 9⟩ LaxJsonType.Null (textureSession State.StateTexturePow2)).1 ≠ 0 ∧
      (on_primitive ⟨3, 9⟩ LaxJsonType.Null (textureSession State.StateTexturePow2)).2.state =
        State.StateTexturePow2) ∧
    ((on_begin ⟨1, 2⟩ LaxJsonType.Array topLevelSession).1 ≠ 0 ∧
      (on_begin ⟨1, 2⟩ LaxJsonType.Array topLevelSession).2.state = State.StateTopLevelProp) ∧
    ((on_end rejectFilesEnv ⟨4, 1⟩ LaxJsonType.Object fileSession).1 ≠ 0 ∧
      (on_end rejectFilesEnv ⟨4, 1⟩ LaxJsonType.Object fileSession).2.state =
        State.StateFilePropName) :=
  ⟨⟨by decide, (C24_failure_keeps_position demoEnv ⟨1, 2⟩ topLevelSession).1
      LaxJsonType.Property "bogus" (by decide)⟩,
   ⟨by decide, (C24_failure_keeps_position demoEnv ⟨1, 2⟩ topLevelSession).2.1 7 (by decide)⟩,
   ⟨by decide, (C24_failure_keeps_position demoEnv ⟨3, 9⟩
      (textureSession State.StateTexturePow2)).2.2.1 LaxJsonType.Null (by decide)⟩,
   ⟨by decide, (C24_failure_keeps_position demoEnv ⟨1, 2⟩ topLevelSession).2.2.2.1
      LaxJsonType.Array (by decide)⟩,
   ⟨by decide, (C24_failure_keeps_position rejectFilesEnv ⟨4, 1⟩ fileSession).2.2.2.2
      LaxJsonType.Object (by decide)⟩⟩

/-! ## C22: the nesting depth of the positions -/

theorem crash_elim {P : Prop} (r : Session) : ((-1 : Int), r).1 = 0 → P := by
  intro h
  simp at h

theorem parse_error_elim {P : Prop} (json : LaxJsonContext) (msg : String) (s : Session) :
    (parse_error json msg s).1 = 0 → P := by
  intro h
  rw [parse_error_fst] at h
  exact absurd h (by decide)

theorem on_begin_depth (json : LaxJsonContext) (type : LaxJsonType) (s : Session) :
    (on_begin json type s).1 = 0 →
      nesting_depth (on_begin json type s).2.state = nesting_depth s.state + 1 := by
  cases hs : s.state <;> cases type <;>
    simp [on_begin, hs, parse_error_fst, nesting_depth]

theorem on_string_depth (json : LaxJsonContext) (type : LaxJsonType) (value : String)
    (s : Session) :
    (on_string json type value s).1 = 0 →
      nesting_depth (on_string json type value s).2.state = nesting_depth s.state := by
  cases hs : s.state <;> simp only [on_string, hs] <;>
    repeat' (first
      | split
      | with_reducible exact parse_error_elim _ _ _
      | (intro _; simp only [nesting_depth, hs]))

theorem on_number_depth (json : LaxJsonContext) (x : ℚ) (s : Session) :
    (on_number json x s).1 = 0 →
      nesting_depth (on_number json x s).2.state = nesting_depth s.state := by
  cases hs : s.state <;> simp only [on_number, hs] <;>
    repeat' (first
      | split
      | with_reducible exact parse_error_elim _ _ _
      | (intro _; simp only [nesting_depth, hs]))

theorem on_primitive_depth (json : LaxJsonContext) (type : LaxJsonType) (s : Session) :
    (on_primitive json type s).1 = 0 →
      nesting_depth (on_primitive json type s).2.state = nesting_depth s.state := by
  cases hs : s.state <;> cases type <;> simp only [on_primitive, hs] <;>
    repeat' (first
      | split
      | with_reducible exact parse_error_elim _ _ _
      | (intro _; simp only [nesting_depth, hs]))

theorem on_end_state (env : Env) (json : LaxJsonContext) (type : LaxJsonType) (s : Session)
    (h : (on_end env json type s).1 = 0) :
    (s.state = State.StateTopLevelProp ∧ (on_end env json type s).2.state = State.StateDone) ∨
    (s.state = State.StateImagePropName ∧
      (on_end env json type s).2.state = State.StateImageName) ∨
    (s.state = State.StateFilePropName ∧
      (on_end env json type s).2.state = State.StateFileName) ∨
    (s.state = State.StateImagePropAnchorObject ∧
      (on_end env json type s).2.state = State.StateImagePropName) ∨
    (s.state = State.StateImageName ∧
      (on_end env json type s).2.state = State.StateTextureProp) ∨
    (s.state = State.StateTextureProp ∧
      (on_end env json type s).2.state = State.StateTextureName) ∨
    (s.state = State.StateGlobObjectProp ∧
      (on_end env json type s).2.state = State.StateGlobObject) ∨
    ((s.state = State.StateTextureName ∨ s.state = State.StateGlobObject ∨
        s.state = State.StateFileName) ∧
      (on_end env json type s).2.state = State.StateTopLevelProp) := by
  revert h
  cases hs : s.state <;> simp only [on_end, hs] <;>
    repeat' (first
      | split
      | with_reducible exact parse_error_elim _ _ _
      | with_reducible exact crash_elim _
      | (intro h; exact absurd h (by assumption))
      | (intro _; simp))

theorem on_end_depth (env : Env) (json : LaxJsonContext) (type : LaxJsonType) (s : Session)
    (h : (on_end env json type s).1 = 0) :
    nesting_depth (on_end env json type s).2.state + 1 = nesting_depth s.state := by
  rcases on_end_state env json type s h with
    h | h | h | h | h | h | h | ⟨h | h | h, h'⟩ <;>
    first
    | (rw [h.1, h.2]; rfl)
    | (rw [h, h']; rfl)

theorem dispatch_depth (env : Env) (t : Token) (s : Session)
    (h : (dispatch env t s).1 = 0) :
    nesting_depth (dispatch env t s).2.state + endCount [t] =
      nesting_depth s.state + beginCount [t] := by
  cases t with
  | mk json event =>
    cases event with
    | string type value =>
      simpa [endCount, beginCount, Event.isEnd, Event.isBegin] using
        on_string_depth json type value s h
    | number x =>
      simpa [endCount, beginCount, Event.isEnd, Event.isBegin] using on_number_depth json x s h
    | primitive type =>
      simpa [endCount, beginCount, Event.isEnd, Event.isBegin] using
        on_primitive_depth json type s h
    | begin_ type =>
      simpa [endCount, beginCount, Event.isEnd, Event.isBegin] using on_begin_depth json type s h
    | end_ type =>
      simpa [endCount, beginCount, Event.isEnd, Event.isBegin] using
        on_end_depth env json type s h

theorem beginCount_cons (t : Token) (ts : List Token) :
    beginCount (t :: ts) = beginCount [t] + beginCount ts := by
  simp [beginCount, List.countP_cons, Nat.add_comm]

theorem endCount_cons (t : Token) (ts : List Token) :
    endCount (t :: ts) = endCount [t] + endCount ts := by
  simp [endCount, List.countP_cons, Nat.add_comm]

/-- Along a run of accepted events the depth of the position follows the begin
and end events. -/
theorem feed_depth (env : Env) (ts : List Token) :
    ∀ s : Session, (feed env ts s).1 = 0 →
      nesting_depth (feed env ts s).2.state + endCount ts =
        nesting_depth s.state + beginCount ts := by
  induction ts with
  | nil => exact fun s _ => rfl
  | cons t ts ih =>
    intro s h
    by_cases hok : (dispatch env t s).1 = 0
    · have hstep : feed env (t :: ts) s = feed env ts (dispatch env t s).2 := by
        simp only [feed, hok, ne_eq, not_true_eq_false, if_false]
      rw [hstep] at h ⊢
      have h1 := dispatch_depth env t s hok
      have h2 := ih _ h
      rw [beginCount_cons, endCount_cons]
      omega
    · rw [feed_fst_of_failed env t ts s hok] at h
      exact absurd h hok

theorem on_end_position (env : Env) (json : LaxJsonContext) (type : LaxJsonType) (s : Session)
    (h : (on_end env json type s).1 = 0) :
    (on_end env json type s).2.state = end_position s.state := by
  rcases on_end_state env json type s h with
    h | h | h | h | h | h | h | ⟨h | h | h, h'⟩ <;>
    first
    | (rw [h.1, h.2]; rfl)
    | (rw [h, h']; rfl)

/-- C22: with the nesting depth `nesting_depth` on the 29 positions of
`enum State`, the start and the done position have depth 0 and no position is
deeper than 6; an accepted begin event raises the depth by exactly 1, an
accepted end event lowers it by exactly 1, and an accepted string, number or
primitive leaves it unchanged. Hence a run of accepted events from the start
position to the done position has as many end events as begin events. The
position an accepted end event reaches is the same for any two sessions at the
same position, whatever the rest of the sessions, the bundle library and the
kind of container closed. -/
theorem C22_nesting_depth (env : Env) (json : LaxJsonContext) (s : Session) (ts : List Token) :
    (all_states.length = 29 ∧ all_states.Nodup ∧ ∀ st : State, st ∈ all_states) ∧
    nesting_depth State.StateStart = 0 ∧
    nesting_depth State.StateDone = 0 ∧
    (∀ st : State, nesting_depth st ≤ 6) ∧
    (∀ type, (on_begin json type s).1 = 0 →
      nesting_depth (on_begin json type s).2.state = nesting_depth s.state + 1) ∧
    (∀ type, (on_end env json type s).1 = 0 →
      nesting_depth (on_end env json type s).2.state + 1 = nesting_depth s.state) ∧
    (∀ type value, (on_string json type value s).1 = 0 →
      nesting_depth (on_string json type value s).2.state = nesting_depth s.state) ∧
    (∀ x, (on_number json x s).1 = 0 →
      nesting_depth (on_number json x s).2.state = nesting_depth s.state) ∧
    (∀ type, (on_primitive json type s).1 = 0 →
      nesting_depth (on_primitive json type s).2.state = nesting_depth s.state) ∧
    ((feed env ts s).1 = 0 → s.state = State.StateStart →
      (feed env ts s).2.state = State.StateDone → endCount ts = beginCount ts) ∧
    (∀ (env' : Env) (json' : LaxJsonContext) (type type' : LaxJsonType) (s' : Session),
      s'.state = s.state →
      (on_end env json type s).1 = 0 → (on_end env' json' type' s').1 = 0 →
      (on_end env' json' type' s').2.state = (on_end env json type s).2.state) := by
  refine ⟨⟨rfl, by decide, fun st => by cases st <;> decide⟩, rfl, rfl,
    fun st => by cases st <;> decide,
    fun type => on_begin_depth json type s,
    fun type => on_end_depth env json type s,
    fun type value => on_string_depth json type value s,
    fun x => on_number_depth json x s,
    fun type => on_primitive_depth json type s, ?_, ?_⟩
  · intro hok hstart hdone
    have h := feed_depth env ts s hok
    rw [hstart, hdone] at h
    simpa [nesting_depth] using h
  · intro env' json' type type' s' hsame h h'
    rw [on_end_position env json type s h, on_end_position env' json' type' s' h', hsame]

/-- C22, examples: the opening brace of the manifest takes the depth from 0 to
1 and its closing brace from 1 to 0; the key `textures`, the number 64 given as
`maxWidth` and `true` given as `pow2` leave the depth where it is; the complete
run of `demoManifest` has as many end events as begin events; and closing a file
entry reaches the file-name position whichever session, library and container
kind. -/
theorem C22_nesting_depth_witness :
    nesting_depth (on_begin ⟨1, 1⟩ LaxJsonType.Object (Session.init ".")).2.state =
      nesting_depth (Session.init ".").state + 1 ∧
    nesting_depth (on_end demoEnv ⟨9, 1⟩ LaxJsonType.Object topLevelSession).2.state + 1 =
      nesting_depth topLevelSession.state ∧
    nesting_depth
        (on_string ⟨1, 2⟩ LaxJsonType.Property "textures" topLevelSession).2.state =
      nesting_depth topLevelSession.state ∧
    nesting_depth (on_number ⟨3, 9⟩ 64 (textureSession State.StateTextureMaxWidth)).2.state =
      nesting_depth (textureSession State.StateTextureMaxWidth).state ∧
    nesting_depth
        (on_primitive ⟨3, 9⟩ LaxJsonType.True (textureSession State.StateTexturePow2)).2.state =
      nesting_depth (textureSession State.StateTexturePow2).state ∧
    endCount (tokensAt ⟨1, 1⟩ (manifestEvents demoManifest)) =
      beginCount (tokensAt ⟨1, 1⟩ (manifestEvents demoManifest)) ∧
    (on_end rejectImagesEnv ⟨7, 7⟩ LaxJsonType.Array
        { fileSession with file_path := some "./a.bin" }).2.state =
      (on_end demoEnv ⟨4, 1⟩ LaxJsonType.Object fileSession).2.state :=
  ⟨(C22_nesting_depth demoEnv ⟨1, 1⟩ (Session.init ".") []).2.2.2.2.1
      LaxJsonType.Object (by decide),
   (C22_nesting_depth demoEnv ⟨9, 1⟩ topLevelSession []).2.2.2.2.2.1
      LaxJsonType.Object (by decide),
   (C22_nesting_depth demoEnv ⟨1, 2⟩ topLevelSession []).2.2.2.2.2.2.1
      LaxJsonType.Property "textures" (by decide),
   (C22_nesting_depth demoEnv ⟨3, 9⟩ (textureSession State.StateTextureMaxWidth)
      []).2.2.2.2.2.2.2.1 64 (by decide),
   (C22_nesting_depth demoEnv ⟨3, 9⟩ (textureSession State.StateTexturePow2)
      []).2.2.2.2.2.2.2.2.1 LaxJsonType.True (by decide),
   (C22_nesting_depth demoEnv ⟨1, 1⟩ (Session.init "assets")
      (tokensAt ⟨1, 1⟩ (manifestEvents demoManifest))).2.2.2.2.2.2.2.2.2.1
      (by decide) rfl (by decide),
   (C22_nesting_depth demoEnv ⟨4, 1⟩ fileSession []).2.2.2.2.2.2.2.2.2.2
      rejectImagesEnv ⟨7, 7⟩ LaxJsonType.Object LaxJsonType.Array
      { fileSession with file_path := some "./a.bin" } rfl (by decide) (by decide)⟩

/-! ## C23: the drafts and the position -/

theorem on_string_drafts (json : LaxJsonContext) (type : LaxJsonType) (value : String)
    (s : Session) (h : DraftsFollowPosition s) :
    (on_string json type value s).1 = 0 → DraftsFollowPosition (on_string json type value s).2 := by
  obtain ⟨h1, h2, h3, h4, h5, h6⟩ := h
  cases hs : s.state <;> simp only [on_string, hs] <;>
    repeat' (first
      | split
      | with_reducible exact parse_error_elim _ _ _
      | (intro _
         constructor <;>
           simp_all [in_texture_entry, in_image_entry, in_file_entry]))

theorem on_number_drafts (json : LaxJsonContext) (x : ℚ) (s : Session)
    (h : DraftsFollowPosition s) :
    (on_number json x s).1 = 0 → DraftsFollowPosition (on_number json x s).2 := by
  obtain ⟨h1, h2, h3, h4, h5, h6⟩ := h
  cases hs : s.state <;> simp only [on_number, hs] <;>
    repeat' (first
      | (split_ifs with hx <;> clear hx)
      | split
      | with_reducible exact parse_error_elim _ _ _
      | with_reducible exact crash_elim _
      | (intro _
         constructor <;>
           simp_all [in_texture_entry, in_image_entry, in_file_entry]))

theorem on_primitive_drafts (json : LaxJsonContext) (type : LaxJsonType) (s : Session)
    (h : DraftsFollowPosition s) :
    (on_primitive json type s).1 = 0 → DraftsFollowPosition (on_primitive json type s).2 := by
  obtain ⟨h1, h2, h3, h4, h5, h6⟩ := h
  cases hs : s.state <;> cases type <;> simp only [on_primitive, hs] <;>
    repeat' (first
      | split
      | with_reducible exact parse_error_elim _ _ _
      | with_reducible exact crash_elim _
      | (intro _
         constructor <;>
           simp_all [in_texture_entry, in_image_entry, in_file_entry]))

theorem on_begin_drafts (json : LaxJsonContext) (type : LaxJsonType) (s : Session)
    (h : DraftsFollowPosition s) :
    (on_begin json type s).1 = 0 → DraftsFollowPosition (on_begin json type s).2 := by
  obtain ⟨h1, h2, h3, h4, h5, h6⟩ := h
  cases hs : s.state <;> simp only [on_begin, hs] <;>
    repeat' (first
      | split
      | with_reducible exact parse_error_elim _ _ _
      | with_reducible exact crash_elim _
      | (intro _
         constructor <;>
           simp_all [in_texture_entry, in_image_entry, in_file_entry]))

/-- Whether it succeeds or fails, the loop of `glob_insert_files` leaves the
position, the root prefix and every draft variable as they were. -/
theorem glob_insert_loop_kept (env : Env) (json : LaxJsonContext) (matches_ : List String) :
    ∀ s : Session, SameDrafts s (glob_insert_loop env json matches_ s).2 := by
  induction matches_ with
  | nil => exact fun s => sameDrafts_refl s
  | cons path rest ih =>
    intro s
    by_cases hok : (glob_insert_loop env json (path :: rest) s).1 = 0
    · revert hok
      cases hst : env.stat path with
      | failed =>
        simp only [glob_insert_loop, hst]
        exact parse_error_elim _ _ _
      | directory =>
        simp only [glob_insert_loop, hst]
        exact fun _ => ih s
      | other =>
        cases hp : Session.glob_prefix s with
        | none =>
          simp only [glob_insert_loop, hst, hp]
          intro h
          simp at h
        | some keyPrefix =>
          simp only [glob_insert_loop, hst, hp]
          split
          · exact parse_error_elim _ _ _
          · intro _
            have := ih
              { s with
                strbuf := glob_key keyPrefix ( Session.path_prefix s) path
                glob_prefix := some keyPrefix
                calls := s.calls ++
                  [Action.addFile (some (glob_key keyPrefix ( Session.path_prefix s) path))
                    (some path)] }
            exact ⟨this.state, this.page, this.page_key, this.image, this.image_key,
              this.file_key, this.file_path, this.glob_glob, this.globPrefix.trans hp.symm,
              this.root⟩
    · exact glob_insert_loop_failed env json (path :: rest) s hok

theorem glob_insert_files_kept (env : Env) (json : LaxJsonContext) (s : Session) :
    SameDrafts s (glob_insert_files env json s).2 := by
  by_cases hok : (glob_insert_files env json s).1 = 0
  · revert hok
    cases hg : s.glob_glob with
    | none =>
      simp only [glob_insert_files, hg]
      intro h
      simp at h
    | some pattern =>
      cases hm : env.glob pattern with
      | GLOB_NOSPACE => simp only [glob_insert_files, hg, hm]; exact parse_error_elim _ _ _
      | GLOB_ABORTED => simp only [glob_insert_files, hg, hm]; exact parse_error_elim _ _ _
      | GLOB_NOMATCH => simp only [glob_insert_files, hg, hm]; exact parse_error_elim _ _ _
      | «matches» gl_pathv =>
        simp only [glob_insert_files, hg, hm]
        exact fun _ => glob_insert_loop_kept env json gl_pathv s
  · exact glob_insert_files_failed env json s hok

theorem on_end_drafts (env : Env) (json : LaxJsonContext) (type : LaxJsonType) (s : Session)
    (h : DraftsFollowPosition s) :
    (on_end env json type s).1 = 0 → DraftsFollowPosition (on_end env json type s).2 := by
  have hk := glob_insert_files_kept env json s
  obtain ⟨k1, k2, k3, k4, k5, k6, k7, k8, k9, k10⟩ := hk
  obtain ⟨h1, h2, h3, h4, h5, h6⟩ := h
  cases hs : s.state <;> simp only [on_end, hs] <;>
    repeat' (first
      | split
      | with_reducible exact parse_error_elim _ _ _
      | with_reducible exact crash_elim _
      | (intro h; exact absurd h (by assumption))
      | (intro _
         constructor <;>
           simp_all [in_texture_entry, in_image_entry, in_file_entry]))

theorem dispatch_drafts (env : Env) (t : Token) (s : Session) (h : DraftsFollowPosition s) :
    (dispatch env t s).1 = 0 → DraftsFollowPosition (dispatch env t s).2 := by
  cases t with
  | mk json event =>
    cases event with
    | string type value => exact on_string_drafts json type value s h
    | number x => exact on_number_drafts json x s h
    | primitive type => exact on_primitive_drafts json type s h
    | begin_ type => exact on_begin_drafts json type s h
    | end_ type => exact on_end_drafts env json type s h

theorem feed_drafts (env : Env) (ts : List Token) :
    ∀ s : Session, DraftsFollowPosition s → (feed env ts s).1 = 0 →
      DraftsFollowPosition (feed env ts s).2 := by
  induction ts with
  | nil => exact fun s h _ => h
  | cons t ts ih =>
    intro s hinv h
    by_cases hok : (dispatch env t s).1 = 0
    · have hstep : feed env (t :: ts) s = feed env ts (dispatch env t s).2 := by
        simp only [feed, hok, ne_eq, not_true_eq_false, if_false]
      rw [hstep] at h ⊢
      exact ih _ (dispatch_drafts env t s hinv hok) h
    · rw [feed_fst_of_failed env t ts s hok] at h
      exact absurd h hok

theorem on_string_globs (json : LaxJsonContext) (type : LaxJsonType) (value : String)
    (s : Session) :
    (on_string json type value s).1 = 0 →
      ((on_string json type value s).2.glob_glob = s.glob_glob ∧
        Session.glob_prefix (on_string json type value s).2 = Session.glob_prefix s) ∨
      (on_string json type value s).2.state = State.StateGlobObjectProp := by
  cases hs : s.state <;> simp only [on_string, hs] <;>
    repeat' (first
      | split
      | with_reducible exact parse_error_elim _ _ _
      | (intro _; simp))

theorem on_number_globs (json : LaxJsonContext) (x : ℚ) (s : Session) :
    (on_number json x s).1 = 0 →
      (on_number json x s).2.glob_glob = s.glob_glob ∧
        Session.glob_prefix (on_number json x s).2 = Session.glob_prefix s := by
  cases hs : s.state <;> simp only [on_number, hs] <;>
    repeat' (first
      | split
      | with_reducible exact parse_error_elim _ _ _
      | with_reducible exact crash_elim _
      | (intro _; simp))

theorem on_primitive_globs (json : LaxJsonContext) (type : LaxJsonType) (s : Session) :
    (on_primitive json type s).1 = 0 →
      (on_primitive json type s).2.glob_glob = s.glob_glob ∧
        Session.glob_prefix (on_primitive json type s).2 = Session.glob_prefix s := by
  cases hs : s.state <;> cases type <;> simp only [on_primitive, hs] <;>
    repeat' (first
      | split
      | with_reducible exact parse_error_elim _ _ _
      | with_reducible exact crash_elim _
      | (intro _; simp))

theorem on_begin_globs (json : LaxJsonContext) (type : LaxJsonType) (s : Session) :
    (on_begin json type s).1 = 0 →
      ((on_begin json type s).2.glob_glob = s.glob_glob ∧
        Session.glob_prefix (on_begin json type s).2 = Session.glob_prefix s) ∨
      (on_begin json type s).2.state = State.StateGlobObjectProp := by
  cases hs : s.state <;> simp only [on_begin, hs] <;>
    repeat' (first
      | split
      | with_reducible exact parse_error_elim _ _ _
      | with_reducible exact crash_elim _
      | (intro _; simp))

/-- An accepted end event leaves the two glob variables as they were: closing a
glob entry does not clear them. -/
theorem on_end_globs (env : Env) (json : LaxJsonContext) (type : LaxJsonType) (s : Session) :
    (on_end env json type s).1 = 0 →
      (on_end env json type s).2.glob_glob = s.glob_glob ∧
        Session.glob_prefix (on_end env json type s).2 = Session.glob_prefix s := by
  have hk := glob_insert_files_kept env json s
  cases hs : s.state <;> simp only [on_end, hs] <;>
    repeat' (first
      | split
      | with_reducible exact parse_error_elim _ _ _
      | with_reducible exact crash_elim _
      | (intro h; exact absurd h (by assumption))
      | exact fun _ => ⟨hk.glob_glob, hk.globPrefix⟩
      | (intro _; simp))

theorem dispatch_globs (env : Env) (t : Token) (s : Session) :
    (dispatch env t s).1 = 0 →
      ((dispatch env t s).2.glob_glob = s.glob_glob ∧
        Session.glob_prefix (dispatch env t s).2 = Session.glob_prefix s) ∨
      (dispatch env t s).2.state = State.StateGlobObjectProp := by
  cases t with
  | mk json event =>
    cases event with
    | string type value => exact on_string_globs json type value s
    | number x => exact fun h => Or.inl (on_number_globs json x s h)
    | primitive type => exact fun h => Or.inl (on_primitive_globs json type s h)
    | begin_ type => exact on_begin_globs json type s
    | end_ type => exact fun h => Or.inl (on_end_globs env json type s h)

theorem init_drafts (root : String) : DraftsFollowPosition (Session.init root) :=
  ⟨rfl, rfl, rfl, fun h => Bool.noConfusion h, rfl, fun h => Bool.noConfusion h⟩

/-- C23, counterexample: after the manifest
`{globFiles: [{glob: "*", prefix: "icons/"}]}`, every event of which is
accepted, the two glob variables are still set at the done position, and so
they are at the top-level-property position before the last brace and at the
array position before the closing bracket. -/
theorem C23_counterexample :
    (feed demoEnv (tokensAt ⟨1, 1⟩ (manifestEvents globOnlyManifest))
      (Session.init "assets")).1 = 0 ∧
    (feed demoEnv (tokensAt ⟨1, 1⟩ (manifestEvents globOnlyManifest))
      (Session.init "assets")).2.state = State.StateDone ∧
    (feed demoEnv (tokensAt ⟨1, 1⟩ (manifestEvents globOnlyManifest))
      (Session.init "assets")).2.glob_glob = some "assets/*" ∧
    Session.glob_prefix (feed demoEnv (tokensAt ⟨1, 1⟩ (manifestEvents globOnlyManifest))
      (Session.init "assets")).2 = some "icons/" ∧
    (feed demoEnv (tokensAt ⟨1, 1⟩ (manifestEvents globOnlyManifest).dropLast)
      (Session.init "assets")).1 = 0 ∧
    (feed demoEnv (tokensAt ⟨1, 1⟩ (manifestEvents globOnlyManifest).dropLast)
      (Session.init "assets")).2.state = State.StateTopLevelProp ∧
    (feed demoEnv (tokensAt ⟨1, 1⟩ (manifestEvents globOnlyManifest).dropLast)
      (Session.init "assets")).2.glob_glob = some "assets/*" ∧
    (feed demoEnv (tokensAt ⟨1, 1⟩ oneGlobEntryEvents) (Session.init "assets")).1 = 0 ∧
    (feed demoEnv (tokensAt ⟨1, 1⟩ oneGlobEntryEvents) (Session.init "assets")).2.state =
      State.StateGlobObject ∧
    in_glob_entry State.StateGlobObject = false ∧
    (feed demoEnv (tokensAt ⟨1, 1⟩ oneGlobEntryEvents) (Session.init "assets")).2.glob_glob =
      some "assets/*" := by
  decide

/-- C23, amended: in every session reached from the initial one by accepted
events, the page draft and its key are non-null exactly at the positions inside
a texture entry, the image key exactly inside an image entry and the file key
exactly inside a file entry; an image path or a file path is non-null only
inside an image entry or a file entry; so none of these is set at the
top-level-property or the done position. The two glob variables are different:
an accepted event changes one of them only if it leads to a position inside a
glob entry (the opening brace of the entry clears them, its fields set them),
and no end event changes them, so that they keep their values after the entry
closes. -/
theorem C23_draft_lifetime (env : Env) (root : String) (ts : List Token) (r : Session)
    (hrun : feed env ts (Session.init root) = (0, r)) :
    (r.page ≠ none ↔ in_texture_entry r.state = true) ∧
    (r.page_key ≠ none ↔ in_texture_entry r.state = true) ∧
    (r.image_key ≠ none ↔ in_image_entry r.state = true) ∧
    (r.image.path ≠ none → in_image_entry r.state = true) ∧
    (r.file_key ≠ none ↔ in_file_entry r.state = true) ∧
    (r.file_path ≠ none → in_file_entry r.state = true) ∧
    (r.state = State.StateTopLevelProp ∨ r.state = State.StateDone →
      r.page = none ∧ r.page_key = none ∧ r.image_key = none ∧ r.image.path = none ∧
      r.file_key = none ∧ r.file_path = none) ∧
    (∀ t : Token, (dispatch env t r).1 = 0 →
      (dispatch env t r).2.glob_glob ≠ r.glob_glob ∨
        Session.glob_prefix (dispatch env t r).2 ≠ Session.glob_prefix r →
      in_glob_entry (dispatch env t r).2.state = true) ∧
    (∀ json type, (on_end env json type r).1 = 0 →
      (on_end env json type r).2.glob_glob = r.glob_glob ∧
      Session.glob_prefix (on_end env json type r).2 = Session.glob_prefix r) := by
  have hinv : DraftsFollowPosition r := by
    have h := feed_drafts env ts (Session.init root) (init_drafts root) (by rw [hrun])
    rw [hrun] at h
    exact h
  obtain ⟨h1, h2, h3, h4, h5, h6⟩ := hinv
  refine ⟨?_, ?_, ?_, ?_, ?_, ?_, ?_, ?_, ?_⟩
  · rw [← h1, Option.ne_none_iff_isSome]
  · rw [← h2, Option.ne_none_iff_isSome]
  · rw [← h3, Option.ne_none_iff_isSome]
  · intro h
    exact h4 (Option.ne_none_iff_isSome.1 h)
  · rw [← h5, Option.ne_none_iff_isSome]
  · intro h
    exact h6 (Option.ne_none_iff_isSome.1 h)
  · intro hpos
    have ht : in_texture_entry r.state = false := by rcases hpos with h | h <;> rw [h] <;> rfl
    have hi : in_image_entry r.state = false := by rcases hpos with h | h <;> rw [h] <;> rfl
    have hf : in_file_entry r.state = false := by rcases hpos with h | h <;> rw [h] <;> rfl
    rw [ht] at h1 h2
    rw [hi] at h3 h4
    rw [hf] at h5 h6
    refine ⟨?_, ?_, ?_, ?_, ?_, ?_⟩
    · simpa using h1
    · simpa using h2
    · simpa using h3
    · simpa using h4
    · simpa using h5
    · simpa using h6
  · intro t hok hchange
    rcases dispatch_globs env t r hok with ⟨hg, hp⟩ | hstate
    · rcases hchange with h | h
      · exact absurd hg h
      · exact absurd hp h
    · rw [hstate]
      rfl
  · exact fun json type => on_end_globs env json type r

/-- C23, examples. Inside the third image entry of `twoImagesThenError` the page
draft and the image key are set and the file key is not. After the close of a
glob entry, the opening brace of the next entry clears the glob pattern, which
leads into the entry; and the close of a glob entry whose fields are read keeps
the pattern. -/
theorem C23_draft_lifetime_witness :
    (feed demoEnv (tokensAt ⟨1, 1⟩ twoImagesThenError.dropLast) (Session.init ".")).2.page ≠
      none ∧
    (feed demoEnv (tokensAt ⟨1, 1⟩ twoImagesThenError.dropLast)
      (Session.init ".")).2.image_key ≠ none ∧
    ¬ (feed demoEnv (tokensAt ⟨1, 1⟩ twoImagesThenError.dropLast)
      (Session.init ".")).2.file_key ≠ none ∧
    in_glob_entry (dispatch demoEnv ⟨⟨2, 1⟩, beginObject⟩
      (feed demoEnv (tokensAt ⟨1, 1⟩ oneGlobEntryEvents) (Session.init "assets")).2).2.state =
        true ∧
    (on_end demoEnv ⟨1, 9⟩ LaxJsonType.Object
      (feed demoEnv (tokensAt ⟨1, 1⟩ openGlobEntryEvents) (Session.init "assets")).2).2.glob_glob =
      (feed demoEnv (tokensAt ⟨1, 1⟩ openGlobEntryEvents) (Session.init "assets")).2.glob_glob :=
  have h1 := C23_draft_lifetime demoEnv "." (tokensAt ⟨1, 1⟩ twoImagesThenError.dropLast)
    (feed demoEnv (tokensAt ⟨1, 1⟩ twoImagesThenError.dropLast) (Session.init ".")).2
    (by decide)
  have h2 := C23_draft_lifetime demoEnv "assets" (tokensAt ⟨1, 1⟩ oneGlobEntryEvents)
    (feed demoEnv (tokensAt ⟨1, 1⟩ oneGlobEntryEvents) (Session.init "assets")).2 (by decide)
  have h3 := C23_draft_lifetime demoEnv "assets" (tokensAt ⟨1, 1⟩ openGlobEntryEvents)
    (feed demoEnv (tokensAt ⟨1, 1⟩ openGlobEntryEvents) (Session.init "assets")).2 (by decide)
  ⟨h1.1.2 (by decide), h1.2.2.1.2 (by decide),
   fun h => absurd (h1.2.2.2.2.1.1 h) (by decide),
   h2.2.2.2.2.2.2.2.1 ⟨⟨2, 1⟩, beginObject⟩ (by decide) (Or.inl (by decide)),
   (h3.2.2.2.2.2.2.2.2 ⟨1, 9⟩ LaxJsonType.Object (by decide)).1⟩

/-! ## C21: the page of a texture entry -/

/-- C21, counterexample: the page of a texture entry can carry a number from
the entry before it. In `staleAnchorManifest X` the image `b` of the texture `u`
has an anchor object without numbers; every event is accepted, and the page
passed to the last `addPage`, under the key `u`, holds `b` anchored at the `x`
of the image `a` of the texture `t`: at 3 when `X` is 3 and at 7 when `X` is 7. -/
theorem C21_counterexample :
    (feed demoEnv (tokensAt ⟨1, 1⟩ (manifestEvents (staleAnchorManifest 3)))
      (Session.init ".")).1 = 0 ∧
    (feed demoEnv (tokensAt ⟨1, 1⟩ (manifestEvents (staleAnchorManifest 3)))
      (Session.init ".")).2.calls.getLast? =
      some (Action.addPage (some "u") (some
        { max_width := none, max_height := none, pow2 := none
          images := [(some "b",
            { path := some "./b.png", anchor := RuckSackAnchor.Explicit
              anchor_x := 3, anchor_y := 0 })] })) ∧
    (feed demoEnv (tokensAt ⟨1, 1⟩ (manifestEvents (staleAnchorManifest 7)))
      (Session.init ".")).1 = 0 ∧
    (feed demoEnv (tokensAt ⟨1, 1⟩ (manifestEvents (staleAnchorManifest 7)))
      (Session.init ".")).2.calls.getLast? =
      some (Action.addPage (some "u") (some
        { max_width := none, max_height := none, pow2 := none
          images := [(some "b",
            { path := some "./b.png", anchor := RuckSackAnchor.Explicit
              anchor_x := 7, anchor_y := 0 })] })) := by
  decide

theorem feed_cons_accepted (env : Env) (t : Token) (rest : List Token) (s : Session)
    (hok : (feed env (t :: rest) s).1 = 0) :
    (dispatch env t s).1 = 0 ∧ feed env (t :: rest) s = feed env rest (dispatch env t s).2 := by
  by_cases h : (dispatch env t s).1 = 0
  · exact ⟨h, by simp only [feed, h, ne_eq, not_true_eq_false, if_false]⟩
  · rw [feed_fst_of_failed env t rest s h] at hok
    exact absurd hok h

theorem feed_anchor_point_props_kept (env : Env) (json : LaxJsonContext) (rest : List Token)
    (props : List AnchorPointProp) :
    ∀ s : Session, s.state = State.StateImagePropAnchorObject →
      ∃ ax, feed env (tokensAt json (props.flatMap anchorPointPropEvents) ++ rest) s =
        feed env rest { s with image := { s.image with anchor_x := ax } } := by
  induction props with
  | nil => exact fun s _ => ⟨s.image.anchor_x, rfl⟩
  | cons prop props ih =>
    intro s hs
    have h1 : ∀ (name : String) (value : ℚ) (hname : name = "x" ∨ name = "y"),
        feed env (tokensAt json [propertyName name, Event.number value] ++
          (tokensAt json (props.flatMap anchorPointPropEvents) ++ rest)) s =
        feed env (tokensAt json (props.flatMap anchorPointPropEvents) ++ rest)
          { s with image := { s.image with anchor_x := value } } := by
      intro name value hname
      simp only [tokensAt_cons, tokensAt_nil, propertyName,
        List.cons_append, List.nil_append, feed, dispatch]
      rcases hname with h | h <;> subst h <;> simp [on_string, on_number, hs]
    cases prop with
    | x value =>
      obtain ⟨ax, h2⟩ := ih { s with image := { s.image with anchor_x := value } } hs
      exact ⟨ax, by
        rw [List.flatMap_cons, tokensAt_append, List.append_assoc, anchorPointPropEvents,
          h1 "x" value (Or.inl rfl), h2]⟩
    | y value =>
      obtain ⟨ax, h2⟩ := ih { s with image := { s.image with anchor_x := value } } hs
      exact ⟨ax, by
        rw [List.flatMap_cons, tokensAt_append, List.append_assoc, anchorPointPropEvents,
          h1 "y" value (Or.inr rfl), h2]⟩

theorem on_string_anchor_value (json : LaxJsonContext) (type : LaxJsonType) (value : String)
    (s : Session) (hs : s.state = State.StateImagePropAnchor)
    (hok : (on_string json type value s).1 = 0) :
    ∃ a, anchor_of_name value = some a ∧
      on_string json type value s =
        (0, { s with image := { s.image with anchor := a }, state := State.StateImagePropName }) := by
  by_cases h1 : value = "top"
  · subst h1
    exact ⟨RuckSackAnchor.Top, by decide, by simp [on_string, hs]⟩
  by_cases h2 : value = "right"
  · subst h2
    exact ⟨RuckSackAnchor.Right, by decide, by simp [on_string, hs]⟩
  by_cases h3 : value = "bottom"
  · subst h3
    exact ⟨RuckSackAnchor.Bottom, by decide, by simp [on_string, hs]⟩
  by_cases h4 : value = "left"
  · subst h4
    exact ⟨RuckSackAnchor.Left, by decide, by simp [on_string, hs]⟩
  by_cases h5 : value = "topleft"
  · subst h5
    exact ⟨RuckSackAnchor.TopLeft, by decide, by simp [on_string, hs]⟩
  by_cases h6 : value = "topright"
  · subst h6
    exact ⟨RuckSackAnchor.TopRight, by decide, by simp [on_string, hs]⟩
  by_cases h7 : value = "bottomleft"
  · subst h7
    exact ⟨RuckSackAnchor.BottomLeft, by decide, by simp [on_string, hs]⟩
  by_cases h8 : value = "bottomright"
  · subst h8
    exact ⟨RuckSackAnchor.BottomRight, by decide, by simp [on_string, hs]⟩
  by_cases h9 : value = "center"
  · subst h9
    exact ⟨RuckSackAnchor.Center, by decide, by simp [on_string, hs]⟩
  exfalso
  revert hok
  simp [on_string, hs, h1, h2, h3, h4, h5, h6, h7, h8, h9, parse_error_fst]

theorem feed_image_prop_given (env : Env) (json : LaxJsonContext) (prop : ImageProp)
    (rest : List Token) (s : Session) (hs : s.state = State.StateImagePropName)
    (hok : (feed env (tokensAt json (imagePropEvents prop) ++ rest) s).1 = 0) :
    ∃ ax, feed env (tokensAt json (imagePropEvents prop) ++ rest) s =
      feed env rest
        { s with image :=
          { path := image_path_given ( Session.path_prefix s) s.image.path prop
            anchor := image_anchor_given s.image.anchor prop
            anchor_x := ax
            anchor_y := s.image.anchor_y } } := by
  cases prop with
  | path value => exact ⟨s.image.anchor_x, feed_image_path env json value rest s hs⟩
  | anchor value =>
    cases value with
    | name value =>
      have h0 : on_string json LaxJsonType.Property "anchor" s =
          (0, { s with state := State.StateImagePropAnchor }) := by
        simp [on_string, hs]
      have hshape : tokensAt json (imagePropEvents (ImageProp.anchor (AnchorValue.name value)))
          ++ rest = ⟨json, propertyName "anchor"⟩ :: ⟨json, stringValue value⟩ :: rest := rfl
      rw [hshape] at hok ⊢
      have hstep : ∀ ts, feed env (⟨json, propertyName "anchor"⟩ :: ts) s =
          feed env ts { s with state := State.StateImagePropAnchor } := by
        intro ts
        simp only [feed, dispatch, propertyName, h0, ne_eq, not_true_eq_false, if_false]
      rw [hstep] at hok ⊢
      obtain ⟨hacc, hnext⟩ := feed_cons_accepted env _ _ _ hok
      obtain ⟨a, ha, hval⟩ := on_string_anchor_value json LaxJsonType.String value
        { s with state := State.StateImagePropAnchor } rfl hacc
      refine ⟨s.image.anchor_x, ?_⟩
      rw [hnext]
      simp only [dispatch, stringValue, hval, image_path_given, image_anchor_given, ha,
        Option.getD_some]
      simp [hs]
    | point props =>
      obtain ⟨ax, h⟩ := feed_anchor_point_props_kept env json
        (tokensAt json [endObject] ++ rest) props
        { s with
          state := State.StateImagePropAnchorObject
          image := { s.image with anchor := RuckSackAnchor.Explicit } } rfl
      refine ⟨ax, ?_⟩
      have hopen : ∀ rest', feed env
          (tokensAt json [propertyName "anchor", beginObject] ++ rest') s =
          feed env rest'
            { s with
              state := State.StateImagePropAnchorObject
              image := { s.image with anchor := RuckSackAnchor.Explicit } } := by
        intro rest'
        simp only [tokensAt_cons, tokensAt_nil, propertyName, beginObject,
          List.cons_append, List.nil_append, feed, dispatch]
        simp [on_string, on_begin, hs]
      have hclose : ∀ image, feed env (tokensAt json [endObject] ++ rest)
          { s with state := State.StateImagePropAnchorObject, image := image } =
          feed env rest { s with image := image } := by
        intro image
        simp only [tokensAt_cons, tokensAt_nil, endObject,
          List.cons_append, List.nil_append, feed, dispatch]
        simp [on_end, hs]
      have hshape : tokensAt json (imagePropEvents (ImageProp.anchor (AnchorValue.point props)))
          ++ rest = tokensAt json [propertyName "anchor", beginObject] ++
            (tokensAt json (props.flatMap anchorPointPropEvents) ++
              (tokensAt json [endObject] ++ rest)) := by
        simp only [imagePropEvents, anchorValueEvents, tokensAt_append, tokensAt_cons,
          tokensAt_nil, List.append_assoc, List.cons_append, List.nil_append]
      rw [hshape, hopen, h]
      exact hclose _

theorem feed_image_props_given (env : Env) (json : LaxJsonContext) (rest : List Token)
    (props : List ImageProp) :
    ∀ s : Session, s.state = State.StateImagePropName →
      (feed env (tokensAt json (props.flatMap imagePropEvents) ++ rest) s).1 = 0 →
      ∃ ax, feed env (tokensAt json (props.flatMap imagePropEvents) ++ rest) s =
        feed env rest
          { s with image :=
            { path := props.foldl (image_path_given ( Session.path_prefix s)) s.image.path
              anchor := props.foldl image_anchor_given s.image.anchor
              anchor_x := ax
              anchor_y := s.image.anchor_y } } := by
  induction props with
  | nil => exact fun s _ _ => ⟨s.image.anchor_x, rfl⟩
  | cons prop props ih =>
    intro s hs hok
    rw [List.flatMap_cons, tokensAt_append, List.append_assoc] at hok ⊢
    obtain ⟨ax, h1⟩ := feed_image_prop_given env json prop _ s hs hok
    rw [h1] at hok ⊢
    obtain ⟨ax', h2⟩ := ih
      { s with image :=
        { path := image_path_given ( Session.path_prefix s) s.image.path prop
          anchor := image_anchor_given s.image.anchor prop
          anchor_x := ax
          anchor_y := s.image.anchor_y } } hs hok
    exact ⟨ax', by rw [h2]; rfl⟩

theorem feed_image_entry_given (env : Env) (json : LaxJsonContext) (rest : List Token)
    (entry : String × List ImageProp) (s : Session) (page : RuckSackPage)
    (hs : s.state = State.StateImageName) (hpage : s.page = some page)
    (hlib : ∀ calls key image, env.rucksack_page_add_image calls key image = 0)
    (hok : (feed env (tokensAt json (imageEntryEvents entry) ++ rest) s).1 = 0) :
    ∃ image : RuckSackImage,
      image.path = spec_image_path ( Session.path_prefix s) entry.2 ∧
      image.anchor = spec_image_anchor entry.2 ∧
      feed env (tokensAt json (imageEntryEvents entry) ++ rest) s =
        feed env rest
          { s with
            calls := s.calls ++ [Action.addImage (some entry.1) image]
            page := some { page with images := page.images ++ [(some entry.1, image)] }
            image := { image with path := none }
            image_key := none
            state := State.StateImageName } := by
  have hshape : tokensAt json (imageEntryEvents entry) ++ rest =
      tokensAt json [propertyName entry.1, beginObject] ++
        (tokensAt json (entry.2.flatMap imagePropEvents) ++
          (tokensAt json [endObject] ++ rest)) := by
    simp only [imageEntryEvents, tokensAt_append, List.append_assoc]
  rw [hshape, feed_image_open env json entry.1 _ s hs] at hok ⊢
  obtain ⟨ax, hprops⟩ := feed_image_props_given env json (tokensAt json [endObject] ++ rest)
    entry.2
    { s with
      image := { s.image with anchor := RuckSackAnchor.Center, path := none }
      image_key := some entry.1
      state := State.StateImagePropName } rfl hok
  have hclose := feed_image_close env json page rest
    { s with
      image :=
        { path := spec_image_path ( Session.path_prefix s) entry.2
          anchor := spec_image_anchor entry.2
          anchor_x := ax
          anchor_y := s.image.anchor_y }
      image_key := some entry.1
      state := State.StateImagePropName } rfl hpage
  refine ⟨{ path := spec_image_path ( Session.path_prefix s) entry.2
            anchor := spec_image_anchor entry.2
            anchor_x := ax
            anchor_y := s.image.anchor_y }, rfl, rfl, hprops.trans (hclose.trans ?_)⟩
  simp [rucksack_page_add_image, hlib]

theorem feed_image_entries_given (env : Env) (json : LaxJsonContext) (rest : List Token)
    (hlib : ∀ calls key image, env.rucksack_page_add_image calls key image = 0)
    (entries : List (String × List ImageProp)) :
    ∀ (s : Session) (page : RuckSackPage), s.state = State.StateImageName →
      s.page = some page →
      (feed env (tokensAt json (entries.flatMap imageEntryEvents) ++ rest) s).1 = 0 →
      ∃ (images : List (Option String × RuckSackImage)) (s' : Session),
        images.map image_summary =
          entries.map (fun e =>
            (some e.1, spec_image_path ( Session.path_prefix s) e.2, spec_image_anchor e.2)) ∧
        s'.state = State.StateImageName ∧
        s'.page = some { page with images := page.images ++ images } ∧
        s'.page_key = s.page_key ∧
        Session.path_prefix s' = Session.path_prefix s ∧
        s'.calls = s.calls ++ images.map (fun e => Action.addImage e.1 e.2) ∧
        feed env (tokensAt json (entries.flatMap imageEntryEvents) ++ rest) s =
          feed env rest s' := by
  induction entries with
  | nil =>
    intro s page hs hpage _
    exact ⟨[], s, rfl, hs, by simpa using hpage, rfl, rfl, by simp, rfl⟩
  | cons entry entries ih =>
    intro s page hs hpage hok
    have hshape : tokensAt json ((entry :: entries).flatMap imageEntryEvents) ++ rest =
        tokensAt json (imageEntryEvents entry) ++
          (tokensAt json (entries.flatMap imageEntryEvents) ++ rest) := by
      rw [List.flatMap_cons, tokensAt_append, List.append_assoc]
    rw [hshape] at hok ⊢
    obtain ⟨image, hpath, hanchor, h1⟩ :=
      feed_image_entry_given env json _ entry s page hs hpage hlib hok
    rw [h1] at hok ⊢
    obtain ⟨images, s', hsum, hs', hpage', hkey', hroot', hcalls', h2⟩ := ih
      { s with
        calls := s.calls ++ [Action.addImage (some entry.1) image]
        page := some { page with images := page.images ++ [(some entry.1, image)] }
        image := { image with path := none }
        image_key := none
        state := State.StateImageName }
      { page with images := page.images ++ [(some entry.1, image)] } rfl rfl hok
    refine ⟨(some entry.1, image) :: images, s', ?_, hs', ?_, hkey', hroot', ?_, h2⟩
    · simp only [List.map_cons, hsum, image_summary, hpath, hanchor]
    · rw [hpage']
      simp
    · rw [hcalls']
      simp

theorem on_number_size_accepted (json : LaxJsonContext) (value : Int) (s : Session)
    (hs : s.state = State.StateTextureMaxWidth ∨ s.state = State.StateTextureMaxHeight)
    (hok : (on_number json (value : ℚ) s).1 = 0) : double_to_int (value : ℚ) = value := by
  have hx : ¬ ((value : ℚ) ≠ ((double_to_int (value : ℚ) : Int) : ℚ)) := by
    intro hne
    revert hok
    rcases hs with hs | hs <;> simp only [on_number, hs] <;> rw [if_pos hne] <;>
      exact parse_error_elim _ _ _
  exact (Int.cast_injective (not_not.1 hx)).symm

theorem feed_texture_prop_given (env : Env) (json : LaxJsonContext) (rest : List Token)
    (hlib : ∀ calls key image, env.rucksack_page_add_image calls key image = 0)
    (prop : TextureProp) (s : Session) (page : RuckSackPage)
    (hs : s.state = State.StateTextureProp) (hpage : s.page = some page)
    (hok : (feed env (tokensAt json (texturePropEvents prop) ++ rest) s).1 = 0) :
    ∃ (images : List (Option String × RuckSackImage)) (s' : Session),
      images.map image_summary = images_given ( Session.path_prefix s) prop ∧
      s'.state = State.StateTextureProp ∧
      s'.page = some
        { max_width := max_width_given page.max_width prop
          max_height := max_height_given page.max_height prop
          pow2 := pow2_given page.pow2 prop
          images := page.images ++ images } ∧
      s'.page_key = s.page_key ∧
      Session.path_prefix s' = Session.path_prefix s ∧
      s'.calls = s.calls ++ images.map (fun e => Action.addImage e.1 e.2) ∧
      feed env (tokensAt json (texturePropEvents prop) ++ rest) s = feed env rest s' := by
  cases prop with
  | maxWidth value =>
    have hshape : tokensAt json (texturePropEvents (TextureProp.maxWidth value)) ++ rest =
        ⟨json, propertyName "maxWidth"⟩ :: ⟨json, Event.number value⟩ :: rest := rfl
    have hstep : ∀ ts, feed env (⟨json, propertyName "maxWidth"⟩ :: ts) s =
        feed env ts { s with state := State.StateTextureMaxWidth } := by
      intro ts
      simp only [feed, dispatch, propertyName]
      simp [on_string, hs]
    rw [hshape, hstep] at hok ⊢
    obtain ⟨hacc, hnext⟩ := feed_cons_accepted env _ _ _ hok
    have hcast := on_number_size_accepted json value
      { s with state := State.StateTextureMaxWidth } (Or.inl rfl) hacc
    refine ⟨[], { s with page := some { page with max_width := some value } },
      rfl, hs, by simp [max_width_given, max_height_given, pow2_given], rfl, rfl, by simp, ?_⟩
    rw [hnext]
    simp only [dispatch]
    simp [on_number, hpage, hcast, hs]
  | maxHeight value =>
    have hshape : tokensAt json (texturePropEvents (TextureProp.maxHeight value)) ++ rest =
        ⟨json, propertyName "maxHeight"⟩ :: ⟨json, Event.number value⟩ :: rest := rfl
    have hstep : ∀ ts, feed env (⟨json, propertyName "maxHeight"⟩ :: ts) s =
        feed env ts { s with state := State.StateTextureMaxHeight } := by
      intro ts
      simp only [feed, dispatch, propertyName]
      simp [on_string, hs]
    rw [hshape, hstep] at hok ⊢
    obtain ⟨hacc, hnext⟩ := feed_cons_accepted env _ _ _ hok
    have hcast := on_number_size_accepted json value
      { s with state := State.StateTextureMaxHeight } (Or.inr rfl) hacc
    refine ⟨[], { s with page := some { page with max_height := some value } },
      rfl, hs, by simp [max_width_given, max_height_given, pow2_given], rfl, rfl, by simp, ?_⟩
    rw [hnext]
    simp only [dispatch]
    simp [on_number, hpage, hcast, hs]
  | pow2 value =>
    refine ⟨[], { s with page := some { page with pow2 := some (if value then 1 else 0) } },
      rfl, hs, by simp [max_width_given, max_height_given, pow2_given], rfl, rfl, by simp, ?_⟩
    cases value <;>
      simp only [texturePropEvents, tokensAt_cons, tokensAt_nil, propertyName,
        List.cons_append, List.nil_append, feed, dispatch] <;>
      simp [on_string, on_primitive, hs, hpage]
  | images entries =>
    have hopen : ∀ rest', feed env
        (tokensAt json [propertyName "images", beginObject] ++ rest') s =
        feed env rest' { s with state := State.StateImageName } := by
      intro rest'
      simp only [tokensAt_cons, tokensAt_nil, propertyName, beginObject,
        List.cons_append, List.nil_append, feed, dispatch]
      simp [on_string, on_begin, hs]
    have hshape : tokensAt json (texturePropEvents (TextureProp.images entries)) ++ rest =
        tokensAt json [propertyName "images", beginObject] ++
          (tokensAt json (entries.flatMap imageEntryEvents) ++
            (tokensAt json [endObject] ++ rest)) := by
      simp only [texturePropEvents, tokensAt_append, List.append_assoc]
    rw [hshape, hopen] at hok ⊢
    obtain ⟨images, s1, hsum, hs1, hpage1, hkey1, hroot1, hcalls1, h1⟩ :=
      feed_image_entries_given env json (tokensAt json [endObject] ++ rest) hlib entries
        { s with state := State.StateImageName } page rfl hpage hok
    have hclose : feed env (tokensAt json [endObject] ++ rest) s1 =
        feed env rest { s1 with state := State.StateTextureProp } := by
      simp only [tokensAt_cons, tokensAt_nil, endObject,
        List.cons_append, List.nil_append, feed, dispatch]
      simp [on_end, hs1]
    refine ⟨images, { s1 with state := State.StateTextureProp }, hsum, rfl, ?_, hkey1, hroot1,
      hcalls1, by rw [h1, hclose]⟩
    simp [hpage1, max_width_given, max_height_given, pow2_given]

theorem feed_texture_props_given (env : Env) (json : LaxJsonContext) (rest : List Token)
    (hlib : ∀ calls key image, env.rucksack_page_add_image calls key image = 0)
    (props : List TextureProp) :
    ∀ (s : Session) (page : RuckSackPage), s.state = State.StateTextureProp →
      s.page = some page →
      (feed env (tokensAt json (props.flatMap texturePropEvents) ++ rest) s).1 = 0 →
      ∃ (images : List (Option String × RuckSackImage)) (s' : Session),
        images.map image_summary = props.flatMap (images_given ( Session.path_prefix s)) ∧
        s'.state = State.StateTextureProp ∧
        s'.page = some
          { max_width := props.foldl max_width_given page.max_width
            max_height := props.foldl max_height_given page.max_height
            pow2 := props.foldl pow2_given page.pow2
            images := page.images ++ images } ∧
        s'.page_key = s.page_key ∧
        Session.path_prefix s' = Session.path_prefix s ∧
        s'.calls = s.calls ++ images.map (fun e => Action.addImage e.1 e.2) ∧
        feed env (tokensAt json (props.flatMap texturePropEvents) ++ rest) s =
          feed env rest s' := by
  induction props with
  | nil =>
    intro s page hs hpage _
    exact ⟨[], s, rfl, hs, by simpa using hpage, rfl, rfl, by simp, rfl⟩
  | cons prop props ih =>
    intro s page hs hpage hok
    have hshape : tokensAt json ((prop :: props).flatMap texturePropEvents) ++ rest =
        tokensAt json (texturePropEvents prop) ++
          (tokensAt json (props.flatMap texturePropEvents) ++ rest) := by
      rw [List.flatMap_cons, tokensAt_append, List.append_assoc]
    rw [hshape] at hok ⊢
    obtain ⟨images1, s1, hsum1, hs1, hpage1, hkey1, hroot1, hcalls1, h1⟩ :=
      feed_texture_prop_given env json _ hlib prop s page hs hpage hok
    rw [h1] at hok ⊢
    obtain ⟨images2, s2, hsum2, hs2, hpage2, hkey2, hroot2, hcalls2, h2⟩ :=
      ih s1 _ hs1 hpage1 hok
    refine ⟨images1 ++ images2, s2, ?_, hs2, ?_, hkey2.trans hkey1, hroot2.trans hroot1, ?_, h2⟩
    · rw [List.map_append, hsum1, hsum2, hroot1, List.flatMap_cons]
    · rw [hpage2]
      simp [List.foldl_cons]
    · rw [hcalls2, hcalls1]
      simp

/-- C21, amended: let the events of a texture entry be all accepted, from the
texture-name position of any session, with a library that accepts every image.
Then the calls the entry makes on the bundle are one `addImage` for each of its
images, in the order of the manifest, followed by a single `addPage`, made when
its object closes. That `addPage` has the name of the texture as key and carries
a page with the last `maxWidth`, `maxHeight` and `pow2` the entry gives (none
where it gives none) and exactly the images of the entry, in the order of the
manifest, each under its own name, with the path of its last `path` field
resolved against the root prefix and the anchor tag of its last `anchor` field
(`Center` without one, `Explicit` for an anchor point). Nothing of this depends
on the session the entry starts from; the two numbers of an image are not part
of the statement. -/
theorem C21_texture_page (env : Env) (s : Session) (entry : String × List TextureProp)
    (ts : List Token) (r : Session)
    (hstate : s.state = State.StateTextureName)
    (hlib : ∀ calls key image, env.rucksack_page_add_image calls key image = 0)
    (hts : ts.map Token.event = textureEntryEvents entry)
    (hrun : feed env ts s = (0, r)) :
    ∃ images : List (Option String × RuckSackImage),
      images.map image_summary = spec_images ( Session.path_prefix s) entry.2 ∧
      r.calls = s.calls ++ images.map (fun e => Action.addImage e.1 e.2) ++
        [Action.addPage (some entry.1) (some
          { max_width := spec_max_width entry.2
            max_height := spec_max_height entry.2
            pow2 := spec_pow2 entry.2
            images := images })] ∧
      r.state = State.StateTextureName ∧
      r.page = none := by
  have hcanon : feed env (tokensAt ⟨0, 0⟩ (textureEntryEvents entry)) s = (0, r) :=
    (feed_indep env ts _ s (by rw [hts, tokensAt_event]) (by rw [hrun])).trans hrun
  have hok : (feed env (tokensAt ⟨0, 0⟩ (textureEntryEvents entry)) s).1 = 0 := by rw [hcanon]
  have hshape : tokensAt ⟨0, 0⟩ (textureEntryEvents entry) =
      tokensAt ⟨0, 0⟩ [propertyName entry.1, beginObject] ++
        (tokensAt ⟨0, 0⟩ (entry.2.flatMap texturePropEvents) ++
          (tokensAt ⟨0, 0⟩ [endObject] ++ [])) := by
    simp only [textureEntryEvents, tokensAt_append, List.append_assoc, List.append_nil]
  have hopen : ∀ rest', feed env
      (tokensAt ⟨0, 0⟩ [propertyName entry.1, beginObject] ++ rest') s =
      feed env rest'
        { s with
          page := some rucksack_page_create
          page_key := some entry.1
          state := State.StateTextureProp } := by
    intro rest'
    simp only [tokensAt_cons, tokensAt_nil, propertyName, beginObject,
      List.cons_append, List.nil_append, feed, dispatch]
    simp [on_string, on_begin, hstate]
  rw [hshape, hopen] at hok hcanon
  obtain ⟨images, s1, hsum, hs1, hpage1, hkey1, hroot1, hcalls1, h1⟩ :=
    feed_texture_props_given env ⟨0, 0⟩ (tokensAt ⟨0, 0⟩ [endObject] ++ []) hlib entry.2
      { s with
        page := some rucksack_page_create
        page_key := some entry.1
        state := State.StateTextureProp } rucksack_page_create rfl rfl hok
  rw [h1] at hok hcanon
  have hacc : (on_end env ⟨0, 0⟩ LaxJsonType.Object s1).1 = 0 :=
    (feed_cons_accepted env ⟨⟨0, 0⟩, endObject⟩ [] s1 hok).1
  have hadd : env.rucksack_bundle_add_page s1.calls s1.page_key s1.page = 0 := by
    by_contra hne
    revert hacc
    simp only [on_end, hs1]
    rw [if_pos hne]
    exact parse_error_elim _ _ _
  have hclose : feed env (tokensAt ⟨0, 0⟩ [endObject] ++ []) s1 =
      (0, { s1 with
        calls := s1.calls ++ [Action.addPage s1.page_key s1.page]
        page := none
        page_key := none
        state := State.StateTextureName }) := by
    simp only [tokensAt_cons, tokensAt_nil, endObject,
      List.cons_append, List.nil_append, feed, dispatch]
    simp [on_end, hs1, hadd]
  rw [hclose] at hcanon
  have hr : r = _ := (Prod.mk.inj hcanon).2.symm
  refine ⟨images, hsum, ?_, ?_, ?_⟩
  · rw [hr]
    simp only [hcalls1, hkey1, hpage1, rucksack_page_create, List.nil_append, spec_max_width,
      spec_max_height, spec_pow2]
  · rw [hr]
  · rw [hr]

/-- C21, an example: the entry `demoTextureEntry`, started from a session that
still holds an image anchored to the left with the number 3, makes two
`addImage` calls and then one `addPage` under the key `t`, with the width 128
given last, no height, the flag 0, and the images `i` (path `assets/x.png`,
anchor `Top`) and `j` (path `/abs/y.png`, anchor `Center`), in this order. -/
theorem C21_texture_page_witness :
    ∃ images : List (Option String × RuckSackImage),
      images.map image_summary =
        [ (some "i", some "assets/x.png", RuckSackAnchor.Top)
        , (some "j", some "/abs/y.png", RuckSackAnchor.Center) ] ∧
      (feed demoEnv (tokensAt ⟨2, 3⟩ (textureEntryEvents demoTextureEntry))
        textureNameSession).2.calls =
        [] ++ images.map (fun e => Action.addImage e.1 e.2) ++
          [Action.addPage (some "t") (some
            { max_width := some 128, max_height := none, pow2 := some 0, images := images })] ∧
      (feed demoEnv (tokensAt ⟨2, 3⟩ (textureEntryEvents demoTextureEntry))
        textureNameSession).2.state = State.StateTextureName ∧
      (feed demoEnv (tokensAt ⟨2, 3⟩ (textureEntryEvents demoTextureEntry))
        textureNameSession).2.page = none :=
  C21_texture_page demoEnv textureNameSession demoTextureEntry
    (tokensAt ⟨2, 3⟩ (textureEntryEvents demoTextureEntry))
    (feed demoEnv (tokensAt ⟨2, 3⟩ (textureEntryEvents demoTextureEntry)) textureNameSession).2
    rfl (fun _ _ _ => rfl) (by decide) (by decide)

/-! ## C15: what follows the first error -/

end Rucksack
